import Mathlib

/-! Offline sync reconciliation of jsl-fastline.

A shallow embedding of the sync router `backend/src/routes/sync.js` (the batch reconcilers
`POST /sync/posts`, `/sync/groups`, `/sync/users`, the conflict resolver, the bulk
processor and the change feed) together with the Mongoose models it writes through
(`models/Post.js`, `models/Group.js`, `models/User.js`), and of the sync client in
`frontend/src` (`offline/db.js`, `api/api.js`, `contexts/SyncContext.jsx`).

Conventions of the embedding:

* a collection is the list of its documents in insertion order; `findOne` returns the
  first match and a `find` without `sort` returns the matches in that order;
* every loop iteration comes with an `Env`: the wall clock read by `new Date()`, the
  `ObjectId` handed out by `new Model(...)`, the string `generateInviteCode()` would
  return, and which awaited persistence call (if any) rejects;
* JavaScript numbers that hold versions and counters are integers;
* batch items are JSON objects; a key that is absent from an object is `none`.
-/

namespace Fastline

/-! ## JSON values and plain objects -/

/-- JSON values stored in the schema paths that the sync code passes through untouched. -/
inductive Val where
  | null
  | bool (b : Bool)
  | num (n : Int)
  | str (s : String)
  | list (xs : List String)
  deriving DecidableEq, Repr

/-- A plain object: its own enumerable keys with their values, in insertion order. -/
abbrev Fields := List (String × Val)

/-- Property read `o[k]`; as in `JSON.parse`, the last binding of a repeated key wins. -/
def Fields.get : Fields → String → Option Val
  | [], _ => none
  | kv :: rest, k =>
    match Fields.get rest k with
    | some w => some w
    | none => if kv.1 = k then some kv.2 else none

/-- Property write `o[k] = v`: overwrite an existing key in place, else append it. -/
def Fields.set (o : Fields) (k : String) (v : Val) : Fields :=
  if o.any (fun kv => kv.1 == k) then
    o.map (fun kv => if kv.1 = k then (k, v) else kv)
  else o ++ [(k, v)]

/-- The call `Object.assign(target, source)`: every key of `source` is written, in order. -/
def Fields.assign (target source : Fields) : Fields :=
  source.foldl (fun acc kv => acc.set kv.1 kv.2) target

/-! ## The environment of one loop iteration -/

/-- Which awaited call of the iteration rejects, with the message of the thrown error. -/
inductive Fault where
  | none
  | find (msg : String)
  | save (msg : String)
  | count (msg : String)
  deriving DecidableEq, Repr

/-- What one loop iteration reads from outside the request. -/
structure Env where
  now : Nat
  oid : Nat
  fault : Fault := Fault.none
  inviteCode : String := ""
  deriving DecidableEq, Repr

/-- String functions of the Mongoose schemas, kept uninterpreted: `trim` is the `trim: true`
setter (post `content`, user `phone`, `username`, `displayName`), `normTag` the
`lowercase`/`trim` setters of each post tag, `autoTags` the word-frequency extraction in
the `pre('save')` middleware of `models/Post.js`. Every general statement below holds for
all of them. -/
structure Hooks where
  trim : String → String
  normTag : String → String
  autoTags : String → List String

/-- The instance used to evaluate the examples: strings are left alone, no tag is
extracted. -/
def plainHooks : Hooks := ⟨fun s => s, fun s => s, fun _ => []⟩

/-! ## Documents -/

/-- A document of the `Post` collection (`models/Post.js`). -/
structure Post where
  id : Nat
  userId : Nat
  localId : Option String
  syncStatus : String
  version : Int
  content : String
  tags : List String
  isHidden : Bool
  updatedAt : Nat
  fields : Fields
  deriving DecidableEq, Repr

/-- A document of the `Group` collection (`models/Group.js`). -/
structure Group where
  id : Nat
  creatorId : Nat
  localId : Option String
  syncStatus : String
  members : List Nat
  admins : List Nat
  memberCount : Int
  privacy : String
  inviteCode : Option String
  isActive : Bool
  updatedAt : Nat
  fields : Fields
  deriving DecidableEq, Repr

/-- A document of the `User` collection (`models/User.js`). -/
structure User where
  id : Nat
  phone : Option String
  localId : Option String
  syncStatus : String
  username : Option String
  displayName : Option String
  postCount : Int
  groupCount : Int
  isActive : Bool
  updatedAt : Nat
  fields : Fields
  deriving DecidableEq, Repr

/-- The three collections. -/
structure Db where
  posts : List Post
  groups : List Group
  users : List User
  deriving DecidableEq, Repr

/-! ## Batch items -/

/-- One element of `req.body.posts`. -/
structure PostData where
  localId : Option String := none
  syncStatus : Option String := none
  version : Option Int := none
  userId : Option Nat := none
  content : Option String := none
  tags : Option (List String) := none
  isHidden : Option Bool := none
  fields : Fields := []
  deriving DecidableEq, Repr

/-- One element of `req.body.groups`. -/
structure GroupData where
  localId : Option String := none
  syncStatus : Option String := none
  version : Option Int := none
  creatorId : Option Nat := none
  members : Option (List Nat) := none
  admins : Option (List Nat) := none
  memberCount : Option Int := none
  privacy : Option String := none
  inviteCode : Option String := none
  isActive : Option Bool := none
  fields : Fields := []
  deriving DecidableEq, Repr

/-- One element of `req.body.users`. -/
structure UserData where
  localId : Option String := none
  phone : Option String := none
  syncStatus : Option String := none
  version : Option Int := none
  username : Option String := none
  displayName : Option String := none
  postCount : Option Int := none
  groupCount : Option Int := none
  isActive : Option Bool := none
  fields : Fields := []
  deriving DecidableEq, Repr

/-! ## Result entries -/

/-- Entry `{ localId, serverId, version }` pushed by the posts route. -/
structure PostAck where
  localId : Option String
  serverId : Nat
  version : Int
  deriving DecidableEq, Repr

/-- Entry `{ localId, serverId }` pushed by the groups route. -/
structure GroupAck where
  localId : Option String
  serverId : Nat
  deriving DecidableEq, Repr

/-- Entry `{ localId, serverId, phone }` pushed by the users route. -/
structure UserAck where
  localId : Option String
  serverId : Nat
  phone : Option String
  deriving DecidableEq, Repr

/-- Entry `{ localId, message, serverVersion, clientVersion }` pushed on a version conflict. -/
structure ConflictEntry where
  localId : Option String
  message : String
  serverVersion : Int
  clientVersion : Option Int
  deriving DecidableEq, Repr

/-- Entry `{ localId, error }` pushed by the per-item `catch`. -/
structure ErrorEntry where
  localId : Option String
  error : String
  deriving DecidableEq, Repr

/-- The `results` object of a batch route. -/
structure Results (α : Type) where
  created : List α
  updated : List α
  conflicts : List ConflictEntry
  errors : List ErrorEntry
  deriving DecidableEq, Repr

/-- The literal `{ created: [], updated: [], conflicts: [], errors: [] }`. -/
def Results.empty {α : Type} : Results α := ⟨[], [], [], []⟩

/-- The `summary` object of a batch response. -/
structure Summary where
  total : Nat
  successful : Nat
  conflicts : Nat
  errors : Nat
  deriving DecidableEq, Repr

/-- What a batch route sends: `res.status(code).json({ error })` or the 200 body. -/
inductive Response (α : Type) where
  | failure (status : Nat) (error : String)
  | ok (message : String) (results : Results α) (summary : Summary)
  deriving DecidableEq, Repr

/-- The 200 body built at the end of each batch route. -/
def respond {α : Type} (total : Nat) (r : Results α) : Response α :=
  Response.ok "Sync completed" r
    { total := total
      successful := r.created.length + r.updated.length
      conflicts := r.conflicts.length
      errors := r.errors.length }

/-! ## Persistence primitives -/

/-- The query `Post.findOne({ localId })`: the first post whose `localId` equals the key. -/
def Db.findPost (db : Db) (localId : Option String) : Option Post :=
  db.posts.find? (fun p => p.localId == localId)

/-- A successful `doc.save()` of a document loaded by `findOne`: the document the query
`q` returned (the first match) is replaced by its saved state. `_id` is unique within a
collection, so this is the document `save()` addresses by `_id`. -/
def saveExisting {α : Type} (q : α → Bool) (saved : α) : List α → List α
  | [] => []
  | x :: rest => if q x then saved :: rest else x :: saveExisting q saved rest

/-- The update `User.findByIdAndUpdate(userId, { $inc: { postCount: 1 } })`; the schema option
`timestamps: true` also refreshes `updatedAt`. -/
def incPostCount (now userId : Nat) : List User → List User
  | [] => []
  | u :: rest =>
    if u.id = userId then { u with postCount := u.postCount + 1, updatedAt := now } :: rest
    else u :: incPostCount now userId rest

/-- The update `User.findByIdAndUpdate(userId, { $inc: { groupCount: 1 } })`. -/
def incGroupCount (now userId : Nat) : List User → List User
  | [] => []
  | u :: rest =>
    if u.id = userId then { u with groupCount := u.groupCount + 1, updatedAt := now } :: rest
    else u :: incGroupCount now userId rest

/-- The `pre('save')` middleware of `models/Post.js`: tags are re-extracted when `content`
was modified and is not empty, and `updatedAt` is set to the current time. -/
def Post.preSave (H : Hooks) (now : Nat) (contentModified : Bool) (p : Post) : Post :=
  let p1 : Post :=
    if contentModified && decide (0 < p.content.length) then
      { p with tags := (H.autoTags p.content).map H.normTag }
    else p
  { p1 with updatedAt := now }

/-- The JavaScript comparison `post.version > postData.version`; it is `false` when the
item carries no `version` (comparison with `undefined`). -/
def versionNewer (serverVersion : Int) (clientVersion : Option Int) : Bool :=
  match clientVersion with
  | some c => decide (c < serverVersion)
  | none => false

/-- The call `Object.assign(post, postFields)` where `postFields` is the item without
`localId` and `syncStatus`. -/
def Post.assign (H : Hooks) (p : Post) (d : PostData) : Post :=
  { p with
    version := d.version.getD p.version
    userId := d.userId.getD p.userId
    content := (d.content.map H.trim).getD p.content
    tags := (d.tags.map (fun ts => ts.map H.normTag)).getD p.tags
    isHidden := d.isHidden.getD p.isHidden
    fields := p.fields.assign d.fields }

/-- The in-memory post right before `await post.save()` in the update branch. -/
def Post.accept (H : Hooks) (p : Post) (d : PostData) : Post :=
  let q := Post.assign H p d
  { q with syncStatus := "synced", version := q.version + 1 }

/-- The post written by a successful `post.save()` in the update branch. -/
def Post.updated (H : Hooks) (now : Nat) (p : Post) (d : PostData) : Post :=
  let q := Post.accept H p d
  Post.preSave H now (decide (q.content ≠ p.content)) q

/-- The document `new Post({ ...postFields, localId, userId, syncStatus: 'synced',
version: 1 })` as written by a successful `post.save()`. -/
def Post.fresh (H : Hooks) (e : Env) (userId : Nat) (d : PostData) : Post :=
  Post.preSave H e.now d.content.isSome
    { id := e.oid
      userId := userId
      localId := d.localId
      syncStatus := "synced"
      version := 1
      content := (d.content.map H.trim).getD ""
      tags := (d.tags.map (fun ts => ts.map H.normTag)).getD []
      isHidden := d.isHidden.getD false
      updatedAt := e.now
      fields := Fields.assign [] d.fields }

/-! ## POST /sync/posts -/

/-- The `catch (error)` of one iteration: `results.errors.push({ localId, error })`. -/
def pushError {α : Type} (r : Results α) (localId : Option String) (msg : String) :
    Results α :=
  { r with errors := r.errors ++ [{ localId := localId, error := msg }] }

/-- One iteration of `for (const postData of posts)` in `router.post('/posts')`. -/
def syncPostItem (H : Hooks) (userId : Nat) (s : Db × Results PostAck)
    (x : PostData × Env) : Db × Results PostAck :=
  let db := s.1
  let r := s.2
  let d := x.1
  let e := x.2
  match e.fault with
  | Fault.find msg => (db, pushError r d.localId msg)
  | _ =>
    match db.findPost d.localId with
    | some post =>
      if versionNewer post.version d.version then
        (db, { r with conflicts := r.conflicts ++
          [{ localId := d.localId
             message := "Version conflict - server has newer version"
             serverVersion := post.version
             clientVersion := d.version }] })
      else
        match e.fault with
        | Fault.save msg => (db, pushError r d.localId msg)
        | _ =>
          let saved := Post.updated H e.now post d
          ({ db with posts := saveExisting (fun p => p.localId == d.localId) saved db.posts },
           { r with updated := r.updated ++
             [{ localId := d.localId, serverId := saved.id, version := saved.version }] })
    | none =>
      match e.fault with
      | Fault.save msg => (db, pushError r d.localId msg)
      | Fault.count msg =>
        ({ db with posts := db.posts ++ [Post.fresh H e userId d] },
         pushError r d.localId msg)
      | _ =>
        let saved := Post.fresh H e userId d
        ({ db with posts := db.posts ++ [saved]
                   users := incPostCount e.now userId db.users },
         { r with created := r.created ++
           [{ localId := d.localId, serverId := saved.id, version := saved.version }] })

/-- The whole loop of `router.post('/posts')`, started from any loop state. -/
def syncPostsFrom (H : Hooks) (userId : Nat) (s : Db × Results PostAck)
    (posts : List (PostData × Env)) : Db × Results PostAck :=
  posts.foldl (syncPostItem H userId) s

/-- The handler `router.post('/posts')`: `none` is a body whose `posts` is not an array. -/
def syncPosts (H : Hooks) (userId : Nat) (db : Db)
    (posts : Option (List (PostData × Env))) : Db × Response PostAck :=
  match posts with
  | none => (db, Response.failure 400 "Posts array is required")
  | some items =>
    let out := syncPostsFrom H userId (db, Results.empty) items
    (out.1, respond items.length out.2)

/-- One iteration of the posts loop from the moment `await Post.findOne({ localId })` has
returned `found`: the version check reads the loaded document, and `save()` writes the state
of the loaded document into the store as it is at that moment. Other requests may have
run between the lookup and the save. -/
def syncPostAfterFind (H : Hooks) (userId : Nat) (found : Option Post)
    (s : Db × Results PostAck) (x : PostData × Env) : Db × Results PostAck :=
  let db := s.1
  let r := s.2
  let d := x.1
  let e := x.2
  match found with
  | some post =>
    if versionNewer post.version d.version then
      (db, { r with conflicts := r.conflicts ++
        [{ localId := d.localId
           message := "Version conflict - server has newer version"
           serverVersion := post.version
           clientVersion := d.version }] })
    else
      match e.fault with
      | Fault.save msg => (db, pushError r d.localId msg)
      | _ =>
        let saved := Post.updated H e.now post d
        ({ db with posts := saveExisting (fun p => p.localId == d.localId) saved db.posts },
         { r with updated := r.updated ++
           [{ localId := d.localId, serverId := saved.id, version := saved.version }] })
  | none =>
    match e.fault with
    | Fault.save msg => (db, pushError r d.localId msg)
    | Fault.count msg =>
      ({ db with posts := db.posts ++ [Post.fresh H e userId d] },
       pushError r d.localId msg)
    | _ =>
      let saved := Post.fresh H e userId d
      ({ db with posts := db.posts ++ [saved]
                 users := incPostCount e.now userId db.users },
       { r with created := r.created ++
         [{ localId := d.localId, serverId := saved.id, version := saved.version }] })

/-! ## POST /sync/groups -/

/-- The query `Group.findOne({ localId })`. -/
def Db.findGroup (db : Db) (localId : Option String) : Option Group :=
  db.groups.find? (fun g => g.localId == localId)

/-- JavaScript falsiness of an optional string (`!value`): absent or empty. -/
def falsy (v : Option String) : Bool :=
  match v with
  | some t => decide (t = "")
  | none => true

/-- The `pre('save')` middleware of `models/Group.js`. -/
def Group.preSave (e : Env) (isNew : Bool) (g : Group) : Group :=
  let g1 : Group :=
    if isNew && falsy g.inviteCode && decide (g.privacy ≠ "public") then
      { g with inviteCode := some e.inviteCode }
    else g
  let g2 : Group :=
    if isNew && !(g1.admins.contains g1.creatorId) then
      { g1 with admins := g1.admins ++ [g1.creatorId] }
    else g1
  { g2 with memberCount := (g2.members.length : Int), updatedAt := e.now }

/-- The call `Object.assign(group, groupFields)` where `groupFields` is the item without
`localId` and `syncStatus`; `version` is no path of the group schema and is not stored. -/
def Group.assign (g : Group) (d : GroupData) : Group :=
  { g with
    creatorId := d.creatorId.getD g.creatorId
    members := d.members.getD g.members
    admins := d.admins.getD g.admins
    memberCount := d.memberCount.getD g.memberCount
    privacy := d.privacy.getD g.privacy
    inviteCode := match d.inviteCode with
      | some c => some c
      | none => g.inviteCode
    isActive := d.isActive.getD g.isActive
    fields := g.fields.assign d.fields }

/-- The group written by a successful `group.save()` in the update branch. -/
def Group.updated (e : Env) (g : Group) (d : GroupData) : Group :=
  Group.preSave e false { Group.assign g d with syncStatus := "synced" }

/-- The document `new Group({ ...groupFields, localId, creatorId: userId, syncStatus:
'synced', members: [userId], admins: [userId], memberCount: 1 })` as written by a
successful `group.save()`. -/
def Group.fresh (e : Env) (userId : Nat) (d : GroupData) : Group :=
  Group.preSave e true
    { id := e.oid
      creatorId := userId
      localId := d.localId
      syncStatus := "synced"
      members := [userId]
      admins := [userId]
      memberCount := 1
      privacy := d.privacy.getD "public"
      inviteCode := d.inviteCode
      isActive := d.isActive.getD true
      updatedAt := e.now
      fields := Fields.assign [] d.fields }

/-- One iteration of `for (const groupData of groups)` in `router.post('/groups')`. -/
def syncGroupItem (userId : Nat) (s : Db × Results GroupAck)
    (x : GroupData × Env) : Db × Results GroupAck :=
  let db := s.1
  let r := s.2
  let d := x.1
  let e := x.2
  match e.fault with
  | Fault.find msg => (db, pushError r d.localId msg)
  | _ =>
    match db.findGroup d.localId with
    | some group =>
      match e.fault with
      | Fault.save msg => (db, pushError r d.localId msg)
      | _ =>
        let saved := Group.updated e group d
        ({ db with groups := saveExisting (fun g => g.localId == d.localId) saved db.groups },
         { r with updated := r.updated ++ [{ localId := d.localId, serverId := saved.id }] })
    | none =>
      match e.fault with
      | Fault.save msg => (db, pushError r d.localId msg)
      | Fault.count msg =>
        ({ db with groups := db.groups ++ [Group.fresh e userId d] },
         pushError r d.localId msg)
      | _ =>
        let saved := Group.fresh e userId d
        ({ db with groups := db.groups ++ [saved]
                   users := incGroupCount e.now userId db.users },
         { r with created := r.created ++ [{ localId := d.localId, serverId := saved.id }] })

/-- The whole loop of `router.post('/groups')`, started from any loop state. -/
def syncGroupsFrom (userId : Nat) (s : Db × Results GroupAck)
    (groups : List (GroupData × Env)) : Db × Results GroupAck :=
  groups.foldl (syncGroupItem userId) s

/-- The handler `router.post('/groups')`. -/
def syncGroups (userId : Nat) (db : Db)
    (groups : Option (List (GroupData × Env))) : Db × Response GroupAck :=
  match groups with
  | none => (db, Response.failure 400 "Groups array is required")
  | some items =>
    let out := syncGroupsFrom userId (db, Results.empty) items
    (out.1, respond items.length out.2)

/-! ## POST /sync/users -/

/-- The query `User.findOne({ $or: [{ phone }, { localId }] })`. -/
def Db.findUser (db : Db) (phone localId : Option String) : Option User :=
  db.users.find? (fun u => u.phone == phone || u.localId == localId)

/-- The replacement `phone.replace(/\D/g, '')`: only the digits are kept. -/
def digitsOnly (phone : String) : String :=
  String.mk (phone.toList.filter Char.isDigit)

/-- The `pre('save')` middleware of `models/User.js`. -/
def User.preSave (now : Nat) (phoneModified usernameModified : Bool) (u : User) : User :=
  let u1 : User := if phoneModified then { u with phone := u.phone.map digitsOnly } else u
  let u2 : User :=
    if usernameModified && falsy u1.displayName then { u1 with displayName := u1.username }
    else u1
  { u2 with updatedAt := now }

/-- The call `Object.assign(user, userFields)` where `userFields` is the item without
`localId` and `phone`; `version` is no path of the user schema and is not stored. -/
def User.assign (H : Hooks) (u : User) (d : UserData) : User :=
  { u with
    syncStatus := d.syncStatus.getD u.syncStatus
    username := match d.username with
      | some n => some (H.trim n)
      | none => u.username
    displayName := match d.displayName with
      | some n => some (H.trim n)
      | none => u.displayName
    postCount := d.postCount.getD u.postCount
    groupCount := d.groupCount.getD u.groupCount
    isActive := d.isActive.getD u.isActive
    fields := u.fields.assign d.fields }

/-- The user written by a successful `user.save()` in the update branch. -/
def User.updated (H : Hooks) (now : Nat) (u : User) (d : UserData) : User :=
  let q : User := { User.assign H u d with syncStatus := "synced" }
  User.preSave now false (decide (q.username ≠ u.username)) q

/-- The document `new User({ ...userFields, localId, phone, syncStatus: 'synced' })` as
written by a successful `user.save()`. -/
def User.fresh (H : Hooks) (e : Env) (d : UserData) : User :=
  User.preSave e.now d.phone.isSome d.username.isSome
    { id := e.oid
      phone := d.phone.map H.trim
      localId := d.localId
      syncStatus := "synced"
      username := d.username.map H.trim
      displayName := d.displayName.map H.trim
      postCount := d.postCount.getD 0
      groupCount := d.groupCount.getD 0
      isActive := d.isActive.getD true
      updatedAt := e.now
      fields := Fields.assign [] d.fields }

/-- One iteration of `for (const userData of users)` in `router.post('/users')`. -/
def syncUserItem (H : Hooks) (s : Db × Results UserAck)
    (x : UserData × Env) : Db × Results UserAck :=
  let db := s.1
  let r := s.2
  let d := x.1
  let e := x.2
  match e.fault with
  | Fault.find msg => (db, pushError r d.localId msg)
  | _ =>
    match db.findUser d.phone d.localId with
    | some user =>
      match e.fault with
      | Fault.save msg => (db, pushError r d.localId msg)
      | _ =>
        let saved := User.updated H e.now user d
        ({ db with
            users := saveExisting (fun u => u.phone == d.phone || u.localId == d.localId)
              saved db.users },
         { r with updated := r.updated ++
           [{ localId := d.localId, serverId := saved.id, phone := saved.phone }] })
    | none =>
      match e.fault with
      | Fault.save msg => (db, pushError r d.localId msg)
      | _ =>
        let saved := User.fresh H e d
        ({ db with users := db.users ++ [saved] },
         { r with created := r.created ++
           [{ localId := d.localId, serverId := saved.id, phone := saved.phone }] })

/-- The whole loop of `router.post('/users')`, started from any loop state. -/
def syncUsersFrom (H : Hooks) (s : Db × Results UserAck)
    (users : List (UserData × Env)) : Db × Results UserAck :=
  users.foldl (syncUserItem H) s

/-- The handler `router.post('/users')`. -/
def syncUsers (H : Hooks) (db : Db)
    (users : Option (List (UserData × Env))) : Db × Response UserAck :=
  match users with
  | none => (db, Response.failure 400 "Users array is required")
  | some items =>
    let out := syncUsersFrom H (db, Results.empty) items
    (out.1, respond items.length out.2)

/-- Concatenation of two result objects, list by list. -/
def Results.append {α : Type} (a b : Results α) : Results α :=
  { created := a.created ++ b.created
    updated := a.updated ++ b.updated
    conflicts := a.conflicts ++ b.conflicts
    errors := a.errors ++ b.errors }

/-- The four lists of a batch result. -/
inductive Outcome where
  | created
  | updated
  | conflict
  | error
  deriving DecidableEq, Repr

/-- The `localId`s listed under one outcome, in list order. -/
def Results.keys {α : Type} (loc : α → Option String) (r : Results α) :
    Outcome → List (Option String)
  | Outcome.created => r.created.map loc
  | Outcome.updated => r.updated.map loc
  | Outcome.conflict => r.conflicts.map ConflictEntry.localId
  | Outcome.error => r.errors.map ErrorEntry.localId

/-- The inputs that received outcome `t`, in input order. -/
def pick (t : Outcome) : List (Option String) → List Outcome → List (Option String)
  | k :: ks, o :: os => if o = t then k :: pick t ks os else pick t ks os
  | _, _ => []

/-- Every input received exactly one outcome, and each list of the result holds the inputs
with its outcome in input order. -/
def Classified {α : Type} (loc : α → Option String) (inputs : List (Option String))
    (r : Results α) : Prop :=
  ∃ tags : List Outcome, tags.length = inputs.length ∧ ∀ t, r.keys loc t = pick t inputs tags

/-! ## DELETE /posts/:postId (routes/posts.js) -/

/-- The query `Model.findById(id)` on a collection. -/
def findById {α : Type} (key : α → Nat) (coll : List α) (id : Option Nat) : Option α :=
  coll.find? (fun x => some (key x) == id)

/-- The update `User.findByIdAndUpdate(userId, { $inc: { postCount: -1 } })`. -/
def decPostCount (now userId : Nat) : List User → List User
  | [] => []
  | u :: rest =>
    if u.id = userId then { u with postCount := u.postCount - 1, updatedAt := now } :: rest
    else u :: decPostCount now userId rest

/-- The handler `router.delete('/:postId')`: the soft delete sets `isHidden` and
`syncStatus: 'deleted'`. The second component is the HTTP status. -/
def deletePost (H : Hooks) (e : Env) (userId : Nat) (isAdmin : Bool) (db : Db)
    (postId : Nat) : Db × Nat :=
  match e.fault with
  | Fault.find _ => (db, 500)
  | _ =>
    match findById Post.id db.posts (some postId) with
    | none => (db, 404)
    | some post =>
      if post.userId ≠ userId ∧ isAdmin = false then (db, 403)
      else
        match e.fault with
        | Fault.save _ => (db, 500)
        | Fault.count _ =>
          ({ db with
              posts := saveExisting (fun x => some x.id == some postId)
                (Post.preSave H e.now false
                  { post with isHidden := true, syncStatus := "deleted" }) db.posts },
           500)
        | _ =>
          ({ db with
              posts := saveExisting (fun x => some x.id == some postId)
                (Post.preSave H e.now false
                  { post with isHidden := true, syncStatus := "deleted" }) db.posts
              users := decPostCount e.now userId db.users },
           200)

/-! ## POST /sync/resolve-conflict -/

/-- The call `Object.assign(post, data)` with the whole `data` object: unlike the batch
route, `localId` and `syncStatus` are not taken out of it. -/
def Post.assignAll (H : Hooks) (p : Post) (d : PostData) : Post :=
  { Post.assign H p d with
    localId := match d.localId with
      | some l => some l
      | none => p.localId
    syncStatus := d.syncStatus.getD p.syncStatus }

/-- The call `Object.assign(group, data)` with the whole `data` object. -/
def Group.assignAll (g : Group) (d : GroupData) : Group :=
  { Group.assign g d with
    localId := match d.localId with
      | some l => some l
      | none => g.localId
    syncStatus := d.syncStatus.getD g.syncStatus }

/-- The body of a resolve request. `data` is one JSON object; `postData` is that object
read through the post schema and `groupData` the same object read through the group schema
(an absent `data` is the object without keys). -/
structure ResolveRequest where
  entityType : Option String := none
  localId : Option String := none
  serverId : Option Nat := none
  resolution : Option String := none
  postData : PostData := {}
  groupData : GroupData := {}
  deriving DecidableEq, Repr

/-- What the resolve route sends: an error status or `result.toJSON()`. -/
inductive ResolveResponse where
  | failure (status : Nat) (error : String)
  | post (result : Post)
  | group (result : Group)
  deriving DecidableEq, Repr

/-- The in-memory post right before `await post.save()` in `case 'post'`. -/
def Post.resolve (H : Hooks) (resolution : String) (post : Post) (data : PostData) : Post :=
  if resolution = "client" then
    let q := Post.assignAll H post data
    { q with syncStatus := "synced", version := q.version + 1 }
  else if resolution = "server" then
    { post with syncStatus := "synced" }
  else if resolution = "merge" then
    let q := Post.assignAll H post { data with version := some (post.version + 1) }
    { q with syncStatus := "synced" }
  else post

/-- The post written by a successful `post.save()` in `case 'post'`. -/
def Post.resolved (H : Hooks) (now : Nat) (resolution : String) (post : Post)
    (data : PostData) : Post :=
  Post.preSave H now (decide ((Post.resolve H resolution post data).content ≠ post.content))
    (Post.resolve H resolution post data)

/-- The group written by a successful `group.save()` in `case 'group'`. -/
def Group.resolved (e : Env) (resolution : String) (group : Group) (data : GroupData) :
    Group :=
  Group.preSave e false
    { (if resolution = "client" then Group.assignAll group data else group) with
      syncStatus := "synced" }

/-- The handler `router.post('/resolve-conflict')`. -/
def resolveConflict (H : Hooks) (e : Env) (db : Db) (req : ResolveRequest) :
    Db × ResolveResponse :=
  if falsy req.entityType || falsy req.resolution then
    (db, ResolveResponse.failure 400 "Missing required fields")
  else if req.entityType = some "post" then
    match e.fault with
    | Fault.find _ => (db, ResolveResponse.failure 500 "Failed to resolve conflict")
    | _ =>
      match findById Post.id db.posts req.serverId with
      | none => (db, ResolveResponse.failure 404 "Post not found")
      | some post =>
        match e.fault with
        | Fault.save _ => (db, ResolveResponse.failure 500 "Failed to resolve conflict")
        | _ =>
          ({ db with
              posts := saveExisting (fun x => some x.id == req.serverId)
                (Post.resolved H e.now (req.resolution.getD "") post req.postData) db.posts },
           ResolveResponse.post
             (Post.resolved H e.now (req.resolution.getD "") post req.postData))
  else if req.entityType = some "group" then
    match e.fault with
    | Fault.find _ => (db, ResolveResponse.failure 500 "Failed to resolve conflict")
    | _ =>
      match findById Group.id db.groups req.serverId with
      | none => (db, ResolveResponse.failure 404 "Group not found")
      | some group =>
        match e.fault with
        | Fault.save _ => (db, ResolveResponse.failure 500 "Failed to resolve conflict")
        | _ =>
          ({ db with
              groups := saveExisting (fun x => some x.id == req.serverId)
                (Group.resolved e (req.resolution.getD "") group req.groupData) db.groups },
           ResolveResponse.group
             (Group.resolved e (req.resolution.getD "") group req.groupData))
  else (db, ResolveResponse.failure 400 "Invalid entity type")

/-! ## processBulkEntities (POST /sync/bulk) -/

/-- The counters returned by `processBulkEntities`. -/
structure BulkCounters where
  created : Nat := 0
  updated : Nat := 0
  skipped : Nat := 0
  errors : Nat := 0
  deriving DecidableEq, Repr

/-- What `processBulkEntities` uses of its arguments `Model`, `type` and `userId`:
`α` is the document type and `δ` the type of the entities sent by the client. -/
structure BulkModel (α δ : Type) where
  /-- The `_id` of a stored document. -/
  id : α → Nat
  /-- The `localId` of a stored document. -/
  localId : α → Option String
  /-- The `localId` taken out of an entity by `const { localId, ...entityData } = entity`. -/
  entityLocalId : δ → Option String
  /-- The stored document after `$set: { ...entityData, syncStatus: 'synced', updatedAt }`. -/
  set : Env → α → δ → α
  /-- The document inserted for `newEntity`. -/
  newEntity : Env → δ → α

/-- One element of the `operations` array handed to `Model.bulkWrite`. -/
inductive BulkOp (α δ : Type) where
  | updateOne (id : Nat) (e : Env) (entityData : δ)
  | insertOne (document : α)

/-- Apply `$set` to the first document with the given `_id`. -/
def setById {α δ : Type} (M : BulkModel α δ) (id : Nat) (e : Env) (d : δ) :
    List α → List α
  | [] => []
  | x :: rest => if M.id x = id then M.set e x d :: rest else x :: setById M id e d rest

/-- The effect of one operation of `bulkWrite` on the collection. -/
def BulkOp.apply {α δ : Type} (M : BulkModel α δ) (coll : List α) : BulkOp α δ → List α
  | BulkOp.updateOne id e d => setById M id e d coll
  | BulkOp.insertOne doc => coll ++ [doc]

/-- The call `Model.bulkWrite(operations)`, an ordered bulk write: the operations are
applied in order; when `failAt = some k` with `k` an index of the array, operation `k`
fails, the operations before it stay applied and the call rejects (`false`). -/
def bulkWrite {α δ : Type} (M : BulkModel α δ) (coll : List α) (ops : List (BulkOp α δ))
    (failAt : Option Nat) : List α × Bool :=
  match failAt with
  | some k =>
    if k < ops.length then ((ops.take k).foldl (BulkOp.apply M) coll, false)
    else (ops.foldl (BulkOp.apply M) coll, true)
  | none => (ops.foldl (BulkOp.apply M) coll, true)

/-- One iteration of `for (const entity of batch)`: the lookup runs against the collection
as it is before the chunk is written. -/
def bulkPlan {α δ : Type} (M : BulkModel α δ) (coll : List α)
    (s : List (BulkOp α δ) × BulkCounters) (x : δ × Env) : List (BulkOp α δ) × BulkCounters :=
  match x.2.fault with
  | Fault.find _ => (s.1, { s.2 with errors := s.2.errors + 1 })
  | _ =>
    match coll.find? (fun doc => M.localId doc == M.entityLocalId x.1) with
    | some existing =>
      (s.1 ++ [BulkOp.updateOne (M.id existing) x.2 x.1],
       { s.2 with updated := s.2.updated + 1 })
    | none =>
      (s.1 ++ [BulkOp.insertOne (M.newEntity x.2 x.1)],
       { s.2 with created := s.2.created + 1 })

/-- One iteration of the outer loop: plan the chunk, then execute it with `bulkWrite`. -/
def bulkChunk {α δ : Type} (M : BulkModel α δ) (s : List α × BulkCounters)
    (chunk : List (δ × Env) × Option Nat) : List α × BulkCounters :=
  let planned := chunk.1.foldl (bulkPlan M s.1) ([], s.2)
  if 0 < planned.1.length then
    let written := bulkWrite M s.1 planned.1 chunk.2
    if written.2 then (written.1, planned.2)
    else (written.1, { planned.2 with errors := planned.2.errors + planned.1.length })
  else (s.1, planned.2)

/-- The slices `entities.slice(i, i + size)` for `i = 0, size, 2 * size, ...`. -/
def slices {α : Type} (size : Nat) : Nat → List α → List (List α)
  | 0, _ => []
  | fuel + 1, l => if l.isEmpty then [] else l.take size :: slices size fuel (l.drop size)

/-- The slices paired with what `bulkWrite` does on each of them. -/
def withFailures {α : Type} (failAt : Nat → Option Nat) :
    Nat → List (List α) → List (List α × Option Nat)
  | _, [] => []
  | i, c :: rest => (c, failAt i) :: withFailures failAt (i + 1) rest

/-- The helper `processBulkEntities(entities, Model, type, userId)` with `batchSize = 50`.
`failAt i` tells whether, and at which operation, the `bulkWrite` of chunk `i` rejects. -/
def processBulkEntities {α δ : Type} (M : BulkModel α δ) (coll : List α)
    (entities : List (δ × Env)) (failAt : Nat → Option Nat) : List α × BulkCounters :=
  (withFailures failAt 0 (slices 50 entities.length entities)).foldl (bulkChunk M) (coll, {})

/-- The stored post after `$set: { ...entityData, syncStatus: 'synced', updatedAt }`:
every path the entity carries is overwritten, `version` included; no middleware runs. -/
def Post.bulkSet (H : Hooks) (e : Env) (p : Post) (d : PostData) : Post :=
  { Post.assign H p d with syncStatus := "synced", updatedAt := e.now }

/-- The post inserted for `{ ...entityData, localId, syncStatus: 'synced', userId }`: the
schema defaults fill the absent paths (`version: 1`); no middleware runs. -/
def Post.bulkNew (H : Hooks) (userId : Nat) (e : Env) (d : PostData) : Post :=
  { id := e.oid
    userId := userId
    localId := d.localId
    syncStatus := "synced"
    version := d.version.getD 1
    content := (d.content.map H.trim).getD ""
    tags := (d.tags.map (fun ts => ts.map H.normTag)).getD []
    isHidden := d.isHidden.getD false
    updatedAt := e.now
    fields := Fields.assign [] d.fields }

/-- The arguments `(Post, 'post', userId)` of `processBulkEntities`. -/
def postBulk (H : Hooks) (userId : Nat) : BulkModel Post PostData :=
  { id := Post.id
    localId := Post.localId
    entityLocalId := PostData.localId
    set := Post.bulkSet H
    newEntity := Post.bulkNew H userId }

/-- The stored group after `$set: { ...entityData, syncStatus: 'synced', updatedAt }`. -/
def Group.bulkSet (e : Env) (g : Group) (d : GroupData) : Group :=
  { Group.assign g d with syncStatus := "synced", updatedAt := e.now }

/-- The group inserted for `newEntity` with `creatorId = userId`; the creator becomes the
only member and admin when the entity carries no member. -/
def Group.bulkNew (userId : Nat) (e : Env) (d : GroupData) : Group :=
  let noMembers : Bool :=
    match d.members with
    | some ms => ms.isEmpty
    | none => true
  { id := e.oid
    creatorId := userId
    localId := d.localId
    syncStatus := "synced"
    members := if noMembers then [userId] else d.members.getD []
    admins := if noMembers then [userId] else d.admins.getD []
    memberCount := if noMembers then 1 else d.memberCount.getD 0
    privacy := d.privacy.getD "public"
    inviteCode := d.inviteCode
    isActive := d.isActive.getD true
    updatedAt := e.now
    fields := Fields.assign [] d.fields }

/-- The arguments `(Group, 'group', userId)` of `processBulkEntities`. -/
def groupBulk (userId : Nat) : BulkModel Group GroupData :=
  { id := Group.id
    localId := Group.localId
    entityLocalId := GroupData.localId
    set := Group.bulkSet
    newEntity := Group.bulkNew userId }

/-- The sum `created + updated + skipped + errors` of the counters. -/
def BulkCounters.total (c : BulkCounters) : Nat :=
  c.created + c.updated + c.skipped + c.errors

/-! ## GET /sync/changes -/

/-- The query string of a changes pull: `lastSync` as a timestamp, `entityTypes` already
split at the commas, and `parseInt(limit)`, a non-negative integer. -/
structure ChangesQuery where
  lastSync : Option Nat := none
  entityTypes : Option (List String) := none
  limit : Option Nat := none
  deriving DecidableEq, Repr

/-- The cursor methods `.limit(n)` of a `find`: MongoDB reads `limit(0)` as no limit. -/
def mongoLimit {α : Type} (n : Nat) (docs : List α) : List α :=
  if n = 0 then docs else docs.take n

/-- The filter of the posts query: `updatedAt > syncTimestamp`, `syncStatus: 'synced'`,
`isHidden: false`. -/
def Post.changedSince (since : Nat) (p : Post) : Bool :=
  decide (since < p.updatedAt) && decide (p.syncStatus = "synced") && !p.isHidden

/-- The filter of the groups query: `updatedAt > syncTimestamp`, `syncStatus: 'synced'`,
`isActive: true`. -/
def Group.changedSince (since : Nat) (g : Group) : Bool :=
  decide (since < g.updatedAt) && decide (g.syncStatus = "synced") && g.isActive

/-- The filter of the users query: `updatedAt > syncTimestamp`, `syncStatus: 'synced'`,
`isActive: true`. -/
def User.changedSince (since : Nat) (u : User) : Bool :=
  decide (since < u.updatedAt) && decide (u.syncStatus = "synced") && u.isActive

/-- The projection `.select('-likes -saves -comments')`. -/
def Post.selected (p : Post) : Post :=
  { p with fields := p.fields.filter (fun kv => !(["likes", "saves", "comments"].contains kv.1)) }

/-- The projection `.select('-members -admins -moderators')`; an excluded list is shown
as the empty list. -/
def Group.selected (g : Group) : Group :=
  { g with
    members := []
    admins := []
    fields := g.fields.filter (fun kv => !(["moderators"].contains kv.1)) }

/-- The projection `.select('-deviceTokens')`. -/
def User.selected (u : User) : User :=
  { u with fields := u.fields.filter (fun kv => !(["deviceTokens"].contains kv.1)) }

/-- The `changes` object: a key is present only for a requested type. -/
structure Changes where
  posts : Option (List Post)
  groups : Option (List Group)
  users : Option (List User)
  deriving DecidableEq, Repr

/-- The body of the answer to a changes pull. -/
structure ChangesResponse where
  changes : Changes
  serverTime : Nat
  syncTimestamp : Nat
  deriving DecidableEq, Repr

/-- Insert a document into a list ordered by `key`, before the documents with the same or a
larger key. -/
def insertByKey {α : Type} (key : α → Nat) (x : α) : List α → List α
  | [] => [x]
  | y :: rest => if key x ≤ key y then x :: y :: rest else y :: insertByKey key x rest

/-- The order in which a scan of the index `{ syncStatus: 1, updatedAt: 1 }` (declared at
`models/Post.js:180` and `models/Group.js:213`) yields the documents with one `syncStatus`:
by `updatedAt` ascending, documents with the same `updatedAt` in collection order. `key`
is `updatedAt`. -/
def indexScan {α : Type} (key : α → Nat) (docs : List α) : List α :=
  docs.foldr (insertByKey key) []

/-- The handler `router.get('/changes')`; `now` is the time read by `new Date()` when the
answer is built. No query carries a `.sort(...)`, so the documents come in the order of the
scan that serves the filter: for posts and groups the index `{ syncStatus: 1, updatedAt: 1 }`,
the only declared index on a field of the filter; `models/User.js` declares no index on a
field of the filter, so users come in collection order. -/
def getChanges (db : Db) (q : ChangesQuery) (now : Nat) : ChangesResponse :=
  let since := q.lastSync.getD 0
  let types := q.entityTypes.getD ["posts", "groups", "users"]
  let limit := q.limit.getD 100
  { changes :=
      { posts :=
          if types.contains "posts" then
            some ((mongoLimit limit
              ((indexScan Post.updatedAt db.posts).filter (Post.changedSince since))).map
              Post.selected)
          else none
        groups :=
          if types.contains "groups" then
            some ((mongoLimit limit
              ((indexScan Group.updatedAt db.groups).filter (Group.changedSince since))).map
              Group.selected)
          else none
        users :=
          if types.contains "users" then
            some ((mongoLimit limit (db.users.filter (User.changedSince since))).map
              User.selected)
          else none }
    serverTime := now
    syncTimestamp := since }

/-! ## The client: offline store and sync queue (frontend/src/offline/db.js) -/

/-- A row of a Dexie table with the auto-incremented primary key `id`. -/
structure LocalRow where
  id : Nat
  doc : Fields
  deriving DecidableEq, Repr

/-- A Dexie table `'++id, ...'`: its rows and the state of the key generator. -/
structure LocalTable where
  rows : List LocalRow
  nextId : Nat
  deriving DecidableEq, Repr

/-- A row of the `syncQueue` table. -/
structure QueueEntry where
  id : Nat
  action : String
  data : Fields
  entityType : String
  retries : Option Nat
  createdAt : Nat
  deriving DecidableEq, Repr

/-- The tables of `JSLFastLineDB` that the sync code touches. -/
structure LocalDb where
  posts : LocalTable
  groups : LocalTable
  syncQueue : List QueueEntry
  queueNextId : Nat
  deriving DecidableEq, Repr

/-- The explicit primary key an object carries under `id`, if any. -/
def explicitKey (doc : Fields) : Option Nat :=
  match doc.get "id" with
  | some (Val.num n) => if 0 ≤ n then some n.toNat else none
  | _ => none

/-- The call `table.add(doc)`: the key is `doc.id` when present, else the next generated
key; adding under a key that is already taken rejects (`none`). -/
def LocalTable.add (t : LocalTable) (doc : Fields) : Option (LocalTable × Nat) :=
  match explicitKey doc with
  | some k =>
    if t.rows.any (fun r => r.id == k) then none
    else some ({ rows := t.rows ++ [{ id := k, doc := doc }], nextId := max t.nextId (k + 1) }, k)
  | none =>
    some ({ rows := t.rows ++ [{ id := t.nextId, doc := Fields.set doc "id" (Val.num t.nextId) }],
            nextId := t.nextId + 1 }, t.nextId)

/-- The call `table.update(key, changes)`. -/
def LocalTable.update (t : LocalTable) (key : Nat) (changes : Fields) : LocalTable :=
  { t with rows := t.rows.map (fun r =>
      if r.id = key then { r with doc := Fields.assign r.doc changes } else r) }

/-- The call `table.get(key)`. -/
def LocalTable.get (t : LocalTable) (key : Nat) : Option LocalRow :=
  t.rows.find? (fun r => r.id == key)

/-- What one call of the API layer reads from outside: `navigator.onLine`, the clock, the
random `localId` of a new local row, and the outcome of the HTTP request if one is sent
(`some serverId` is a 2xx answer whose body carries that `_id`, `none` a failed request). -/
structure CallEnv where
  online : Bool
  now : Nat
  localId : String
  answer : Option (Option String)
  deriving DecidableEq, Repr

/-- An HTTP request that left the client. -/
structure Request where
  url : String
  body : Fields
  deriving DecidableEq, Repr

/-- The method `db.addToSyncQueue(action, data, entityType)`. -/
def LocalDb.addToSyncQueue (db : LocalDb) (now : Nat) (action : String) (data : Fields)
    (entityType : String) : LocalDb :=
  { db with
    syncQueue := db.syncQueue ++
      [{ id := db.queueNextId, action := action, data := data, entityType := entityType,
         retries := some 0, createdAt := now }]
    queueNextId := db.queueNextId + 1 }

/-- Insert an entry into a list ordered by `createdAt`, then by primary key. -/
def insertByCreatedAt (x : QueueEntry) : List QueueEntry → List QueueEntry
  | [] => [x]
  | y :: rest =>
    if x.createdAt < y.createdAt ∨ (x.createdAt = y.createdAt ∧ x.id ≤ y.id) then
      x :: y :: rest
    else y :: insertByCreatedAt x rest

/-- The index scan `syncQueue.orderBy('createdAt')`. -/
def orderByCreatedAt (q : List QueueEntry) : List QueueEntry :=
  q.foldr insertByCreatedAt []

/-- The method `db.getPendingSyncs(limit)`; callers that pass nothing get `limit = 20`. -/
def LocalDb.getPendingSyncs (db : LocalDb) (limit : Nat) : List QueueEntry :=
  (orderByCreatedAt db.syncQueue).take limit

/-- The method `db.removeFromSyncQueue(id)`. -/
def LocalDb.removeFromSyncQueue (db : LocalDb) (id : Nat) : LocalDb :=
  { db with syncQueue := db.syncQueue.filter (fun q => q.id != id) }

/-- The call `db.syncQueue.update(id, { retries })`. -/
def LocalDb.setRetries (db : LocalDb) (id : Nat) (retries : Nat) : LocalDb :=
  { db with syncQueue := db.syncQueue.map (fun q =>
      if q.id = id then { q with retries := some retries } else q) }

/-- JavaScript truthiness of a property value. -/
def truthy : Option Val → Bool
  | some (Val.bool b) => b
  | some (Val.num n) => decide (n ≠ 0)
  | some (Val.str s) => decide (s ≠ "")
  | some (Val.list _) => true
  | some Val.null => false
  | none => false

/-- The method `db.createPost(postData)`: the new row and its key, `none` when `add`
rejects. -/
def LocalDb.createPost (db : LocalDb) (e : CallEnv) (postData : Fields) :
    Option (LocalDb × Nat) :=
  match db.posts.add (Fields.assign postData
      [("localId", Val.str e.localId), ("syncStatus", Val.str "pending"),
       ("createdAt", Val.num e.now), ("updatedAt", Val.num e.now),
       ("likes", Val.list []), ("comments", Val.list [])]) with
  | some (t, key) => some ({ db with posts := t }, key)
  | none => none

/-- The method `db.createGroup(groupData)`. -/
def LocalDb.createGroup (db : LocalDb) (e : CallEnv) (groupData : Fields) :
    Option (LocalDb × Nat) :=
  match db.groups.add (Fields.assign groupData
      [("localId", Val.str e.localId), ("syncStatus", Val.str "pending"),
       ("memberCount", Val.num 1), ("createdAt", Val.num e.now)]) with
  | some (t, key) => some ({ db with groups := t }, key)
  | none => none

/-! ## The client: API layer and sync cycle (api/api.js, contexts/SyncContext.jsx) -/

/-- The state of the client that the sync code reads and writes. `sent` is the log of the
HTTP requests issued so far; `userId` is the `id` of the user kept in `localStorage`. -/
structure Client where
  db : LocalDb
  isSyncing : Bool
  pendingCount : Nat
  userId : Option Val
  lastSync : Option Nat
  syncError : Option String
  sent : List Request
  deriving DecidableEq, Repr

/-- The value returned by a sync cycle. -/
structure SyncReport where
  success : Bool
  synced : Nat
  errors : Nat
  deriving DecidableEq, Repr

/-- Removal of a key from an object (a property set to `undefined`). -/
def Fields.erase (o : Fields) (k : String) : Fields :=
  o.filter (fun kv => kv.1 != k)

/-- A request through the axios instance `API`: it is logged as sent; `e.answer` decides
whether it succeeds. The response interceptor queues a failed request as `api_request`
when `navigator.onLine` is false at that moment. The third component is the `_id` found
in the body of a successful answer, `none` when the call throws. -/
def apiRequest (c : Client) (e : CallEnv) (url : String) (body : Fields) :
    Client × Option (Option String) :=
  let c1 : Client := { c with sent := c.sent ++ [{ url := url, body := body }] }
  match e.answer with
  | some id => (c1, some id)
  | none =>
    if e.online then (c1, none)
    else
      ({ c1 with
          db := c1.db.addToSyncQueue e.now "retry"
            (Fields.set body "url" (Val.str url)) "api_request" },
       none)

/-- The object `{ ...postData, userId: postData.userId || user?.id }`. -/
def withUserId (c : Client) (postData : Fields) : Fields :=
  if truthy (postData.get "userId") then postData
  else
    match c.userId with
    | some v => Fields.set postData "userId" v
    | none => Fields.erase postData "userId"

/-- The method `api.createPost(postData)`; the flag tells whether it returned (`true`) or
threw (`false`). -/
def apiCreatePost (c : Client) (e : CallEnv) (postData : Fields) : Client × Bool :=
  match c.db.createPost e (withUserId c postData) with
  | none => (c, false)
  | some (db1, key) =>
    let c1 : Client := { c with db := db1 }
    if e.online then
      match apiRequest c1 e "/posts" postData with
      | (c2, some (some serverId)) =>
        ({ c2 with
            db := { c2.db with
              posts := c2.db.posts.update key
                [("serverId", Val.str serverId), ("syncStatus", Val.str "synced")] } },
         true)
      | (c2, some none) => (c2, true)
      | (c2, none) => (c2, false)
    else (c1, true)

/-- The method `api.createGroup(groupData)`. -/
def apiCreateGroup (c : Client) (e : CallEnv) (groupData : Fields) : Client × Bool :=
  match c.db.createGroup e groupData with
  | none => (c, false)
  | some (db1, key) =>
    let c1 : Client := { c with db := db1 }
    if e.online then
      match apiRequest c1 e "/groups" groupData with
      | (c2, some (some serverId)) =>
        ({ c2 with
            db := { c2.db with
              groups := c2.db.groups.update key
                [("serverId", Val.str serverId), ("syncStatus", Val.str "synced")] } },
         true)
      | (c2, some none) => (c2, true)
      | (c2, none) => (c2, false)
    else (c1, true)

/-- The body of `for (const item of batch)` in `syncNow`: the `switch` on `entityType`,
then `removeFromSyncQueue` and `syncedCount++`, or the `catch` with `errorCount++` and the
retry counter. The counters are `(syncedCount, errorCount)`. -/
def syncNowItem (env : Nat → CallEnv) (s : Client × Nat × Nat) (item : QueueEntry) :
    Client × Nat × Nat :=
  let sent : Client × Bool :=
    if item.entityType = "posts" then apiCreatePost s.1 (env item.id) item.data
    else if item.entityType = "groups" then apiCreateGroup s.1 (env item.id) item.data
    else (s.1, true)
  if sent.2 then
    ({ sent.1 with db := sent.1.db.removeFromSyncQueue item.id }, s.2.1 + 1, s.2.2)
  else
    ({ sent.1 with db := sent.1.db.setRetries item.id (item.retries.getD 0 + 1) },
     s.2.1, s.2.2 + 1)

/-- The function `syncNow` of `SyncProvider`. `env id` is what the processing of queue
entry `id` reads from outside and `now` the time at the end of the cycle. The two nested
loops visit the entries returned by `getPendingSyncs()` one by one, in order. -/
def syncNow (c : Client) (env : Nat → CallEnv) (now : Nat) : Client × Option SyncReport :=
  if c.isSyncing then (c, none)
  else
    let pending := c.db.getPendingSyncs 20
    let out := pending.foldl (syncNowItem env)
      ({ c with isSyncing := true, syncError := none }, 0, 0)
    ({ out.1 with
        isSyncing := false
        lastSync := some now
        syncError :=
          if 0 < out.2.2 then some (toString out.2.2 ++ " items failed to sync") else none
        pendingCount := out.1.db.syncQueue.length },
     some { success := true, synced := out.2.1, errors := out.2.2 })

/-- The function `autoSync` of `SyncProvider`. -/
def autoSync (c : Client) (online : Bool) (env : Nat → CallEnv) (now : Nat) :
    Client × Option SyncReport :=
  if online && decide (0 < c.pendingCount) then syncNow c env now else (c, none)

/-- A request whose answer is not inspected: the flag tells whether the call returned. -/
def apiCall (c : Client) (e : CallEnv) (url : String) (body : Fields) : Client × Bool :=
  ((apiRequest c e url body).1, (apiRequest c e url body).2.isSome)

/-- The body of `for (const item of pending)` in `api.syncPending`; the counter is
`syncedCount`. An entry without a numeric `retries` keeps none (`undefined + 1`). -/
def syncPendingItem (env : Nat → CallEnv) (s : Client × Nat) (item : QueueEntry) :
    Client × Nat :=
  let sent : Client × Bool :=
    if item.entityType = "posts" then apiCall s.1 (env item.id) "/sync/posts" item.data
    else if item.entityType = "groups" then apiCall s.1 (env item.id) "/sync/groups" item.data
    else if item.entityType = "messages" then
      apiCall s.1 (env item.id) "/sync/messages" item.data
    else if item.entityType = "api_request" then
      apiCall s.1 (env item.id)
        (match item.data.get "url" with
         | some (Val.str u) => u
         | _ => "") item.data
    else (s.1, true)
  if sent.2 then ({ sent.1 with db := sent.1.db.removeFromSyncQueue item.id }, s.2 + 1)
  else
    ({ sent.1 with
        db := { sent.1.db with
          syncQueue := sent.1.db.syncQueue.map (fun q =>
            if q.id = item.id then { q with retries := item.retries.map (fun r => r + 1) }
            else q) } },
     s.2)

/-- The method `api.syncPending()`: `online` is `navigator.onLine` at its first line; the
answer is `(synced, total)`, with `total` absent in the offline answer. -/
def syncPending (c : Client) (online : Bool) (env : Nat → CallEnv) :
    Client × Nat × Option Nat :=
  if online then
    let pending := c.db.getPendingSyncs 20
    let out := pending.foldl (syncPendingItem env) (c, 0)
    (out.1, out.2, some pending.length)
  else (c, 0, none)

/-! ## The client: likes, memberships and queue writes (offline/db.js, SyncContext.jsx) -/

/-- The list `post.likes || []` of a local row. -/
def likesOf (doc : Fields) : List String :=
  match doc.get "likes" with
  | some (Val.list xs) => xs
  | _ => []

/-- The elements of `new Set(xs)` in insertion order. -/
def setOf : List String → List String
  | [] => []
  | x :: rest => x :: (setOf rest).filter (fun y => y != x)

/-- The toggle in `db.likePost`: remove the user from the set, or add it at the end. -/
def toggleLike (likes : List String) (userId : String) : List String :=
  if (setOf likes).contains userId then (setOf likes).filter (fun y => y != userId)
  else setOf likes ++ [userId]

/-- The method `db.likePost(postId, userId)`: nothing happens when the row does not
exist. -/
def LocalDb.likePost (db : LocalDb) (now : Nat) (postId : Nat) (userId : String) : LocalDb :=
  match db.posts.get postId with
  | some post =>
    LocalDb.addToSyncQueue
      { db with
        posts := db.posts.update postId
          [("likes", Val.list (toggleLike (likesOf post.doc) userId)),
           ("updatedAt", Val.num now), ("syncStatus", Val.str "pending")] }
      now "update"
      (Fields.set post.doc "likes" (Val.list (toggleLike (likesOf post.doc) userId)))
      "posts"
  | none => db

/-- The number `group.memberCount || 0` of a local row. -/
def memberCountOf (doc : Fields) : Int :=
  match doc.get "memberCount" with
  | some (Val.num n) => n
  | _ => 0

/-- The method `db.joinGroup(groupId, userId)`: the queued data is the row as it was read. -/
def LocalDb.joinGroup (db : LocalDb) (now : Nat) (groupId : Nat) : LocalDb :=
  match db.groups.get groupId with
  | some group =>
    LocalDb.addToSyncQueue
      { db with
        groups := db.groups.update groupId
          [("memberCount", Val.num (memberCountOf group.doc + 1)),
           ("syncStatus", Val.str "pending")] }
      now "update" group.doc "groups"
  | none => db

/-- One call `addToSyncQueue(action, data, entityType)` made at time `now`. -/
structure Enqueue where
  now : Nat
  action : String
  data : Fields
  entityType : String
  deriving DecidableEq, Repr

/-- A sequence of `addToSyncQueue` calls. -/
def enqueueAll (db : LocalDb) (calls : List Enqueue) : LocalDb :=
  calls.foldl (fun acc c => acc.addToSyncQueue c.now c.action c.data c.entityType) db

/-- The slices `pending.slice(i, i + batchSize)` that the outer loop of `syncNow` forms,
with `batchSize = 10`. -/
def syncNowBatches (c : Client) : List (List QueueEntry) :=
  slices 10 (c.db.getPendingSyncs 20).length (c.db.getPendingSyncs 20)

/-- The two nested loops of `syncNow` as written: for each slice, for each item of it. -/
def syncNowLoops (env : Nat → CallEnv) (c : Client) : Client × Nat × Nat :=
  (syncNowBatches c).foldl (fun s batch => batch.foldl (syncNowItem env) s)
    ({ c with isSyncing := true, syncError := none }, 0, 0)

/-- A write to the `syncQueue` table: `addToSyncQueue`, `removeFromSyncQueue(id)`, or the
update of a retry counter. -/
inductive QueueOp where
  | enqueue (c : Enqueue)
  | remove (id : Nat)
  | retry (id : Nat) (retries : Nat)
  deriving DecidableEq, Repr

/-- The effect of one queue write. -/
def LocalDb.applyOp (db : LocalDb) : QueueOp → LocalDb
  | QueueOp.enqueue c => db.addToSyncQueue c.now c.action c.data c.entityType
  | QueueOp.remove id => db.removeFromSyncQueue id
  | QueueOp.retry id retries => db.setRetries id retries

/-- A sequence of queue writes. -/
def runQueueOps (db : LocalDb) (ops : List QueueOp) : LocalDb :=
  ops.foldl LocalDb.applyOp db

/-- The clock readings of the `addToSyncQueue` calls in a sequence of queue writes. -/
def enqueueTimes : List QueueOp → List Nat
  | [] => []
  | QueueOp.enqueue c :: rest => c.now :: enqueueTimes rest
  | _ :: rest => enqueueTimes rest

/-! ## Example data -/

/-- A registered user, the principal of the examples. -/
def ann : User :=
  { id := 7, phone := some "555", localId := none, syncStatus := "synced",
    username := some "ann", displayName := some "Ann", postCount := 0, groupCount := 0,
    isActive := true, updatedAt := 0, fields := [] }

/-- A store without posts and groups. -/
def coldDb : Db := { posts := [], groups := [], users := [ann] }

/-- The stored post `L1` of the examples at a given version. -/
def storedL1 (version : Int) : Post :=
  { id := 100, userId := 7, localId := some "L1", syncStatus := "synced", version := version,
    content := "hi", tags := [], isHidden := false, updatedAt := 10, fields := [] }

/-- A store holding the single post `L1` at a given version. -/
def dbL1 (version : Int) : Db := { posts := [storedL1 version], groups := [], users := [ann] }

/-- The create item of the scenario: `{ localId: "L1", content: "hi" }`. -/
def createL1 : PostData := { localId := some "L1", content := some "hi" }

/-- The update item of the scenario: `{ localId: "L1", version, content: "hi there" }`. -/
def updateL1 (version : Int) : PostData :=
  { localId := some "L1", version := some version, content := some "hi there" }

/-- An iteration without any rejected call. -/
def calm (now oid : Nat) : Env := { now := now, oid := oid }

/-- An iteration in which the given call rejects. -/
def faulty (now oid : Nat) (fault : Fault) : Env := { now := now, oid := oid, fault := fault }

/-- A store holding one post with `localId` `L1` at version 2 under another `_id` and with
another content than `dbL1 2`. -/
def dbL1Other : Db :=
  { posts := [{ id := 200, userId := 8, localId := some "L1", syncStatus := "synced",
                version := 2, content := "server text", tags := [], isHidden := false,
                updatedAt := 15, fields := [("category", Val.str "academic")] }]
    groups := []
    users := [ann] }

/-- A stored group with `localId` `G1`. -/
def storedG1 : Group :=
  { id := 300, creatorId := 7, localId := some "G1", syncStatus := "synced", members := [7],
    admins := [7], memberCount := 1, privacy := "public", inviteCode := none, isActive := true,
    updatedAt := 10, fields := [("name", Val.str "Algebra")] }

/-- A store holding the group `G1` and the user `ann`. -/
def dbG1 : Db := { posts := [], groups := [storedG1], users := [ann] }

/-- A stale rename of `G1`: `{ localId: "G1", version: 0, name: "Renamed" }`. -/
def staleG1 : GroupData :=
  { localId := some "G1", version := some 0, fields := [("name", Val.str "Renamed")] }

/-- A stale rename of `ann`: `{ phone: "555", version: 0, displayName: "Bob" }`. -/
def staleAnn : UserData := { phone := some "555", version := some 0, displayName := some "Bob" }

/-- The store after the owner deleted the post `L1` stored at version 1. -/
def deletedDb : Db := (deletePost plainHooks (calm 12 0) 7 false (dbL1 1) 100).1

/-- The stored post `L1` after its deletion. -/
def deletedL1 : Post :=
  { storedL1 1 with isHidden := true, syncStatus := "deleted", updatedAt := 12 }

/-- A resolve request for the post with `_id` 100. -/
def resolveL1 (resolution : String) (data : PostData) : ResolveRequest :=
  { entityType := some "post", localId := some "L1", serverId := some 100,
    resolution := some resolution, postData := data }

/-- A groups collection filled by one bulk insert whose entity carries one member and
`memberCount: 5`. -/
def skewedGroups : List Group :=
  (processBulkEntities (groupBulk 7) []
    [({ localId := some "G9", members := some [7], memberCount := some 5 }, calm 5 400)]
    (fun _ => none)).1

/-- A store holding that group. -/
def skewedDb : Db := { posts := [], groups := skewedGroups, users := [ann] }

/-- A resolve request for the group with the given `_id`. -/
def resolveGroup (serverId : Nat) (resolution : String) (data : GroupData) : ResolveRequest :=
  { entityType := some "group", serverId := some serverId, resolution := some resolution,
    groupData := data }

/-- A store holding the post `L1` at version 1 with the tag `algebra`. -/
def dbTagged : Db :=
  { posts := [{ storedL1 1 with tags := ["algebra"] }], groups := [], users := [ann] }

/-- Two visible synced posts: `A` was inserted first and modified last. -/
def feedDb : Db :=
  { posts :=
      [{ id := 1, userId := 7, localId := some "A", syncStatus := "synced", version := 2,
         content := "a", tags := [], isHidden := false, updatedAt := 30, fields := [] },
       { id := 2, userId := 7, localId := some "B", syncStatus := "synced", version := 1,
         content := "b", tags := [], isHidden := false, updatedAt := 20, fields := [] }]
    groups := []
    users := [] }

/-- A pull of the posts only. -/
def pullPosts (since limit : Nat) : ChangesQuery :=
  { lastSync := some since, entityTypes := some ["posts"], limit := some limit }

/-- A local post row as `db.createPost` leaves it, already liked by user 7. -/
def likedRow : Fields :=
  [("content", Val.str "hi"), ("userId", Val.num 7), ("localId", Val.str "local_1"),
   ("syncStatus", Val.str "pending"), ("createdAt", Val.num 3), ("updatedAt", Val.num 5),
   ("likes", Val.list ["7"]), ("comments", Val.list []), ("id", Val.num 1)]

/-- A client holding that post and two queued mutations: the `update` queued by
`db.likePost` and a request queued by the response interceptor while offline. -/
def offlineClient : Client :=
  { db :=
      { posts := { rows := [{ id := 1, doc := likedRow }], nextId := 2 }
        groups := { rows := [], nextId := 1 }
        syncQueue :=
          [{ id := 1, action := "update", data := likedRow, entityType := "posts",
             retries := some 0, createdAt := 5 },
           { id := 2, action := "retry",
             data := [("url", Val.str "/posts/1/like"), ("method", Val.str "post")],
             entityType := "api_request", retries := some 0, createdAt := 6 }]
        queueNextId := 3 }
    isSyncing := false
    pendingCount := 2
    userId := some (Val.num 7)
    lastSync := none
    syncError := none
    sent := [] }

/-- What every call reads while the device is offline. -/
def offlineEnv : Nat → CallEnv :=
  fun _ => { online := false, now := 100, localId := "local_x", answer := none }

/-- A store holding the group `G1` flagged with `syncStatus` `conflict`. -/
def dbG1Conflict : Db :=
  { posts := [], groups := [{ storedG1 with syncStatus := "conflict" }], users := [ann] }

/-- A store holding the post `L1` at version 1 flagged with `syncStatus` `conflict`. -/
def dbL1Conflict : Db :=
  { posts := [{ storedL1 1 with syncStatus := "conflict" }], groups := [], users := [ann] }

/-- An offline store without rows whose key generators start at 1. -/
def emptyLocal : LocalDb :=
  { posts := { rows := [], nextId := 1 }, groups := { rows := [], nextId := 1 },
    syncQueue := [], queueNextId := 1 }

/-- A client around a local store, with no cycle in flight and user 7 logged in. -/
def clientOf (db : LocalDb) : Client :=
  { db := db, isSyncing := false, pendingCount := db.syncQueue.length,
    userId := some (Val.num 7), lastSync := none, syncError := none, sent := [] }

/-- What every call reads when the device is online and the request fails. -/
def failingEnv : Nat → CallEnv :=
  fun _ => { online := true, now := 100, localId := "local_x", answer := none }

/-- What every call reads when the device is online and the server answers with `_id`
`srv1`. -/
def answeringEnv : Nat → CallEnv :=
  fun _ => { online := true, now := 100, localId := "local_x", answer := some (some "srv1") }

/-- An offline environment for a single call. -/
def offlineCall : CallEnv := { online := false, now := 100, localId := "local_x", answer := none }

/-- A queue holding one create payload for a post. -/
def oneCreateQueued : LocalDb :=
  emptyLocal.addToSyncQueue 5 "create" [("content", Val.str "hi")] "posts"

/-- A queue holding one request queued by the response interceptor. -/
def oneRequestQueued : LocalDb :=
  emptyLocal.addToSyncQueue 5 "retry"
    [("url", Val.str "/posts/1/like"), ("method", Val.str "post")] "api_request"

/-- Eleven messages queued at the times 1 to 11. -/
def elevenQueued : LocalDb :=
  enqueueAll emptyLocal
    ((List.range 11).map (fun i =>
      { now := i + 1, action := "create", data := [], entityType := "messages" }))

/-- A queue holding one create payload for a post that has already failed `n` times. -/
def retriedQueued (n : Nat) : LocalDb :=
  { emptyLocal with
    syncQueue := [{ id := 1, action := "create", data := [("content", Val.str "hi")],
                    entityType := "posts", retries := some n, createdAt := 5 }]
    queueNextId := 2 }

/-- Three queue writes, the first two within the same millisecond. -/
def threeCalls : List Enqueue :=
  [{ now := 3, action := "update", data := [], entityType := "posts" },
   { now := 3, action := "update", data := [], entityType := "groups" },
   { now := 8, action := "retry", data := [], entityType := "api_request" }]

/-- Four queue writes followed by a failed and a successful replay. -/
def sixOps : List QueueOp :=
  (threeCalls.map QueueOp.enqueue) ++
    [QueueOp.retry 1 1, QueueOp.remove 2,
     QueueOp.enqueue { now := 9, action := "update", data := [], entityType := "posts" }]

/-- Two active synced users: `ann` was inserted first and modified last. -/
def feedUsers : Db :=
  { posts := []
    groups := []
    users :=
      [{ ann with updatedAt := 30 },
       { id := 8, phone := some "556", localId := none, syncStatus := "synced",
         username := some "bob", displayName := some "Bob", postCount := 0, groupCount := 0,
         isActive := true, updatedAt := 20, fields := [] }] }

/-- A pull of the users only. -/
def pullUsers (since limit : Nat) : ChangesQuery :=
  { lastSync := some since, entityTypes := some ["users"], limit := some limit }

/-- Two queue writes for the local post 1, the second made after the clock was set back. -/
def backwardCalls : List Enqueue :=
  [{ now := 10, action := "create", data := [("id", Val.num 1)], entityType := "posts" },
   { now := 5, action := "update", data := [("id", Val.num 1)], entityType := "posts" }]

/-! ## Objects: reading after writing -/

theorem Fields.get_cons (kv : String × Val) (rest : Fields) (k : String) :
    Fields.get (kv :: rest) k =
      match Fields.get rest k with
      | some w => some w
      | none => if kv.1 = k then some kv.2 else none := rfl

theorem Fields.get_append_single (o : Fields) (k : String) (v : Val) (k' : String) :
    Fields.get (o ++ [(k, v)]) k' = if k = k' then some v else Fields.get o k' := by
  induction o with
  | nil => simp [Fields.get]
  | cons kv rest ih =>
    rw [List.cons_append, Fields.get_cons, Fields.get_cons, ih]
    by_cases h : k = k'
    · simp [h]
    · simp [h]

theorem Fields.get_map_overwrite (o : Fields) (k : String) (v : Val) (k' : String) :
    Fields.get (o.map (fun kv => if kv.1 = k then (k, v) else kv)) k' =
      if k = k' then (if o.any (fun kv => kv.1 == k) then some v else none)
      else Fields.get o k' := by
  induction o with
  | nil => simp [Fields.get]
  | cons kv rest ih =>
    rw [List.map_cons, Fields.get_cons, Fields.get_cons, ih, List.any_cons]
    by_cases h : k = k'
    · subst h
      by_cases h0 : kv.1 = k
      · by_cases ha : rest.any (fun kv => kv.1 == k) <;> simp [ha, h0]
      · by_cases ha : rest.any (fun kv => kv.1 == k) <;> simp [ha, h0]
    · by_cases h0 : kv.1 = k
      · have h1 : ¬ kv.1 = k' := by rw [h0]; exact h
        simp [h, h0, h1]
      · simp [h, h0]

theorem Fields.get_set (o : Fields) (k : String) (v : Val) (k' : String) :
    Fields.get (o.set k v) k' = if k = k' then some v else Fields.get o k' := by
  unfold Fields.set
  by_cases ha : o.any (fun kv => kv.1 == k)
  · rw [if_pos ha, Fields.get_map_overwrite]
    simp [ha]
  · rw [if_neg ha, Fields.get_append_single]

theorem Fields.get_assign (t s : Fields) (k : String) :
    Fields.get (Fields.assign t s) k =
      match Fields.get s k with
      | some v => some v
      | none => Fields.get t k := by
  induction s generalizing t with
  | nil => simp [Fields.assign, Fields.get]
  | cons kv rest ih =>
    have h : Fields.assign t (kv :: rest) = Fields.assign (t.set kv.1 kv.2) rest := by
      simp [Fields.assign]
    rw [h, ih, Fields.get_set, Fields.get_cons]
    cases hr : Fields.get rest k with
    | some w => simp
    | none => by_cases h0 : kv.1 = k <;> simp [h0]

theorem mem_saveExisting {α : Type} (q : α → Bool) (saved x : α) (l : List α)
    (h : l.find? q = some x) : saved ∈ saveExisting q saved l := by
  induction l with
  | nil => simp at h
  | cons y rest ih =>
    by_cases hq : q y
    · simp [saveExisting, hq]
    · simp only [List.find?_cons, hq] at h
      simp only [saveExisting, hq, Bool.false_eq_true, if_false, List.mem_cons]
      exact Or.inr (ih h)

theorem map_saveExisting {α β : Type} (q : α → Bool) (f : α → β) (saved x : α) (l : List α)
    (h : l.find? q = some x) (hf : f saved = f x) :
    (saveExisting q saved l).map f = l.map f := by
  induction l with
  | nil => simp [saveExisting]
  | cons y rest ih =>
    by_cases hq : q y
    · simp only [List.find?_cons, hq] at h
      simp only [Option.some.injEq] at h
      subst h
      simp [saveExisting, hq, hf]
    · simp only [List.find?_cons, hq] at h
      simp [saveExisting, hq, ih h]

/-! ## The posts loop -/

theorem syncPostsFrom_append (H : Hooks) (userId : Nat) (s : Db × Results PostAck)
    (a b : List (PostData × Env)) :
    syncPostsFrom H userId s (a ++ b) = syncPostsFrom H userId (syncPostsFrom H userId s a) b := by
  simp [syncPostsFrom, List.foldl_append]

theorem syncPostsFrom_cons (H : Hooks) (userId : Nat) (s : Db × Results PostAck)
    (x : PostData × Env) (rest : List (PostData × Env)) :
    syncPostsFrom H userId s (x :: rest) = syncPostsFrom H userId (syncPostItem H userId s x) rest := by
  simp [syncPostsFrom]

theorem syncPostItem_conflict (H : Hooks) (userId : Nat) (s : Db × Results PostAck)
    (d : PostData) (e : Env) (post : Post) (C : Int)
    (hfind : s.1.findPost d.localId = some post) (hC : d.version = some C)
    (hlt : C < post.version) (hlookup : ∀ m, e.fault ≠ Fault.find m) :
    syncPostItem H userId s (d, e) =
      (s.1, { s.2 with conflicts := s.2.conflicts ++
        [{ localId := d.localId
           message := "Version conflict - server has newer version"
           serverVersion := post.version
           clientVersion := some C }] }) := by
  have hv : versionNewer post.version (some C) = true := by
    simp [versionNewer, hlt]
  cases hf : e.fault with
  | find m => exact absurd hf (hlookup m)
  | none => simp [syncPostItem, hf, hfind, hv, hC]
  | save m => simp [syncPostItem, hf, hfind, hv, hC]
  | count m => simp [syncPostItem, hf, hfind, hv, hC]

theorem syncPostItem_find_fault (H : Hooks) (userId : Nat) (s : Db × Results PostAck)
    (d : PostData) (e : Env) (m : String) (hf : e.fault = Fault.find m) :
    syncPostItem H userId s (d, e) = (s.1, pushError s.2 d.localId m) := by
  simp [syncPostItem, hf]

theorem syncPostItem_update (H : Hooks) (userId : Nat) (s : Db × Results PostAck)
    (d : PostData) (e : Env) (post : Post)
    (hfind : s.1.findPost d.localId = some post)
    (hv : versionNewer post.version d.version = false)
    (hlookup : ∀ m, e.fault ≠ Fault.find m) (hsave : ∀ m, e.fault ≠ Fault.save m) :
    syncPostItem H userId s (d, e) =
      ({ s.1 with
          posts := saveExisting (fun p => p.localId == d.localId)
            (Post.updated H e.now post d) s.1.posts },
       { s.2 with updated := s.2.updated ++
          [{ localId := d.localId, serverId := (Post.updated H e.now post d).id,
             version := (Post.updated H e.now post d).version }] }) := by
  cases hf : e.fault with
  | find m => exact absurd hf (hlookup m)
  | save m => exact absurd hf (hsave m)
  | none => simp [syncPostItem, hf, hfind, hv]
  | count m => simp [syncPostItem, hf, hfind, hv]

theorem syncPostItem_update_fail (H : Hooks) (userId : Nat) (s : Db × Results PostAck)
    (d : PostData) (e : Env) (post : Post) (m : String)
    (hfind : s.1.findPost d.localId = some post)
    (hv : versionNewer post.version d.version = false) (hf : e.fault = Fault.save m) :
    syncPostItem H userId s (d, e) = (s.1, pushError s.2 d.localId m) := by
  simp [syncPostItem, hf, hfind, hv]

theorem syncPostItem_create (H : Hooks) (userId : Nat) (s : Db × Results PostAck)
    (d : PostData) (e : Env)
    (hfind : s.1.findPost d.localId = none) (hf : e.fault = Fault.none) :
    syncPostItem H userId s (d, e) =
      ({ s.1 with posts := s.1.posts ++ [Post.fresh H e userId d],
                  users := incPostCount e.now userId s.1.users },
       { s.2 with created := s.2.created ++
          [{ localId := d.localId, serverId := (Post.fresh H e userId d).id,
             version := (Post.fresh H e userId d).version }] }) := by
  simp [syncPostItem, hf, hfind]

theorem syncPostItem_create_fail (H : Hooks) (userId : Nat) (s : Db × Results PostAck)
    (d : PostData) (e : Env) (m : String)
    (hfind : s.1.findPost d.localId = none) (hf : e.fault = Fault.save m) :
    syncPostItem H userId s (d, e) = (s.1, pushError s.2 d.localId m) := by
  simp [syncPostItem, hf, hfind]

theorem syncPostItem_create_count_fail (H : Hooks) (userId : Nat) (s : Db × Results PostAck)
    (d : PostData) (e : Env) (m : String)
    (hfind : s.1.findPost d.localId = none) (hf : e.fault = Fault.count m) :
    syncPostItem H userId s (d, e) =
      ({ s.1 with posts := s.1.posts ++ [Post.fresh H e userId d] },
       pushError s.2 d.localId m) := by
  simp [syncPostItem, hf, hfind]

theorem Post.preSave_id (H : Hooks) (now : Nat) (b : Bool) (p : Post) :
    (Post.preSave H now b p).id = p.id := by
  unfold Post.preSave
  by_cases h : (b && decide (0 < p.content.length)) = true <;> simp [h]

theorem Post.preSave_userId (H : Hooks) (now : Nat) (b : Bool) (p : Post) :
    (Post.preSave H now b p).userId = p.userId := by
  unfold Post.preSave
  by_cases h : (b && decide (0 < p.content.length)) = true <;> simp [h]

theorem Post.preSave_localId (H : Hooks) (now : Nat) (b : Bool) (p : Post) :
    (Post.preSave H now b p).localId = p.localId := by
  unfold Post.preSave
  by_cases h : (b && decide (0 < p.content.length)) = true <;> simp [h]

theorem Post.preSave_syncStatus (H : Hooks) (now : Nat) (b : Bool) (p : Post) :
    (Post.preSave H now b p).syncStatus = p.syncStatus := by
  unfold Post.preSave
  by_cases h : (b && decide (0 < p.content.length)) = true <;> simp [h]

theorem Post.preSave_version (H : Hooks) (now : Nat) (b : Bool) (p : Post) :
    (Post.preSave H now b p).version = p.version := by
  unfold Post.preSave
  by_cases h : (b && decide (0 < p.content.length)) = true <;> simp [h]

theorem Post.preSave_content (H : Hooks) (now : Nat) (b : Bool) (p : Post) :
    (Post.preSave H now b p).content = p.content := by
  unfold Post.preSave
  by_cases h : (b && decide (0 < p.content.length)) = true <;> simp [h]

theorem Post.preSave_isHidden (H : Hooks) (now : Nat) (b : Bool) (p : Post) :
    (Post.preSave H now b p).isHidden = p.isHidden := by
  unfold Post.preSave
  by_cases h : (b && decide (0 < p.content.length)) = true <;> simp [h]

theorem Post.preSave_fields (H : Hooks) (now : Nat) (b : Bool) (p : Post) :
    (Post.preSave H now b p).fields = p.fields := by
  unfold Post.preSave
  by_cases h : (b && decide (0 < p.content.length)) = true <;> simp [h]

theorem Post.preSave_updatedAt (H : Hooks) (now : Nat) (b : Bool) (p : Post) :
    (Post.preSave H now b p).updatedAt = now := by
  unfold Post.preSave
  by_cases h : (b && decide (0 < p.content.length)) = true <;> simp [h]

theorem Post.updated_version (H : Hooks) (now : Nat) (p : Post) (d : PostData) :
    (Post.updated H now p d).version = d.version.getD p.version + 1 := by
  simp [Post.updated, Post.preSave_version, Post.accept, Post.assign]

theorem Post.updated_id (H : Hooks) (now : Nat) (p : Post) (d : PostData) :
    (Post.updated H now p d).id = p.id := by
  simp [Post.updated, Post.preSave_id, Post.accept, Post.assign]

theorem Post.updated_localId (H : Hooks) (now : Nat) (p : Post) (d : PostData) :
    (Post.updated H now p d).localId = p.localId := by
  simp [Post.updated, Post.preSave_localId, Post.accept, Post.assign]

theorem Post.updated_syncStatus (H : Hooks) (now : Nat) (p : Post) (d : PostData) :
    (Post.updated H now p d).syncStatus = "synced" := by
  simp [Post.updated, Post.preSave_syncStatus, Post.accept, Post.assign]

theorem Post.updated_fields (H : Hooks) (now : Nat) (p : Post) (d : PostData) :
    (Post.updated H now p d).fields = p.fields.assign d.fields := by
  simp [Post.updated, Post.preSave_fields, Post.accept, Post.assign]

theorem Post.updated_content (H : Hooks) (now : Nat) (p : Post) (d : PostData) :
    (Post.updated H now p d).content = (d.content.map H.trim).getD p.content := by
  simp [Post.updated, Post.preSave_content, Post.accept, Post.assign]

theorem Post.updated_userId (H : Hooks) (now : Nat) (p : Post) (d : PostData) :
    (Post.updated H now p d).userId = d.userId.getD p.userId := by
  simp [Post.updated, Post.preSave_userId, Post.accept, Post.assign]

theorem Post.updated_isHidden (H : Hooks) (now : Nat) (p : Post) (d : PostData) :
    (Post.updated H now p d).isHidden = d.isHidden.getD p.isHidden := by
  simp [Post.updated, Post.preSave_isHidden, Post.accept, Post.assign]

theorem Post.updated_updatedAt (H : Hooks) (now : Nat) (p : Post) (d : PostData) :
    (Post.updated H now p d).updatedAt = now := by
  simp [Post.updated, Post.preSave_updatedAt]

theorem Post.fresh_version (H : Hooks) (e : Env) (userId : Nat) (d : PostData) :
    (Post.fresh H e userId d).version = 1 := by
  simp [Post.fresh, Post.preSave_version]

theorem Post.fresh_id (H : Hooks) (e : Env) (userId : Nat) (d : PostData) :
    (Post.fresh H e userId d).id = e.oid := by
  simp [Post.fresh, Post.preSave_id]

theorem Post.fresh_localId (H : Hooks) (e : Env) (userId : Nat) (d : PostData) :
    (Post.fresh H e userId d).localId = d.localId := by
  simp [Post.fresh, Post.preSave_localId]

theorem Post.fresh_syncStatus (H : Hooks) (e : Env) (userId : Nat) (d : PostData) :
    (Post.fresh H e userId d).syncStatus = "synced" := by
  simp [Post.fresh, Post.preSave_syncStatus]

theorem Post.fresh_userId (H : Hooks) (e : Env) (userId : Nat) (d : PostData) :
    (Post.fresh H e userId d).userId = userId := by
  simp [Post.fresh, Post.preSave_userId]

/-! ## Claims on the posts reconciler -/

/-- C1: in the posts reconciler, an item whose `localId` matches a stored post with stored
version `S` and whose numeric client version `C` is below `S` leaves the whole store as it
was, whatever call rejects; when the lookup itself does not reject, the item is appended to
`conflicts` with `serverVersion = S` and `clientVersion = C`, nothing else in the results
changes, and the rest of the batch runs from the untouched store. -/
theorem posts_conflict_keeps_store (H : Hooks) (userId : Nat) (s0 : Db × Results PostAck)
    (pre rest : List (PostData × Env)) (d : PostData) (e : Env) (post : Post) (C : Int)
    (hfind : (syncPostsFrom H userId s0 pre).1.findPost d.localId = some post)
    (hC : d.version = some C) (hlt : C < post.version) :
    (syncPostItem H userId (syncPostsFrom H userId s0 pre) (d, e)).1 =
        (syncPostsFrom H userId s0 pre).1 ∧
    ((∀ m, e.fault ≠ Fault.find m) →
      syncPostItem H userId (syncPostsFrom H userId s0 pre) (d, e) =
        ((syncPostsFrom H userId s0 pre).1,
         { (syncPostsFrom H userId s0 pre).2 with
           conflicts := (syncPostsFrom H userId s0 pre).2.conflicts ++
             [{ localId := d.localId
                message := "Version conflict - server has newer version"
                serverVersion := post.version
                clientVersion := some C }] }) ∧
      syncPostsFrom H userId s0 (pre ++ (d, e) :: rest) =
        syncPostsFrom H userId
          ((syncPostsFrom H userId s0 pre).1,
           { (syncPostsFrom H userId s0 pre).2 with
             conflicts := (syncPostsFrom H userId s0 pre).2.conflicts ++
               [{ localId := d.localId
                  message := "Version conflict - server has newer version"
                  serverVersion := post.version
                  clientVersion := some C }] }) rest) := by
  constructor
  · by_cases hl : ∀ m, e.fault ≠ Fault.find m
    · rw [syncPostItem_conflict H userId _ d e post C hfind hC hlt hl]
    · push_neg at hl
      obtain ⟨m, hm⟩ := hl
      rw [syncPostItem_find_fault H userId _ d e m hm]
  · intro hl
    have hstep := syncPostItem_conflict H userId _ d e post C hfind hC hlt hl
    refine ⟨hstep, ?_⟩
    rw [syncPostsFrom_append, syncPostsFrom_cons, hstep]

/-- Witness of C1: the replayed `version: 1` update of the scenario meets the stored
version 2 and is reported as a conflict with `serverVersion: 2`. -/
theorem posts_conflict_keeps_store_witness :
    (syncPostsFrom plainHooks 7 (dbL1 2, Results.empty) []).1.findPost (updateL1 1).localId
        = some (storedL1 2) ∧
    (updateL1 1).version = some 1 ∧ (1 : Int) < (storedL1 2).version ∧
    (syncPostItem plainHooks 7 (syncPostsFrom plainHooks 7 (dbL1 2, Results.empty) [])
        (updateL1 1, calm 30 102)).1 = dbL1 2 ∧
    (syncPostsFrom plainHooks 7 (dbL1 2, Results.empty)
        ([] ++ (updateL1 1, calm 30 102) :: [])).2.conflicts =
      [{ localId := some "L1"
         message := "Version conflict - server has newer version"
         serverVersion := 2
         clientVersion := some 1 }] := by
  have h := posts_conflict_keeps_store plainHooks 7 (dbL1 2, Results.empty) [] []
    (updateL1 1) (calm 30 102) (storedL1 2) 1 (by decide) (by decide) (by decide)
  refine ⟨by decide, by decide, by decide, h.1, ?_⟩
  rw [(h.2 (fun m => by simp [calm])).2]
  decide

theorem syncPostItem_existing_created (H : Hooks) (userId : Nat) (s : Db × Results PostAck)
    (d : PostData) (e : Env) (post : Post)
    (hfind : s.1.findPost d.localId = some post) :
    (syncPostItem H userId s (d, e)).2.created = s.2.created := by
  cases hf : e.fault <;> cases hv : versionNewer post.version d.version <;>
    simp [syncPostItem, hf, hfind, hv, pushError]

theorem syncPostItem_accept_conflicts (H : Hooks) (userId : Nat) (s : Db × Results PostAck)
    (d : PostData) (e : Env) (post : Post)
    (hfind : s.1.findPost d.localId = some post)
    (hv : versionNewer post.version d.version = false) :
    (syncPostItem H userId s (d, e)).2.conflicts = s.2.conflicts := by
  cases hf : e.fault <;> simp [syncPostItem, hf, hfind, hv, pushError]

theorem syncPostItem_updated_only_existing (H : Hooks) (userId : Nat)
    (s : Db × Results PostAck) (d : PostData) (e : Env)
    (h : (syncPostItem H userId s (d, e)).2.updated ≠ s.2.updated) :
    (s.1.findPost d.localId).isSome = true := by
  cases hfind : s.1.findPost d.localId with
  | some post => rfl
  | none =>
    exfalso
    apply h
    cases hf : e.fault <;> simp [syncPostItem, hf, hfind, pushError]

/-- C2: in the posts reconciler, an item whose `localId` matches a stored post and whose
numeric client version `C` is at least the stored version is never put in `created` or
`conflicts`; when no call rejects it is appended to `updated` with the stored `serverId`,
the stored post is replaced by its saved state, which has `syncStatus` `synced` and carries
every field of the payload (content through the schema setter); and an item is appended to
`updated` only if a post with its `localId` was already stored. -/
theorem posts_accept_update (H : Hooks) (userId : Nat) (s : Db × Results PostAck)
    (d : PostData) (e : Env) (post : Post) (C : Int)
    (hfind : s.1.findPost d.localId = some post)
    (hC : d.version = some C) (hge : post.version ≤ C) :
    (syncPostItem H userId s (d, e)).2.created = s.2.created ∧
    (syncPostItem H userId s (d, e)).2.conflicts = s.2.conflicts ∧
    (e.fault = Fault.none →
      (syncPostItem H userId s (d, e)).2 =
        { s.2 with updated := s.2.updated ++
          [{ localId := d.localId, serverId := post.id, version := C + 1 }] } ∧
      (syncPostItem H userId s (d, e)).1 =
        { s.1 with
          posts := saveExisting (fun p => p.localId == d.localId)
            (Post.updated H e.now post d) s.1.posts } ∧
      Post.updated H e.now post d ∈ (syncPostItem H userId s (d, e)).1.posts ∧
      (Post.updated H e.now post d).syncStatus = "synced" ∧
      (Post.updated H e.now post d).id = post.id ∧
      (Post.updated H e.now post d).localId = post.localId ∧
      (∀ k v, d.fields.get k = some v →
        (Post.updated H e.now post d).fields.get k = some v) ∧
      (∀ k, d.fields.get k = none →
        (Post.updated H e.now post d).fields.get k = post.fields.get k) ∧
      (∀ c, d.content = some c → (Post.updated H e.now post d).content = H.trim c) ∧
      (∀ b, d.isHidden = some b → (Post.updated H e.now post d).isHidden = b)) ∧
    (∀ (s1 : Db × Results PostAck) (d1 : PostData) (e1 : Env),
      (syncPostItem H userId s1 (d1, e1)).2.updated ≠ s1.2.updated →
        (s1.1.findPost d1.localId).isSome = true) := by
  have hv : versionNewer post.version d.version = false := by
    simp [versionNewer, hC, hge]
  refine ⟨syncPostItem_existing_created H userId s d e post hfind,
    syncPostItem_accept_conflicts H userId s d e post hfind hv, ?_,
    fun s1 d1 e1 h => syncPostItem_updated_only_existing H userId s1 d1 e1 h⟩
  intro hf
  have hstep := syncPostItem_update H userId s d e post hfind hv
    (by simp [hf]) (by simp [hf])
  have hfind2 : s.1.posts.find? (fun p => p.localId == d.localId) = some post := hfind
  refine ⟨?_, ?_, ?_, Post.updated_syncStatus H e.now post d, Post.updated_id H e.now post d,
    Post.updated_localId H e.now post d, ?_, ?_, ?_, ?_⟩
  · rw [hstep]
    simp [Post.updated_id, Post.updated_version, hC]
  · rw [hstep]
  · rw [hstep]
    exact mem_saveExisting _ _ post _ hfind2
  · intro k v hk
    rw [Post.updated_fields, Fields.get_assign, hk]
  · intro k hk
    rw [Post.updated_fields, Fields.get_assign, hk]
  · intro c hc
    rw [Post.updated_content, hc]
    rfl
  · intro b hb
    rw [Post.updated_isHidden, hb]
    rfl

/-- Witness of C2: the `version: 1` update of the scenario against the stored version 1 is
accepted and reported as `updated` with version 2. -/
theorem posts_accept_update_witness :
    (dbL1 1, (Results.empty : Results PostAck)).1.findPost (updateL1 1).localId
        = some (storedL1 1) ∧
    (updateL1 1).version = some 1 ∧ (storedL1 1).version ≤ (1 : Int) ∧
    (syncPostItem plainHooks 7 (dbL1 1, Results.empty) (updateL1 1, calm 20 101)).2 =
      { created := [], updated := [{ localId := some "L1", serverId := 100, version := 2 }],
        conflicts := [], errors := [] } := by
  have h := posts_accept_update plainHooks 7 (dbL1 1, Results.empty) (updateL1 1)
    (calm 20 101) (storedL1 1) 1 (by decide) (by decide) (by decide)
  refine ⟨by decide, by decide, by decide, ?_⟩
  rw [(h.2.2.1 (by decide)).1]
  decide

/-- C3: in the posts reconciler, an item whose `localId` matches no stored post, processed
without a rejected call, appends one post to the store with that `localId`, the principal as
owner, version exactly 1 whatever `version` the payload carries, and `syncStatus` `synced`,
and is appended to `created` with the new post's `serverId` and version 1. -/
theorem posts_create_version_one (H : Hooks) (userId : Nat) (s : Db × Results PostAck)
    (d : PostData) (e : Env)
    (hfind : s.1.findPost d.localId = none) (hf : e.fault = Fault.none) :
    (syncPostItem H userId s (d, e)).1.posts = s.1.posts ++ [Post.fresh H e userId d] ∧
    (Post.fresh H e userId d).localId = d.localId ∧
    (Post.fresh H e userId d).version = 1 ∧
    (Post.fresh H e userId d).syncStatus = "synced" ∧
    (Post.fresh H e userId d).userId = userId ∧
    (Post.fresh H e userId d).id = e.oid ∧
    (syncPostItem H userId s (d, e)).2 =
      { s.2 with created := s.2.created ++
        [{ localId := d.localId, serverId := e.oid, version := 1 }] } := by
  have hstep := syncPostItem_create H userId s d e hfind hf
  refine ⟨by rw [hstep], Post.fresh_localId H e userId d, Post.fresh_version H e userId d,
    Post.fresh_syncStatus H e userId d, Post.fresh_userId H e userId d,
    Post.fresh_id H e userId d, ?_⟩
  rw [hstep]
  simp [Post.fresh_id, Post.fresh_version]

/-- Witness of C3: a first push of `L1` carrying `version: 9` to a store without posts is
reported as `created` with version 1. -/
theorem posts_create_version_one_witness :
    (coldDb, (Results.empty : Results PostAck)).1.findPost
        ({ createL1 with version := some 9 } : PostData).localId = none ∧
    (calm 10 100).fault = Fault.none ∧
    (syncPostItem plainHooks 7 (coldDb, Results.empty)
        ({ createL1 with version := some 9 }, calm 10 100)).2 =
      { created := [{ localId := some "L1", serverId := 100, version := 1 }],
        updated := [], conflicts := [], errors := [] } := by
  have h := posts_create_version_one plainHooks 7 (coldDb, Results.empty)
    { createL1 with version := some 9 } (calm 10 100) (by decide) (by decide)
  refine ⟨by decide, by decide, ?_⟩
  rw [h.2.2.2.2.2.2]
  decide

/-- C4 at the failing input: a post stored at version 1 receives an update carrying client
version 5; the update is accepted and the stored version becomes 6, not 2. -/
theorem posts_update_adopts_client_version :
    (syncPosts plainHooks 7 (dbL1 1) (some [(updateL1 5, calm 20 101)])).1.posts.map
        Post.version = [6] ∧
    (syncPosts plainHooks 7 (dbL1 1) (some [(updateL1 5, calm 20 101)])).2 =
      Response.ok "Sync completed"
        { created := [], updated := [{ localId := some "L1", serverId := 100, version := 6 }],
          conflicts := [], errors := [] }
        { total := 1, successful := 1, conflicts := 0, errors := 0 } ∧
    (dbL1 1).posts.map Post.version = [1] := by
  decide

/-! ## Results only accumulate -/

theorem Results.append_empty {α : Type} (r : Results α) : r.append Results.empty = r := by
  simp [Results.append, Results.empty]

theorem Results.append_assoc {α : Type} (a b c : Results α) :
    (a.append b).append c = a.append (b.append c) := by
  simp [Results.append, List.append_assoc]

theorem syncPostItem_frame (H : Hooks) (userId : Nat) (db : Db) (r : Results PostAck)
    (x : PostData × Env) :
    syncPostItem H userId (db, r) x =
      ((syncPostItem H userId (db, Results.empty) x).1,
       r.append (syncPostItem H userId (db, Results.empty) x).2) := by
  obtain ⟨d, e⟩ := x
  cases hf : e.fault <;> cases hfind : db.findPost d.localId with
  | none => simp [syncPostItem, hf, hfind, pushError, Results.append, Results.empty]
  | some post =>
    cases hv : versionNewer post.version d.version <;>
      simp [syncPostItem, hf, hfind, hv, pushError, Results.append, Results.empty]

theorem syncPostsFrom_frame (H : Hooks) (userId : Nat) (items : List (PostData × Env))
    (db : Db) (r : Results PostAck) :
    syncPostsFrom H userId (db, r) items =
      ((syncPostsFrom H userId (db, Results.empty) items).1,
       r.append (syncPostsFrom H userId (db, Results.empty) items).2) := by
  induction items generalizing db r with
  | nil => simp [syncPostsFrom, Results.append_empty]
  | cons x rest ih =>
    rw [syncPostsFrom_cons, syncPostsFrom_cons, syncPostItem_frame H userId db r x]
    rw [ih (syncPostItem H userId (db, Results.empty) x).1
          (r.append (syncPostItem H userId (db, Results.empty) x).2)]
    have h2 : syncPostItem H userId (db, Results.empty) x =
        ((syncPostItem H userId (db, Results.empty) x).1,
         (syncPostItem H userId (db, Results.empty) x).2) := rfl
    rw [h2, ih (syncPostItem H userId (db, Results.empty) x).1
          (syncPostItem H userId (db, Results.empty) x).2]
    simp [Results.append_assoc]

theorem syncPostItem_save_rejected (H : Hooks) (userId : Nat) (s : Db × Results PostAck)
    (d : PostData) (e : Env) (m : String) (hf : e.fault = Fault.save m)
    (hreach : ∀ post, s.1.findPost d.localId = some post →
      versionNewer post.version d.version = false) :
    syncPostItem H userId s (d, e) = (s.1, pushError s.2 d.localId m) := by
  cases hfind : s.1.findPost d.localId with
  | none => exact syncPostItem_create_fail H userId s d e m hfind hf
  | some post => exact syncPostItem_update_fail H userId s d e post m hfind (hreach post hfind) hf

/-- C5: when the `save()` of one item of a posts batch rejects with message `m`, the item is
appended to `errors` with that message and the loop goes on: the final store and the
`created`, `updated` and `conflicts` lists are exactly those of the same batch without the
item, `errors` is the list of that batch with the item's entry inserted at its place, and
the handler still answers with the 200 body that lists the entry. -/
theorem posts_batch_isolation (H : Hooks) (userId : Nat) (db : Db)
    (pre rest : List (PostData × Env)) (d : PostData) (e : Env) (m : String)
    (hf : e.fault = Fault.save m)
    (hreach : ∀ post,
      (syncPostsFrom H userId (db, Results.empty) pre).1.findPost d.localId = some post →
        versionNewer post.version d.version = false) :
    (syncPostsFrom H userId (db, Results.empty) (pre ++ (d, e) :: rest)).1 =
      (syncPostsFrom H userId (db, Results.empty) (pre ++ rest)).1 ∧
    (syncPostsFrom H userId (db, Results.empty) (pre ++ (d, e) :: rest)).2.created =
      (syncPostsFrom H userId (db, Results.empty) (pre ++ rest)).2.created ∧
    (syncPostsFrom H userId (db, Results.empty) (pre ++ (d, e) :: rest)).2.updated =
      (syncPostsFrom H userId (db, Results.empty) (pre ++ rest)).2.updated ∧
    (syncPostsFrom H userId (db, Results.empty) (pre ++ (d, e) :: rest)).2.conflicts =
      (syncPostsFrom H userId (db, Results.empty) (pre ++ rest)).2.conflicts ∧
    (∃ later : List ErrorEntry,
      (syncPostsFrom H userId (db, Results.empty) (pre ++ rest)).2.errors =
        (syncPostsFrom H userId (db, Results.empty) pre).2.errors ++ later ∧
      (syncPostsFrom H userId (db, Results.empty) (pre ++ (d, e) :: rest)).2.errors =
        (syncPostsFrom H userId (db, Results.empty) pre).2.errors ++
          { localId := d.localId, error := m } :: later) ∧
    (∃ results summary,
      (syncPosts H userId db (some (pre ++ (d, e) :: rest))).2 =
        Response.ok "Sync completed" results summary ∧
      ({ localId := d.localId, error := m } : ErrorEntry) ∈ results.errors ∧
      summary.total = pre.length + 1 + rest.length) := by
  have hstep := syncPostItem_save_rejected H userId
    (syncPostsFrom H userId (db, Results.empty) pre) d e m hf hreach
  have hA : syncPostsFrom H userId (db, Results.empty) (pre ++ (d, e) :: rest) =
      ((syncPostsFrom H userId
          ((syncPostsFrom H userId (db, Results.empty) pre).1, Results.empty) rest).1,
       (pushError (syncPostsFrom H userId (db, Results.empty) pre).2 d.localId m).append
         (syncPostsFrom H userId
          ((syncPostsFrom H userId (db, Results.empty) pre).1, Results.empty) rest).2) := by
    rw [syncPostsFrom_append, syncPostsFrom_cons, hstep, syncPostsFrom_frame]
  have hB : syncPostsFrom H userId (db, Results.empty) (pre ++ rest) =
      ((syncPostsFrom H userId
          ((syncPostsFrom H userId (db, Results.empty) pre).1, Results.empty) rest).1,
       ((syncPostsFrom H userId (db, Results.empty) pre).2).append
         (syncPostsFrom H userId
          ((syncPostsFrom H userId (db, Results.empty) pre).1, Results.empty) rest).2) := by
    rw [syncPostsFrom_append]
    have h2 : syncPostsFrom H userId (db, Results.empty) pre =
        ((syncPostsFrom H userId (db, Results.empty) pre).1,
         (syncPostsFrom H userId (db, Results.empty) pre).2) := rfl
    rw [h2, syncPostsFrom_frame]
  refine ⟨by rw [hA, hB], by rw [hA, hB]; rfl, by rw [hA, hB]; rfl, by rw [hA, hB]; rfl,
    ⟨(syncPostsFrom H userId
        ((syncPostsFrom H userId (db, Results.empty) pre).1, Results.empty) rest).2.errors,
      by rw [hB]; rfl, by rw [hA]; simp [Results.append, pushError]⟩, ?_⟩
  refine ⟨_, _, rfl, ?_, ?_⟩
  · show _ ∈ (syncPostsFrom H userId (db, Results.empty) (pre ++ (d, e) :: rest)).2.errors
    rw [hA]
    simp [Results.append, pushError]
  · show (pre ++ (d, e) :: rest).length = pre.length + 1 + rest.length
    simp [List.length_append]
    omega

/-- Witness of C5: in a batch of three posts whose second `save()` rejects, the second item
is reported in `errors` and the other two are created as without it. -/
theorem posts_batch_isolation_witness :
    (faulty 20 101 (Fault.save "disk full")).fault = Fault.save "disk full" ∧
    (syncPostsFrom plainHooks 7 (coldDb, Results.empty)
        ([(createL1, calm 10 100)] ++
          ({ localId := some "L2" }, faulty 20 101 (Fault.save "disk full")) ::
          [({ localId := some "L3" }, calm 30 102)])).1 =
      (syncPostsFrom plainHooks 7 (coldDb, Results.empty)
        ([(createL1, calm 10 100)] ++ [({ localId := some "L3" }, calm 30 102)])).1 ∧
    (syncPostsFrom plainHooks 7 (coldDb, Results.empty)
        ([(createL1, calm 10 100)] ++
          ({ localId := some "L2" }, faulty 20 101 (Fault.save "disk full")) ::
          [({ localId := some "L3" }, calm 30 102)])).2 =
      { created := [{ localId := some "L1", serverId := 100, version := 1 },
                    { localId := some "L3", serverId := 102, version := 1 }],
        updated := [], conflicts := [],
        errors := [{ localId := some "L2", error := "disk full" }] } := by
  have h := posts_batch_isolation plainHooks 7 coldDb [(createL1, calm 10 100)]
    [({ localId := some "L3" }, calm 30 102)] { localId := some "L2" }
    (faulty 20 101 (Fault.save "disk full")) "disk full" (by decide)
    (fun _ _ => rfl)
  exact ⟨by decide, h.1, by decide⟩

/-- C6 refuted as stated: the create of `L1` is saved, the follow-up post-count update
rejects, the item is reported in `errors`, and the new post is nevertheless stored. -/
theorem posts_count_failure_keeps_post :
    (syncPostItem plainHooks 7 (coldDb, Results.empty)
        (createL1, faulty 10 100 (Fault.count "write concern"))).2 =
      { created := [], updated := [], conflicts := [],
        errors := [{ localId := some "L1", error := "write concern" }] } ∧
    (syncPostItem plainHooks 7 (coldDb, Results.empty)
        (createL1, faulty 10 100 (Fault.count "write concern"))).1.posts.map Post.localId =
      [some "L1"] ∧
    coldDb.posts = [] ∧
    (syncPostItem plainHooks 7 (coldDb, Results.empty)
        (createL1, faulty 10 100 (Fault.count "write concern"))).1 ≠ coldDb := by
  decide

/-- C6 as amended: an item that is appended to `errors` leaves the server state as it was
unless the rejected call is the post-count update that follows the `save()` of a create; in
that case the new post is stored, the users are untouched, and no post existed for the
`localId` before. -/
theorem posts_error_atomic_unless_count (H : Hooks) (userId : Nat)
    (s : Db × Results PostAck) (d : PostData) (e : Env)
    (herr : (syncPostItem H userId s (d, e)).2.errors ≠ s.2.errors) :
    ((∀ m, e.fault ≠ Fault.count m) → (syncPostItem H userId s (d, e)).1 = s.1) ∧
    (∀ m, e.fault = Fault.count m →
      s.1.findPost d.localId = none ∧
      (syncPostItem H userId s (d, e)).1 =
        { s.1 with posts := s.1.posts ++ [Post.fresh H e userId d] } ∧
      (syncPostItem H userId s (d, e)).2 = pushError s.2 d.localId m) := by
  constructor
  · intro hc
    cases hf : e.fault with
    | count m => exact absurd hf (hc m)
    | find m => rw [syncPostItem_find_fault H userId s d e m hf]
    | none =>
      exfalso
      apply herr
      cases hfind : s.1.findPost d.localId with
      | none => simp [syncPostItem, hf, hfind]
      | some post =>
        cases hv : versionNewer post.version d.version <;>
          simp [syncPostItem, hf, hfind, hv]
    | save m =>
      cases hfind : s.1.findPost d.localId with
      | none => rw [syncPostItem_create_fail H userId s d e m hfind hf]
      | some post =>
        cases hv : versionNewer post.version d.version <;>
          simp [syncPostItem, hf, hfind, hv]
  · intro m hf
    cases hfind : s.1.findPost d.localId with
    | none =>
      rw [syncPostItem_create_count_fail H userId s d e m hfind hf]
      exact ⟨rfl, rfl, rfl⟩
    | some post =>
      exfalso
      apply herr
      cases hv : versionNewer post.version d.version <;>
        simp [syncPostItem, hf, hfind, hv]

/-- Witness of C6 as amended: the rejected `save()` of a create is reported in `errors` and
the store is the one before the item. -/
theorem posts_error_atomic_unless_count_witness :
    (syncPostItem plainHooks 7 (coldDb, Results.empty)
        (createL1, faulty 10 100 (Fault.save "disk full"))).2.errors ≠
      (coldDb, (Results.empty : Results PostAck)).2.errors ∧
    (syncPostItem plainHooks 7 (coldDb, Results.empty)
        (createL1, faulty 10 100 (Fault.save "disk full"))).1 = coldDb := by
  have h := posts_error_atomic_unless_count plainHooks 7 (coldDb, Results.empty) createL1
    (faulty 10 100 (Fault.save "disk full")) (by decide)
  exact ⟨by decide, h.1 (fun m => by simp [faulty])⟩

/-! ## One entry per input -/

theorem pick_length_sum (ks : List (Option String)) (tags : List Outcome)
    (h : tags.length = ks.length) :
    (pick Outcome.created ks tags).length + (pick Outcome.updated ks tags).length +
      (pick Outcome.conflict ks tags).length + (pick Outcome.error ks tags).length =
      ks.length := by
  induction ks generalizing tags with
  | nil => cases tags <;> simp [pick]
  | cons k rest ih =>
    cases tags with
    | nil => simp at h
    | cons o os =>
      have hl : os.length = rest.length := by simpa using h
      have := ih os hl
      cases o <;> simp [pick] <;> omega

theorem fold_outcomes {σ ι α : Type} (loc : α → Option String) (key : ι → Option String)
    (step : σ × Results α → ι → σ × Results α)
    (hstep : ∀ s x, ∃ o : Outcome, ∀ t,
      (step s x).2.keys loc t = s.2.keys loc t ++ (if o = t then [key x] else []))
    (items : List ι) (s : σ × Results α) :
    ∃ tags : List Outcome, tags.length = items.length ∧
      ∀ t, (items.foldl step s).2.keys loc t = s.2.keys loc t ++ pick t (items.map key) tags := by
  induction items generalizing s with
  | nil => exact ⟨[], rfl, fun t => by simp [pick]⟩
  | cons x rest ih =>
    obtain ⟨o, ho⟩ := hstep s x
    obtain ⟨tags, hlen, htags⟩ := ih (step s x)
    refine ⟨o :: tags, by simp [hlen], fun t => ?_⟩
    rw [List.foldl_cons, htags t, ho t]
    by_cases h : o = t <;> simp [pick, h]

theorem classified_of_fold {σ ι α : Type} (loc : α → Option String) (key : ι → Option String)
    (step : σ × Results α → ι → σ × Results α)
    (hstep : ∀ s x, ∃ o : Outcome, ∀ t,
      (step s x).2.keys loc t = s.2.keys loc t ++ (if o = t then [key x] else []))
    (items : List ι) (st : σ) :
    Classified loc (items.map key) (items.foldl step (st, Results.empty)).2 := by
  obtain ⟨tags, hlen, htags⟩ := fold_outcomes loc key step hstep items (st, Results.empty)
  refine ⟨tags, by simpa using hlen, fun t => ?_⟩
  rw [htags t]
  cases t <;> simp [Results.keys, Results.empty]

theorem Classified.total {α : Type} (loc : α → Option String) (inputs : List (Option String))
    (r : Results α) (h : Classified loc inputs r) :
    r.created.length + r.updated.length + r.conflicts.length + r.errors.length =
      inputs.length := by
  obtain ⟨tags, hlen, htags⟩ := h
  have h1 := congrArg List.length (htags Outcome.created)
  have h2 := congrArg List.length (htags Outcome.updated)
  have h3 := congrArg List.length (htags Outcome.conflict)
  have h4 := congrArg List.length (htags Outcome.error)
  simp only [Results.keys, List.length_map] at h1 h2 h3 h4
  rw [h1, h2, h3, h4]
  exact pick_length_sum inputs tags hlen

theorem syncPostItem_outcome (H : Hooks) (userId : Nat) (s : Db × Results PostAck)
    (x : PostData × Env) :
    ∃ o : Outcome, ∀ t, (syncPostItem H userId s x).2.keys PostAck.localId t =
      s.2.keys PostAck.localId t ++ (if o = t then [x.1.localId] else []) := by
  obtain ⟨d, e⟩ := x
  cases hfind : s.1.findPost d.localId with
  | none =>
    cases hf : e.fault with
    | none =>
      exact ⟨Outcome.created, fun t => by
        cases t <;> simp [syncPostItem, hf, hfind, pushError, Results.keys]⟩
    | find m =>
      exact ⟨Outcome.error, fun t => by
        cases t <;> simp [syncPostItem, hf, pushError, Results.keys]⟩
    | save m =>
      exact ⟨Outcome.error, fun t => by
        cases t <;> simp [syncPostItem, hf, hfind, pushError, Results.keys]⟩
    | count m =>
      exact ⟨Outcome.error, fun t => by
        cases t <;> simp [syncPostItem, hf, hfind, pushError, Results.keys]⟩
  | some post =>
    cases hv : versionNewer post.version d.version with
    | true =>
      cases hf : e.fault with
      | find m =>
        exact ⟨Outcome.error, fun t => by
          cases t <;> simp [syncPostItem, hf, pushError, Results.keys]⟩
      | none =>
        exact ⟨Outcome.conflict, fun t => by
          cases t <;> simp [syncPostItem, hf, hfind, hv, pushError, Results.keys]⟩
      | save m =>
        exact ⟨Outcome.conflict, fun t => by
          cases t <;> simp [syncPostItem, hf, hfind, hv, pushError, Results.keys]⟩
      | count m =>
        exact ⟨Outcome.conflict, fun t => by
          cases t <;> simp [syncPostItem, hf, hfind, hv, pushError, Results.keys]⟩
    | false =>
      cases hf : e.fault with
      | find m =>
        exact ⟨Outcome.error, fun t => by
          cases t <;> simp [syncPostItem, hf, pushError, Results.keys]⟩
      | none =>
        exact ⟨Outcome.updated, fun t => by
          cases t <;> simp [syncPostItem, hf, hfind, hv, pushError, Results.keys]⟩
      | save m =>
        exact ⟨Outcome.error, fun t => by
          cases t <;> simp [syncPostItem, hf, hfind, hv, pushError, Results.keys]⟩
      | count m =>
        exact ⟨Outcome.updated, fun t => by
          cases t <;> simp [syncPostItem, hf, hfind, hv, pushError, Results.keys]⟩

theorem syncGroupItem_outcome (userId : Nat) (s : Db × Results GroupAck)
    (x : GroupData × Env) :
    ∃ o : Outcome, ∀ t, (syncGroupItem userId s x).2.keys GroupAck.localId t =
      s.2.keys GroupAck.localId t ++ (if o = t then [x.1.localId] else []) := by
  obtain ⟨d, e⟩ := x
  cases hfind : s.1.findGroup d.localId with
  | none =>
    cases hf : e.fault with
    | none =>
      exact ⟨Outcome.created, fun t => by
        cases t <;> simp [syncGroupItem, hf, hfind, pushError, Results.keys]⟩
    | find m =>
      exact ⟨Outcome.error, fun t => by
        cases t <;> simp [syncGroupItem, hf, pushError, Results.keys]⟩
    | save m =>
      exact ⟨Outcome.error, fun t => by
        cases t <;> simp [syncGroupItem, hf, hfind, pushError, Results.keys]⟩
    | count m =>
      exact ⟨Outcome.error, fun t => by
        cases t <;> simp [syncGroupItem, hf, hfind, pushError, Results.keys]⟩
  | some group =>
    cases hf : e.fault with
    | find m =>
      exact ⟨Outcome.error, fun t => by
        cases t <;> simp [syncGroupItem, hf, pushError, Results.keys]⟩
    | none =>
      exact ⟨Outcome.updated, fun t => by
        cases t <;> simp [syncGroupItem, hf, hfind, pushError, Results.keys]⟩
    | save m =>
      exact ⟨Outcome.error, fun t => by
        cases t <;> simp [syncGroupItem, hf, hfind, pushError, Results.keys]⟩
    | count m =>
      exact ⟨Outcome.updated, fun t => by
        cases t <;> simp [syncGroupItem, hf, hfind, pushError, Results.keys]⟩

theorem syncUserItem_outcome (H : Hooks) (s : Db × Results UserAck)
    (x : UserData × Env) :
    ∃ o : Outcome, ∀ t, (syncUserItem H s x).2.keys UserAck.localId t =
      s.2.keys UserAck.localId t ++ (if o = t then [x.1.localId] else []) := by
  obtain ⟨d, e⟩ := x
  cases hfind : s.1.findUser d.phone d.localId with
  | none =>
    cases hf : e.fault with
    | none =>
      exact ⟨Outcome.created, fun t => by
        cases t <;> simp [syncUserItem, hf, hfind, pushError, Results.keys]⟩
    | find m =>
      exact ⟨Outcome.error, fun t => by
        cases t <;> simp [syncUserItem, hf, pushError, Results.keys]⟩
    | save m =>
      exact ⟨Outcome.error, fun t => by
        cases t <;> simp [syncUserItem, hf, hfind, pushError, Results.keys]⟩
    | count m =>
      exact ⟨Outcome.created, fun t => by
        cases t <;> simp [syncUserItem, hf, hfind, pushError, Results.keys]⟩
  | some user =>
    cases hf : e.fault with
    | find m =>
      exact ⟨Outcome.error, fun t => by
        cases t <;> simp [syncUserItem, hf, pushError, Results.keys]⟩
    | none =>
      exact ⟨Outcome.updated, fun t => by
        cases t <;> simp [syncUserItem, hf, hfind, pushError, Results.keys]⟩
    | save m =>
      exact ⟨Outcome.error, fun t => by
        cases t <;> simp [syncUserItem, hf, hfind, pushError, Results.keys]⟩
    | count m =>
      exact ⟨Outcome.updated, fun t => by
        cases t <;> simp [syncUserItem, hf, hfind, pushError, Results.keys]⟩

/-- C7: for every array of `N` items sent to the posts, groups or users route, every item
receives exactly one outcome and each of `created`, `updated`, `conflicts` and `errors`
lists the items with its outcome in input order; the four lengths sum to `N`, and the
summary of the 200 body satisfies `total = successful + conflicts + errors = N`. -/
theorem batch_one_entry_per_input (H : Hooks) (userId : Nat) (db : Db) :
    (∀ items : List (PostData × Env),
      Classified PostAck.localId (items.map (fun x => x.1.localId))
        (syncPostsFrom H userId (db, Results.empty) items).2 ∧
      (syncPostsFrom H userId (db, Results.empty) items).2.created.length +
        (syncPostsFrom H userId (db, Results.empty) items).2.updated.length +
        (syncPostsFrom H userId (db, Results.empty) items).2.conflicts.length +
        (syncPostsFrom H userId (db, Results.empty) items).2.errors.length = items.length ∧
      ∃ summary, (syncPosts H userId db (some items)).2 =
          Response.ok "Sync completed"
            (syncPostsFrom H userId (db, Results.empty) items).2 summary ∧
        summary.total = items.length ∧
        summary.total = summary.successful + summary.conflicts + summary.errors) ∧
    (∀ items : List (GroupData × Env),
      Classified GroupAck.localId (items.map (fun x => x.1.localId))
        (syncGroupsFrom userId (db, Results.empty) items).2 ∧
      (syncGroupsFrom userId (db, Results.empty) items).2.created.length +
        (syncGroupsFrom userId (db, Results.empty) items).2.updated.length +
        (syncGroupsFrom userId (db, Results.empty) items).2.conflicts.length +
        (syncGroupsFrom userId (db, Results.empty) items).2.errors.length = items.length ∧
      ∃ summary, (syncGroups userId db (some items)).2 =
          Response.ok "Sync completed"
            (syncGroupsFrom userId (db, Results.empty) items).2 summary ∧
        summary.total = items.length ∧
        summary.total = summary.successful + summary.conflicts + summary.errors) ∧
    (∀ items : List (UserData × Env),
      Classified UserAck.localId (items.map (fun x => x.1.localId))
        (syncUsersFrom H (db, Results.empty) items).2 ∧
      (syncUsersFrom H (db, Results.empty) items).2.created.length +
        (syncUsersFrom H (db, Results.empty) items).2.updated.length +
        (syncUsersFrom H (db, Results.empty) items).2.conflicts.length +
        (syncUsersFrom H (db, Results.empty) items).2.errors.length = items.length ∧
      ∃ summary, (syncUsers H db (some items)).2 =
          Response.ok "Sync completed"
            (syncUsersFrom H (db, Results.empty) items).2 summary ∧
        summary.total = items.length ∧
        summary.total = summary.successful + summary.conflicts + summary.errors) := by
  refine ⟨fun items => ?_, fun items => ?_, fun items => ?_⟩
  · have hc : Classified PostAck.localId (items.map (fun x => x.1.localId))
        (syncPostsFrom H userId (db, Results.empty) items).2 :=
      classified_of_fold PostAck.localId (fun x : PostData × Env => x.1.localId)
        (syncPostItem H userId) (syncPostItem_outcome H userId) items db
    have ht := Classified.total _ _ _ hc
    rw [List.length_map] at ht
    refine ⟨hc, ht, ⟨_, rfl, rfl, ?_⟩⟩
    simp only []
    omega
  · have hc : Classified GroupAck.localId (items.map (fun x => x.1.localId))
        (syncGroupsFrom userId (db, Results.empty) items).2 :=
      classified_of_fold GroupAck.localId (fun x : GroupData × Env => x.1.localId)
        (syncGroupItem userId) (syncGroupItem_outcome userId) items db
    have ht := Classified.total _ _ _ hc
    rw [List.length_map] at ht
    refine ⟨hc, ht, ⟨_, rfl, rfl, ?_⟩⟩
    simp only []
    omega
  · have hc : Classified UserAck.localId (items.map (fun x => x.1.localId))
        (syncUsersFrom H (db, Results.empty) items).2 :=
      classified_of_fold UserAck.localId (fun x : UserData × Env => x.1.localId)
        (syncUserItem H) (syncUserItem_outcome H) items db
    have ht := Classified.total _ _ _ hc
    rw [List.length_map] at ht
    refine ⟨hc, ht, ⟨_, rfl, rfl, ?_⟩⟩
    simp only []
    omega

/-! ## Replaying a batch -/

theorem find_localId_of_mem (ps : List Post) (l : Option String)
    (h : l ∈ ps.map Post.localId) :
    ∃ post, ps.find? (fun p => p.localId == l) = some post := by
  induction ps with
  | nil => simp at h
  | cons p rest ih =>
    by_cases hp : p.localId = l
    · exact ⟨p, by simp [List.find?_cons, hp]⟩
    · have hr : l ∈ rest.map Post.localId := by
        simp only [List.map_cons, List.mem_cons] at h
        rcases h with h | h
        · exact absurd h.symm hp
        · exact h
      obtain ⟨post, hpost⟩ := ih hr
      exact ⟨post, by simp [List.find?_cons, hp, hpost]⟩

theorem findPost_of_mem (db : Db) (l : Option String)
    (h : l ∈ db.posts.map Post.localId) : ∃ post, db.findPost l = some post :=
  find_localId_of_mem db.posts l h

theorem findPost_localId (db : Db) (l : Option String) (post : Post)
    (h : db.findPost l = some post) : post.localId = l := by
  have := List.find?_some h
  simpa using this

theorem syncPostItem_localIds_mono (H : Hooks) (userId : Nat) (s : Db × Results PostAck)
    (x : PostData × Env) (l : Option String) (h : l ∈ s.1.posts.map Post.localId) :
    l ∈ (syncPostItem H userId s x).1.posts.map Post.localId := by
  obtain ⟨d, e⟩ := x
  cases hfind : s.1.findPost d.localId with
  | none =>
    cases hf : e.fault <;> simp [syncPostItem, hf, hfind] <;> first
      | exact (by simpa using h)
      | exact Or.inl (by simpa using h)
  | some post =>
    have hkeep : (saveExisting (fun p => p.localId == d.localId)
        (Post.updated H e.now post d) s.1.posts).map Post.localId =
        s.1.posts.map Post.localId :=
      map_saveExisting _ Post.localId _ post _ hfind (Post.updated_localId H e.now post d)
    cases hv : versionNewer post.version d.version <;> cases hf : e.fault <;>
      simp only [syncPostItem, hf, hfind, hv] <;> first
      | exact h
      | (simp only [Bool.false_eq_true, if_false]; first | exact h | (rw [hkeep]; exact h))

theorem syncPostItem_localId_stored (H : Hooks) (userId : Nat) (s : Db × Results PostAck)
    (d : PostData) (e : Env) (hf : e.fault = Fault.none) :
    d.localId ∈ (syncPostItem H userId s (d, e)).1.posts.map Post.localId := by
  cases hfind : s.1.findPost d.localId with
  | none =>
    rw [syncPostItem_create H userId s d e hfind hf]
    simp [Post.fresh_localId]
  | some post =>
    apply syncPostItem_localIds_mono
    have hmem := List.mem_of_find?_eq_some hfind
    have hl := findPost_localId s.1 d.localId post hfind
    exact List.mem_map.mpr ⟨post, hmem, hl⟩

theorem syncPostsFrom_localIds_mono (H : Hooks) (userId : Nat)
    (items : List (PostData × Env)) (s : Db × Results PostAck) (l : Option String)
    (h : l ∈ s.1.posts.map Post.localId) :
    l ∈ (syncPostsFrom H userId s items).1.posts.map Post.localId := by
  induction items generalizing s with
  | nil => exact h
  | cons x rest ih =>
    rw [syncPostsFrom_cons]
    exact ih _ (syncPostItem_localIds_mono H userId s x l h)

theorem syncPostsFrom_localIds_stored (H : Hooks) (userId : Nat)
    (items : List (PostData × Env)) (s : Db × Results PostAck)
    (hcalm : ∀ x ∈ items, x.2.fault = Fault.none) :
    ∀ x ∈ items, x.1.localId ∈ (syncPostsFrom H userId s items).1.posts.map Post.localId := by
  induction items generalizing s with
  | nil => intro x hx; simp at hx
  | cons y rest ih =>
    intro x hx
    rw [syncPostsFrom_cons]
    rcases List.mem_cons.mp hx with hxy | hxr
    · subst hxy
      apply syncPostsFrom_localIds_mono
      exact syncPostItem_localId_stored H userId s x.1 x.2 (hcalm x (List.mem_cons_self _ _))
    · exact ih _ (fun z hz => hcalm z (List.mem_cons_of_mem _ hz)) x hxr

theorem syncPostItem_existing_calm (H : Hooks) (userId : Nat) (s : Db × Results PostAck)
    (d : PostData) (e : Env) (hf : e.fault = Fault.none)
    (hmem : d.localId ∈ s.1.posts.map Post.localId) :
    (syncPostItem H userId s (d, e)).1.posts.map Post.localId = s.1.posts.map Post.localId ∧
    (syncPostItem H userId s (d, e)).1.posts.map Post.id = s.1.posts.map Post.id ∧
    (syncPostItem H userId s (d, e)).2.created = s.2.created ∧
    (syncPostItem H userId s (d, e)).2.errors = s.2.errors := by
  obtain ⟨post, hfind⟩ := findPost_of_mem s.1 d.localId hmem
  have hkeep : (saveExisting (fun p => p.localId == d.localId)
      (Post.updated H e.now post d) s.1.posts).map Post.localId =
      s.1.posts.map Post.localId :=
    map_saveExisting _ Post.localId _ post _ hfind (Post.updated_localId H e.now post d)
  have hkeepId : (saveExisting (fun p => p.localId == d.localId)
      (Post.updated H e.now post d) s.1.posts).map Post.id =
      s.1.posts.map Post.id :=
    map_saveExisting _ Post.id _ post _ hfind (Post.updated_id H e.now post d)
  cases hv : versionNewer post.version d.version with
  | true => simp [syncPostItem, hf, hfind, hv]
  | false =>
    rw [syncPostItem_update H userId s d e post hfind hv (by simp [hf]) (by simp [hf])]
    exact ⟨hkeep, hkeepId, rfl, rfl⟩

theorem syncPostsFrom_existing_calm (H : Hooks) (userId : Nat)
    (items : List (PostData × Env)) (s : Db × Results PostAck)
    (hcalm : ∀ x ∈ items, x.2.fault = Fault.none)
    (hmem : ∀ x ∈ items, x.1.localId ∈ s.1.posts.map Post.localId) :
    (syncPostsFrom H userId s items).1.posts.map Post.localId = s.1.posts.map Post.localId ∧
    (syncPostsFrom H userId s items).1.posts.map Post.id = s.1.posts.map Post.id ∧
    (syncPostsFrom H userId s items).2.created = s.2.created ∧
    (syncPostsFrom H userId s items).2.errors = s.2.errors := by
  induction items generalizing s with
  | nil => exact ⟨rfl, rfl, rfl, rfl⟩
  | cons y rest ih =>
    rw [syncPostsFrom_cons]
    have hy := syncPostItem_existing_calm H userId s y.1 y.2
      (hcalm y (List.mem_cons_self _ _)) (hmem y (List.mem_cons_self _ _))
    have hrest := ih (syncPostItem H userId s y)
      (fun z hz => hcalm z (List.mem_cons_of_mem _ hz))
      (fun z hz => by
        rw [show syncPostItem H userId s y = syncPostItem H userId s (y.1, y.2) from rfl,
          hy.1]
        exact hmem z (List.mem_cons_of_mem _ hz))
    rw [show syncPostItem H userId s y = syncPostItem H userId s (y.1, y.2) from rfl] at hrest ⊢
    exact ⟨hrest.1.trans hy.1, hrest.2.1.trans hy.2.1, hrest.2.2.1.trans hy.2.2.1,
      hrest.2.2.2.trans hy.2.2.2⟩

/-- C8 refuted as stated: pushing `L1` at client version 1 twice to a store without posts
classifies the replay as `updated` but leaves version 2 where one push left version 1; and
the same batch at client version 0 is answered with a conflict on replay, not `updated`. -/
theorem posts_replay_changes_state :
    (syncPostsFrom plainHooks 7
        ((syncPostsFrom plainHooks 7 (coldDb, Results.empty) [(updateL1 1, calm 10 100)]).1,
          Results.empty) [(updateL1 1, calm 20 101)]).2.updated.map PostAck.localId =
      [some "L1"] ∧
    (syncPostsFrom plainHooks 7 (coldDb, Results.empty)
        [(updateL1 1, calm 10 100)]).1.posts.map Post.version = [1] ∧
    (syncPostsFrom plainHooks 7
        ((syncPostsFrom plainHooks 7 (coldDb, Results.empty) [(updateL1 1, calm 10 100)]).1,
          Results.empty) [(updateL1 1, calm 20 101)]).1.posts.map Post.version = [2] ∧
    (syncPostsFrom plainHooks 7
        ((syncPostsFrom plainHooks 7 (coldDb, Results.empty) [(updateL1 1, calm 10 100)]).1,
          Results.empty) [(updateL1 1, calm 20 101)]).1 ≠
      (syncPostsFrom plainHooks 7 (coldDb, Results.empty) [(updateL1 1, calm 10 100)]).1 ∧
    (syncPostsFrom plainHooks 7
        ((syncPostsFrom plainHooks 7 (coldDb, Results.empty) [(updateL1 0, calm 10 100)]).1,
          Results.empty) [(updateL1 0, calm 20 101)]).2 =
      { created := [], updated := [],
        conflicts := [{ localId := some "L1"
                        message := "Version conflict - server has newer version"
                        serverVersion := 1
                        clientVersion := some 0 }],
        errors := [] } := by
  decide

/-- C8 as amended: when a batch of post items is pushed twice in succession without any
rejected call, the second push creates nothing and reports no error (every item is
classified `updated` or `conflict`), and the stored posts have the same `localId`s and
`serverId`s, in the same order and number, after the second push as after the first. -/
theorem posts_replay_no_duplicates (H : Hooks) (userId : Nat) (db : Db)
    (first second : List (PostData × Env))
    (hsame : second.map Prod.fst = first.map Prod.fst)
    (hcalm1 : ∀ x ∈ first, x.2.fault = Fault.none)
    (hcalm2 : ∀ x ∈ second, x.2.fault = Fault.none) :
    (syncPostsFrom H userId
        ((syncPostsFrom H userId (db, Results.empty) first).1, Results.empty) second).2.created
      = [] ∧
    (syncPostsFrom H userId
        ((syncPostsFrom H userId (db, Results.empty) first).1, Results.empty) second).2.errors
      = [] ∧
    (syncPostsFrom H userId
        ((syncPostsFrom H userId (db, Results.empty) first).1, Results.empty) second).2.updated.length +
      (syncPostsFrom H userId
        ((syncPostsFrom H userId (db, Results.empty) first).1, Results.empty) second).2.conflicts.length
      = second.length ∧
    (syncPostsFrom H userId
        ((syncPostsFrom H userId (db, Results.empty) first).1, Results.empty) second).1.posts.map
        Post.localId =
      (syncPostsFrom H userId (db, Results.empty) first).1.posts.map Post.localId ∧
    (syncPostsFrom H userId
        ((syncPostsFrom H userId (db, Results.empty) first).1, Results.empty) second).1.posts.map
        Post.id =
      (syncPostsFrom H userId (db, Results.empty) first).1.posts.map Post.id ∧
    (∀ l, ((syncPostsFrom H userId
        ((syncPostsFrom H userId (db, Results.empty) first).1, Results.empty) second).1.posts.map
        Post.localId).count l =
      ((syncPostsFrom H userId (db, Results.empty) first).1.posts.map Post.localId).count l) := by
  have hstored := syncPostsFrom_localIds_stored H userId first (db, Results.empty) hcalm1
  have hmem : ∀ x ∈ second, x.1.localId ∈
      ((syncPostsFrom H userId (db, Results.empty) first).1, (Results.empty : Results PostAck)).1.posts.map
        Post.localId := by
    intro x hx
    have hx1 : x.1 ∈ first.map Prod.fst := by
      rw [← hsame]
      exact List.mem_map.mpr ⟨x, hx, rfl⟩
    obtain ⟨y, hy, hyx⟩ := List.mem_map.mp hx1
    rw [← hyx]
    exact hstored y hy
  have h := syncPostsFrom_existing_calm H userId second
    ((syncPostsFrom H userId (db, Results.empty) first).1, Results.empty) hcalm2 hmem
  have hc : Classified PostAck.localId (second.map (fun x => x.1.localId))
      (syncPostsFrom H userId
        ((syncPostsFrom H userId (db, Results.empty) first).1, Results.empty) second).2 :=
    classified_of_fold PostAck.localId (fun x : PostData × Env => x.1.localId)
      (syncPostItem H userId) (syncPostItem_outcome H userId) second _
  have ht := Classified.total _ _ _ hc
  rw [List.length_map, h.2.2.1, h.2.2.2] at ht
  refine ⟨h.2.2.1, h.2.2.2, ?_, h.1, h.2.1, fun l => by rw [h.1]⟩
  simpa [Results.empty] using ht

/-- Witness of C8 as amended: the create of `L1` pushed twice is answered `updated` the
second time and the store still holds one post `L1`. -/
theorem posts_replay_no_duplicates_witness :
    [(createL1, calm 20 101)].map Prod.fst = [(createL1, calm 10 100)].map Prod.fst ∧
    (syncPostsFrom plainHooks 7
        ((syncPostsFrom plainHooks 7 (coldDb, Results.empty) [(createL1, calm 10 100)]).1,
          Results.empty) [(createL1, calm 20 101)]).2.created = [] ∧
    (syncPostsFrom plainHooks 7
        ((syncPostsFrom plainHooks 7 (coldDb, Results.empty) [(createL1, calm 10 100)]).1,
          Results.empty) [(createL1, calm 20 101)]).1.posts.map Post.localId =
      [some "L1"] := by
  have h := posts_replay_no_duplicates plainHooks 7 coldDb [(createL1, calm 10 100)]
    [(createL1, calm 20 101)] (by decide) (by decide) (by decide)
  exact ⟨by decide, h.1, by decide⟩

/-! ## What a conflict entry holds -/

theorem syncPostItem_conflicts (H : Hooks) (userId : Nat) (s : Db × Results PostAck)
    (d : PostData) (e : Env) :
    (syncPostItem H userId s (d, e)).2.conflicts = s.2.conflicts ∨
    ∃ post C, s.1.findPost d.localId = some post ∧ d.version = some C ∧ C < post.version ∧
      (syncPostItem H userId s (d, e)).2.conflicts = s.2.conflicts ++
        [{ localId := d.localId
           message := "Version conflict - server has newer version"
           serverVersion := post.version
           clientVersion := d.version }] := by
  cases hfind : s.1.findPost d.localId with
  | none =>
    left
    cases hf : e.fault <;> simp [syncPostItem, hf, hfind, pushError]
  | some post =>
    cases hv : versionNewer post.version d.version with
    | false => exact Or.inl (syncPostItem_accept_conflicts H userId s d e post hfind hv)
    | true =>
      cases hC : d.version with
      | none => simp [versionNewer, hC] at hv
      | some C =>
        have hlt : C < post.version := by simpa [versionNewer, hC] using hv
        by_cases hl : ∀ m, e.fault ≠ Fault.find m
        · right
          refine ⟨post, C, rfl, rfl, hlt, ?_⟩
          rw [syncPostItem_conflict H userId s d e post C hfind hC hlt hl]
        · left
          push_neg at hl
          obtain ⟨m, hm⟩ := hl
          rw [syncPostItem_find_fault H userId s d e m hm]
          rfl

/-- C9 refuted as stated: two stores whose post `L1` differs in `_id`, owner, content and
fields answer the same stale item with the same conflict entry, and two items that differ in
their payload receive the same entry from the same store; the entry therefore carries
neither the `serverId` nor either payload. -/
theorem posts_conflict_entry_omits_payloads :
    (syncPostItem plainHooks 7 (dbL1 2, Results.empty) (updateL1 1, calm 30 102)).2.conflicts =
      (syncPostItem plainHooks 7 (dbL1Other, Results.empty)
        (updateL1 1, calm 30 102)).2.conflicts ∧
    (dbL1 2).posts.map Post.id = [100] ∧ dbL1Other.posts.map Post.id = [200] ∧
    (dbL1 2).posts.map Post.content = ["hi"] ∧
    dbL1Other.posts.map Post.content = ["server text"] ∧
    (syncPostItem plainHooks 7 (dbL1 2, Results.empty) (updateL1 1, calm 30 102)).2.conflicts =
      (syncPostItem plainHooks 7 (dbL1 2, Results.empty)
        ({ updateL1 1 with content := some "other client text" }, calm 30 102)).2.conflicts ∧
    (syncPostItem plainHooks 7 (dbL1 2, Results.empty) (updateL1 1, calm 30 102)).2.conflicts =
      [{ localId := some "L1"
         message := "Version conflict - server has newer version"
         serverVersion := 2
         clientVersion := some 1 }] := by
  decide

/-- C9 as amended: every entry of `conflicts` in the answer to a posts batch consists of
the `localId` of one input item, the fixed message, `serverVersion` equal to the version of
the post found for that item when it was processed, and `clientVersion` equal to the
version the item carries, which is a number below `serverVersion`. -/
theorem posts_conflict_entry_shape (H : Hooks) (userId : Nat) (db : Db)
    (items : List (PostData × Env)) :
    ∀ c ∈ (syncPostsFrom H userId (db, Results.empty) items).2.conflicts,
      ∃ pre d e rest post C,
        items = pre ++ (d, e) :: rest ∧
        (syncPostsFrom H userId (db, Results.empty) pre).1.findPost d.localId = some post ∧
        d.version = some C ∧ C < post.version ∧
        c = { localId := d.localId
              message := "Version conflict - server has newer version"
              serverVersion := post.version
              clientVersion := some C } := by
  induction items using List.reverseRecOn with
  | nil => intro c hc; simp [syncPostsFrom, Results.empty] at hc
  | append_singleton init x ih =>
    obtain ⟨d, e⟩ := x
    intro c hc
    rw [syncPostsFrom_append, syncPostsFrom_cons] at hc
    have hnil : ∀ s : Db × Results PostAck, syncPostsFrom H userId s [] = s := fun _ => rfl
    rw [hnil] at hc
    rcases syncPostItem_conflicts H userId (syncPostsFrom H userId (db, Results.empty) init)
      d e with hsame | ⟨post, C, hfind, hC, hlt, hnew⟩
    · rw [hsame] at hc
      obtain ⟨pre, d1, e1, rest, post, C, hitems, hrest⟩ := ih c hc
      exact ⟨pre, d1, e1, rest ++ [(d, e)], post, C, by simp [hitems], hrest⟩
    · rw [hnew] at hc
      rcases List.mem_append.mp hc with hold | hlast
      · obtain ⟨pre, d1, e1, rest, post1, C1, hitems, hrest⟩ := ih c hold
        exact ⟨pre, d1, e1, rest ++ [(d, e)], post1, C1, by simp [hitems], hrest⟩
      · refine ⟨init, d, e, [], post, C, rfl, hfind, hC, hlt, ?_⟩
        rw [List.mem_singleton] at hlast
        rw [hlast, hC]

/-- Witness of C9 as amended: the conflict entry answered to the replayed `version: 1`
update of `L1` stems from that item and from the stored version 2. -/
theorem posts_conflict_entry_shape_witness :
    ({ localId := some "L1"
       message := "Version conflict - server has newer version"
       serverVersion := 2
       clientVersion := some 1 } : ConflictEntry) ∈
      (syncPostsFrom plainHooks 7 (dbL1 2, Results.empty)
        [(updateL1 1, calm 30 102)]).2.conflicts ∧
    ∃ pre d e rest post C,
      [(updateL1 1, calm 30 102)] = pre ++ (d, e) :: rest ∧
      (syncPostsFrom plainHooks 7 (dbL1 2, Results.empty) pre).1.findPost d.localId
        = some post ∧
      d.version = some C ∧ C < post.version ∧
      ({ localId := some "L1"
         message := "Version conflict - server has newer version"
         serverVersion := 2
         clientVersion := some 1 } : ConflictEntry) =
        { localId := d.localId
          message := "Version conflict - server has newer version"
          serverVersion := post.version
          clientVersion := some C } :=
  ⟨by decide,
   posts_conflict_entry_shape plainHooks 7 (dbL1 2) [(updateL1 1, calm 30 102)] _
     (by decide)⟩

/-! ## Groups and users -/

theorem syncGroupItem_conflicts (userId : Nat) (s : Db × Results GroupAck)
    (x : GroupData × Env) : (syncGroupItem userId s x).2.conflicts = s.2.conflicts := by
  obtain ⟨d, e⟩ := x
  cases hfind : s.1.findGroup d.localId <;> cases hf : e.fault <;>
    simp [syncGroupItem, hf, hfind, pushError]

theorem syncUserItem_conflicts (H : Hooks) (s : Db × Results UserAck)
    (x : UserData × Env) : (syncUserItem H s x).2.conflicts = s.2.conflicts := by
  obtain ⟨d, e⟩ := x
  cases hfind : s.1.findUser d.phone d.localId <;> cases hf : e.fault <;>
    simp [syncUserItem, hf, hfind, pushError]

theorem syncGroupsFrom_conflicts (userId : Nat) (items : List (GroupData × Env))
    (s : Db × Results GroupAck) :
    (syncGroupsFrom userId s items).2.conflicts = s.2.conflicts := by
  induction items generalizing s with
  | nil => rfl
  | cons x rest ih =>
    have h : syncGroupsFrom userId s (x :: rest) =
        syncGroupsFrom userId (syncGroupItem userId s x) rest := by simp [syncGroupsFrom]
    rw [h, ih, syncGroupItem_conflicts]

theorem syncUsersFrom_conflicts (H : Hooks) (items : List (UserData × Env))
    (s : Db × Results UserAck) :
    (syncUsersFrom H s items).2.conflicts = s.2.conflicts := by
  induction items generalizing s with
  | nil => rfl
  | cons x rest ih =>
    have h : syncUsersFrom H s (x :: rest) =
        syncUsersFrom H (syncUserItem H s x) rest := by simp [syncUsersFrom]
    rw [h, ih, syncUserItem_conflicts]

/-- C10 refuted as stated: the stored group `G1` and the stored user `ann` each receive an
item with client version 0, below the version 1 every entity starts with; both items are
classified `updated`, no conflict is reported, and both stored entities are rewritten. -/
theorem groups_users_accept_stale_version :
    (syncGroups 7 dbG1 (some [(staleG1, calm 20 301)])).2 =
      Response.ok "Sync completed"
        { created := [], updated := [{ localId := some "G1", serverId := 300 }],
          conflicts := [], errors := [] }
        { total := 1, successful := 1, conflicts := 0, errors := 0 } ∧
    (syncGroups 7 dbG1 (some [(staleG1, calm 20 301)])).1.groups =
      [{ storedG1 with fields := [("name", Val.str "Renamed")], updatedAt := 20 }] ∧
    (syncGroups 7 dbG1 (some [(staleG1, calm 20 301)])).1.groups ≠ dbG1.groups ∧
    (syncUsers plainHooks dbG1 (some [(staleAnn, calm 20 301)])).2 =
      Response.ok "Sync completed"
        { created := [],
          updated := [{ localId := none, serverId := 7, phone := some "555" }],
          conflicts := [], errors := [] }
        { total := 1, successful := 1, conflicts := 0, errors := 0 } ∧
    (syncUsers plainHooks dbG1 (some [(staleAnn, calm 20 301)])).1.users =
      [{ ann with displayName := some "Bob", updatedAt := 20 }] ∧
    (syncUsers plainHooks dbG1 (some [(staleAnn, calm 20 301)])).1.users ≠ dbG1.users := by
  decide

/-- C10 as amended: the groups and users reconcilers compare no version. Neither ever
reports a conflict, the `version` an item carries changes nothing in the outcome or in the
store, and an item that matches a stored group (by `localId`) or user (by `phone` or
`localId`) is, when no call rejects, appended to `updated` while the stored entity is
replaced by its saved state with `syncStatus` `synced`. -/
theorem groups_users_never_conflict (H : Hooks) (userId : Nat) :
    (∀ db items, (syncGroupsFrom userId (db, Results.empty) items).2.conflicts = []) ∧
    (∀ db items, (syncUsersFrom H (db, Results.empty) items).2.conflicts = []) ∧
    (∀ s d e v, syncGroupItem userId s ({ d with version := v }, e) =
      syncGroupItem userId s (d, e)) ∧
    (∀ s d e v, syncUserItem H s ({ d with version := v }, e) = syncUserItem H s (d, e)) ∧
    (∀ (s : Db × Results GroupAck) d e g,
      s.1.findGroup d.localId = some g → e.fault = Fault.none →
        syncGroupItem userId s (d, e) =
          ({ s.1 with
              groups := saveExisting (fun g => g.localId == d.localId)
                (Group.updated e g d) s.1.groups },
           { s.2 with updated := s.2.updated ++
              [{ localId := d.localId, serverId := (Group.updated e g d).id }] }) ∧
        (Group.updated e g d).syncStatus = "synced" ∧ (Group.updated e g d).id = g.id) ∧
    (∀ (s : Db × Results UserAck) d e u,
      s.1.findUser d.phone d.localId = some u → e.fault = Fault.none →
        syncUserItem H s (d, e) =
          ({ s.1 with
              users := saveExisting (fun u => u.phone == d.phone || u.localId == d.localId)
                (User.updated H e.now u d) s.1.users },
           { s.2 with updated := s.2.updated ++
              [{ localId := d.localId, serverId := (User.updated H e.now u d).id,
                 phone := (User.updated H e.now u d).phone }] }) ∧
        (User.updated H e.now u d).syncStatus = "synced" ∧
        (User.updated H e.now u d).id = u.id) := by
  refine ⟨fun db items => ?_, fun db items => ?_, fun s d e v => ?_, fun s d e v => ?_,
    fun s d e g hfind hf => ?_, fun s d e u hfind hf => ?_⟩
  · rw [syncGroupsFrom_conflicts]; rfl
  · rw [syncUsersFrom_conflicts]; rfl
  · rfl
  · rfl
  · refine ⟨by simp [syncGroupItem, hf, hfind], ?_, ?_⟩
    · simp [Group.updated, Group.preSave]
    · simp [Group.updated, Group.preSave, Group.assign]
  · refine ⟨by simp [syncUserItem, hf, hfind], ?_, ?_⟩
    · unfold User.updated User.preSave
      simp only [Bool.false_eq_true, if_false]
      split <;> rfl
    · unfold User.updated User.preSave
      simp only [Bool.false_eq_true, if_false]
      split <;> rfl

/-! ## Resolve, bulk and delete -/

theorem Post.resolved_syncStatus (H : Hooks) (now : Nat) (r : String) (post : Post)
    (data : PostData) (hr : r = "client" ∨ r = "server" ∨ r = "merge") :
    (Post.resolved H now r post data).syncStatus = "synced" := by
  rw [Post.resolved, Post.preSave_syncStatus]
  rcases hr with h | h | h <;> subst h <;> simp [Post.resolve]

theorem resolveConflict_post (H : Hooks) (e : Env) (db : Db) (req : ResolveRequest)
    (r : String) (post : Post)
    (htype : req.entityType = some "post") (hres : req.resolution = some r) (hr : r ≠ "")
    (hfind : findById Post.id db.posts req.serverId = some post)
    (hf : e.fault = Fault.none) :
    resolveConflict H e db req =
      ({ db with
          posts := saveExisting (fun x => some x.id == req.serverId)
            (Post.resolved H e.now r post req.postData) db.posts },
       ResolveResponse.post (Post.resolved H e.now r post req.postData)) := by
  simp [resolveConflict, htype, hres, hr, hfind, hf, falsy]

theorem resolveConflict_group (H : Hooks) (e : Env) (db : Db) (req : ResolveRequest)
    (r : String) (group : Group)
    (htype : req.entityType = some "group") (hres : req.resolution = some r) (hr : r ≠ "")
    (hfind : findById Group.id db.groups req.serverId = some group)
    (hf : e.fault = Fault.none) :
    resolveConflict H e db req =
      ({ db with
          groups := saveExisting (fun x => some x.id == req.serverId)
            (Group.resolved e r group req.groupData) db.groups },
       ResolveResponse.group (Group.resolved e r group req.groupData)) := by
  simp [resolveConflict, htype, hres, hr, hfind, hf, falsy]

theorem processBulkEntities_single_update {α δ : Type} (M : BulkModel α δ) (coll : List α)
    (d : δ) (e : Env) (existing : α)
    (hfind : coll.find? (fun doc => M.localId doc == M.entityLocalId d) = some existing)
    (hf : e.fault = Fault.none) :
    processBulkEntities M coll [(d, e)] (fun _ => none) =
      (setById M (M.id existing) e d coll, { updated := 1 }) := by
  simp [processBulkEntities, slices, withFailures, bulkChunk, bulkPlan, bulkWrite, hfind, hf,
    BulkOp.apply]

/-! ## Claims on deleted posts and localId uniqueness -/

/-- C11 refuted as stated: after the owner deleted the post `L1` (`syncStatus` `deleted`,
hidden), a batch item, a bulk entity and a resolve request for it are all accepted; each
rewrites the post and sets its `syncStatus` back to `synced`. -/
theorem deleted_post_is_revived :
    deletedDb.posts.map Post.syncStatus = ["deleted"] ∧
    (syncPosts plainHooks 7 deletedDb (some [(updateL1 1, calm 20 101)])).2 =
      Response.ok "Sync completed"
        { created := [], updated := [{ localId := some "L1", serverId := 100, version := 2 }],
          conflicts := [], errors := [] }
        { total := 1, successful := 1, conflicts := 0, errors := 0 } ∧
    (syncPosts plainHooks 7 deletedDb (some [(updateL1 1, calm 20 101)])).1.posts.map
        (fun p => (p.syncStatus, p.content)) = [("synced", "hi there")] ∧
    (processBulkEntities (postBulk plainHooks 7) deletedDb.posts
        [({ localId := some "L1", content := some "bulk" }, calm 30 102)] (fun _ => none)).2 =
      { created := 0, updated := 1, skipped := 0, errors := 0 } ∧
    (processBulkEntities (postBulk plainHooks 7) deletedDb.posts
        [({ localId := some "L1", content := some "bulk" }, calm 30 102)]
        (fun _ => none)).1.map (fun p => (p.syncStatus, p.content)) = [("synced", "bulk")] ∧
    (resolveConflict plainHooks (calm 40 0) deletedDb
        (resolveL1 "client" { content := some "mine" })).1.posts.map
        (fun p => (p.syncStatus, p.content)) = [("synced", "mine")] ∧
    (resolveConflict plainHooks (calm 40 0) deletedDb
        (resolveL1 "server" {})).1.posts.map Post.syncStatus = ["synced"] := by
  decide

/-- C11 as amended: a stored post whose `syncStatus` is `deleted` is handled like any
other stored post. A batch item for it is accepted as `updated` unless its client version
is below the stored one (then the store is left alone), a bulk entity for it is applied,
and a resolve request with resolution `client`, `server` or `merge` settles it; every
accepted push stores the post with `syncStatus` `synced`. -/
theorem deleted_post_accepts_pushes (H : Hooks) (post : Post)
    (hdel : post.syncStatus = "deleted") :
    (∀ userId (s : Db × Results PostAck) d e,
      s.1.findPost d.localId = some post → versionNewer post.version d.version = false →
      e.fault = Fault.none →
        syncPostItem H userId s (d, e) =
          ({ s.1 with
              posts := saveExisting (fun p => p.localId == d.localId)
                (Post.updated H e.now post d) s.1.posts },
           { s.2 with updated := s.2.updated ++
              [{ localId := d.localId, serverId := (Post.updated H e.now post d).id,
                 version := (Post.updated H e.now post d).version }] }) ∧
        (Post.updated H e.now post d).syncStatus = "synced") ∧
    (∀ userId (s : Db × Results PostAck) d e,
      s.1.findPost d.localId = some post → versionNewer post.version d.version = true →
        (syncPostItem H userId s (d, e)).1 = s.1) ∧
    (∀ userId (coll : List Post) d e,
      coll.find? (fun doc => doc.localId == d.localId) = some post → e.fault = Fault.none →
        processBulkEntities (postBulk H userId) coll [(d, e)] (fun _ => none) =
          (setById (postBulk H userId) post.id e d coll, { updated := 1 }) ∧
        (Post.bulkSet H e post d).syncStatus = "synced") ∧
    (∀ e db (req : ResolveRequest) r,
      req.entityType = some "post" → req.resolution = some r →
      r = "client" ∨ r = "server" ∨ r = "merge" →
      findById Post.id db.posts req.serverId = some post → e.fault = Fault.none →
        resolveConflict H e db req =
          ({ db with
              posts := saveExisting (fun x => some x.id == req.serverId)
                (Post.resolved H e.now r post req.postData) db.posts },
           ResolveResponse.post (Post.resolved H e.now r post req.postData)) ∧
        (Post.resolved H e.now r post req.postData).syncStatus = "synced") := by
  have _ := hdel
  refine ⟨fun userId s d e hfind hv hf => ?_, fun userId s d e hfind hv => ?_,
    fun userId coll d e hfind hf => ?_, fun e db req r htype hres hr hfind hf => ?_⟩
  · exact ⟨syncPostItem_update H userId s d e post hfind hv (by simp [hf]) (by simp [hf]),
      Post.updated_syncStatus H e.now post d⟩
  · cases hC : d.version with
    | none => simp [versionNewer, hC] at hv
    | some C =>
      have hlt : C < post.version := by simpa [versionNewer, hC] using hv
      by_cases hl : ∀ m, e.fault ≠ Fault.find m
      · rw [syncPostItem_conflict H userId s d e post C hfind hC hlt hl]
      · push_neg at hl
        obtain ⟨m, hm⟩ := hl
        rw [syncPostItem_find_fault H userId s d e m hm]
  · exact ⟨processBulkEntities_single_update (postBulk H userId) coll d e post hfind hf, rfl⟩
  · have hne : r ≠ "" := by
      rcases hr with h | h | h <;> subst h <;> decide
    exact ⟨resolveConflict_post H e db req r post htype hres hne hfind hf,
      Post.resolved_syncStatus H e.now r post req.postData hr⟩

/-- Witness of C11 as amended: the deleted post `L1` takes the `version: 1` update of the
scenario and is stored as `synced`. -/
theorem deleted_post_accepts_pushes_witness :
    deletedL1.syncStatus = "deleted" ∧
    (deletedDb, (Results.empty : Results PostAck)).1.findPost (updateL1 1).localId =
      some deletedL1 ∧
    (Post.updated plainHooks 20 deletedL1 (updateL1 1)).syncStatus = "synced" ∧
    (syncPostItem plainHooks 7 (deletedDb, Results.empty) (updateL1 1, calm 20 101)).2.updated =
      [{ localId := some "L1", serverId := 100, version := 2 }] := by
  have h := (deleted_post_accepts_pushes plainHooks deletedL1 (by decide)).1 7
    (deletedDb, Results.empty) (updateL1 1) (calm 20 101) (by decide) (by decide) (by decide)
  refine ⟨by decide, by decide, h.2, ?_⟩
  rw [h.1]
  decide

theorem not_mem_localIds_of_findPost_none (db : Db) (l : Option String)
    (h : db.findPost l = none) : l ∉ db.posts.map Post.localId := by
  intro hmem
  obtain ⟨post, hpost⟩ := findPost_of_mem db l hmem
  rw [h] at hpost
  cases hpost

theorem syncPostItem_localIds_nodup (H : Hooks) (userId : Nat) (s : Db × Results PostAck)
    (x : PostData × Env) (h : (s.1.posts.map Post.localId).Nodup) :
    ((syncPostItem H userId s x).1.posts.map Post.localId).Nodup := by
  obtain ⟨d, e⟩ := x
  cases hfind : s.1.findPost d.localId with
  | none =>
    have hnot := not_mem_localIds_of_findPost_none s.1 d.localId hfind
    have hnew : (s.1.posts.map Post.localId ++ [d.localId]).Nodup := by
      rw [List.nodup_append]
      refine ⟨h, List.nodup_singleton _, ?_⟩
      intro a ha hb
      rw [List.mem_singleton] at hb
      subst hb
      exact hnot ha
    cases hf : e.fault with
    | none =>
      rw [syncPostItem_create H userId s d e hfind hf]
      simpa [Post.fresh_localId] using hnew
    | find m => rw [syncPostItem_find_fault H userId s d e m hf]; exact h
    | save m => rw [syncPostItem_create_fail H userId s d e m hfind hf]; exact h
    | count m =>
      rw [syncPostItem_create_count_fail H userId s d e m hfind hf]
      simpa [Post.fresh_localId] using hnew
  | some post =>
    have hkeep : (saveExisting (fun p => p.localId == d.localId)
        (Post.updated H e.now post d) s.1.posts).map Post.localId =
        s.1.posts.map Post.localId :=
      map_saveExisting _ Post.localId _ post _ hfind (Post.updated_localId H e.now post d)
    cases hv : versionNewer post.version d.version with
    | true =>
      have h1 : (syncPostItem H userId s (d, e)).1 = s.1 := by
        cases hf : e.fault <;> simp [syncPostItem, hf, hfind, hv]
      rw [h1]; exact h
    | false =>
      by_cases hok : (∀ m, e.fault ≠ Fault.find m) ∧ (∀ m, e.fault ≠ Fault.save m)
      · rw [syncPostItem_update H userId s d e post hfind hv hok.1 hok.2]
        show ((saveExisting _ _ s.1.posts).map Post.localId).Nodup
        rw [hkeep]; exact h
      · have h1 : (syncPostItem H userId s (d, e)).1 = s.1 := by
          cases hf : e.fault with
          | none => exact absurd ⟨by simp [hf], by simp [hf]⟩ hok
          | count m => exact absurd ⟨by simp [hf], by simp [hf]⟩ hok
          | find m => rw [syncPostItem_find_fault H userId s d e m hf]
          | save m => rw [syncPostItem_update_fail H userId s d e post m hfind hv hf]
        rw [h1]; exact h

/-- The sequential posts reconciler keeps `localId`s unique, also within one batch. -/
theorem syncPostsFrom_localIds_nodup (H : Hooks) (userId : Nat)
    (items : List (PostData × Env)) (s : Db × Results PostAck)
    (h : (s.1.posts.map Post.localId).Nodup) :
    ((syncPostsFrom H userId s items).1.posts.map Post.localId).Nodup := by
  induction items generalizing s with
  | nil => exact h
  | cons x rest ih =>
    rw [syncPostsFrom_cons]
    exact ih _ (syncPostItem_localIds_nodup H userId s x h)

/-- C12 at the failing input: one bulk request carries two new entities with the same
`localId` `L1`. Both lookups run before the chunk is written, both entities are planned as
inserts, and the store ends with two posts sharing `L1`; the sequential reconciler stores
one post for the same two items. -/
theorem bulk_inserts_duplicate_localId :
    (processBulkEntities (postBulk plainHooks 7) coldDb.posts
        [({ localId := some "L1", content := some "a" }, calm 30 102),
         ({ localId := some "L1", content := some "b" }, calm 31 103)]
        (fun _ => none)).1.map (fun p => (p.id, p.localId)) =
      [(102, some "L1"), (103, some "L1")] ∧
    (processBulkEntities (postBulk plainHooks 7) coldDb.posts
        [({ localId := some "L1", content := some "a" }, calm 30 102),
         ({ localId := some "L1", content := some "b" }, calm 31 103)]
        (fun _ => none)).2 = { created := 2, updated := 0, skipped := 0, errors := 0 } ∧
    (coldDb.posts.map Post.localId).Nodup ∧
    (syncPosts plainHooks 7 coldDb
        (some [({ localId := some "L1", content := some "a" }, calm 30 102),
               ({ localId := some "L1", content := some "b" }, calm 31 103)])).1.posts.map
        (fun p => (p.id, p.localId)) = [(102, some "L1")] := by
  decide

/-! ## Claims on versions and on the conflict resolver -/

theorem Post.resolved_version_server (H : Hooks) (now : Nat) (post : Post) (data : PostData) :
    (Post.resolved H now "server" post data).version = post.version := by
  rw [Post.resolved, Post.preSave_version]
  simp [Post.resolve]

theorem Post.resolved_version_merge (H : Hooks) (now : Nat) (post : Post) (data : PostData) :
    (Post.resolved H now "merge" post data).version = post.version + 1 := by
  rw [Post.resolved, Post.preSave_version]
  simp [Post.resolve, Post.assignAll, Post.assign]

theorem Post.resolved_version_client (H : Hooks) (now : Nat) (post : Post) (data : PostData) :
    (Post.resolved H now "client" post data).version = data.version.getD post.version + 1 := by
  rw [Post.resolved, Post.preSave_version]
  simp [Post.resolve, Post.assignAll, Post.assign]

/-- C13 refuted as stated: a bulk entity carrying `version: 1` for the post `L1` stored at
version 5 succeeds (`updated: 1`) and leaves the stored version at 1. -/
theorem bulk_lowers_version :
    (dbL1 5).posts.map Post.version = [5] ∧
    (processBulkEntities (postBulk plainHooks 7) (dbL1 5).posts
        [({ localId := some "L1", version := some 1 }, calm 30 102)] (fun _ => none)).2 =
      { created := 0, updated := 1, skipped := 0, errors := 0 } ∧
    (processBulkEntities (postBulk plainHooks 7) (dbL1 5).posts
        [({ localId := some "L1", version := some 1 }, calm 30 102)]
        (fun _ => none)).1.map Post.version = [1] := by
  decide

/-- C13 as amended: an update accepted by the posts batch route stores a version strictly
above the stored one; resolve with resolution `server` keeps the stored version and with
`merge` stores it plus 1, whatever `data` carries; a bulk update stores the version the
entity carries and keeps the stored one only when the entity carries none. -/
theorem version_steps (H : Hooks) (post : Post) (d : PostData)
    (hacc : versionNewer post.version d.version = false) :
    (∀ now, post.version < (Post.updated H now post d).version) ∧
    (∀ userId (s : Db × Results PostAck) e,
      s.1.findPost d.localId = some post → e.fault = Fault.none →
        (syncPostItem H userId s (d, e)).1.posts =
          saveExisting (fun p => p.localId == d.localId) (Post.updated H e.now post d)
            s.1.posts) ∧
    (∀ now data, (Post.resolved H now "server" post data).version = post.version) ∧
    (∀ now data, (Post.resolved H now "merge" post data).version = post.version + 1) ∧
    (∀ e data, (Post.bulkSet H e post data).version = data.version.getD post.version) := by
  refine ⟨fun now => ?_, fun userId s e hfind hf => ?_,
    fun now data => Post.resolved_version_server H now post data,
    fun now data => Post.resolved_version_merge H now post data, fun e data => rfl⟩
  · rw [Post.updated_version]
    cases hC : d.version with
    | none => simp
    | some C =>
      have : ¬ C < post.version := by simpa [versionNewer, hC] using hacc
      simp only [Option.getD_some]
      omega
  · rw [syncPostItem_update H userId s d e post hfind hacc (by simp [hf]) (by simp [hf])]

/-- Witness of C13 as amended: the `version: 1` update of the scenario raises the stored
version 1 to 2. -/
theorem version_steps_witness :
    versionNewer (storedL1 1).version (updateL1 1).version = false ∧
    (storedL1 1).version < (Post.updated plainHooks 20 (storedL1 1) (updateL1 1)).version ∧
    (Post.updated plainHooks 20 (storedL1 1) (updateL1 1)).version = 2 :=
  ⟨by decide, (version_steps plainHooks (storedL1 1) (updateL1 1) (by decide)).1 20,
    by decide⟩

/-- C17 at the failing input: the post `L1` is stored at version 5 and the conflict is
resolved with resolution `client` and data carrying `version: 1`; the client's content is
applied, `syncStatus` becomes `synced`, and the stored version is 2, not 6. -/
theorem resolve_client_adopts_client_version :
    (dbL1 5).posts.map Post.version = [5] ∧
    (resolveConflict plainHooks (calm 40 0) (dbL1 5)
        (resolveL1 "client" { version := some 1, content := some "mine" })).1.posts.map
        (fun p => (p.version, p.syncStatus, p.content)) = [(2, "synced", "mine")] ∧
    (resolveConflict plainHooks (calm 40 0) (dbL1 5)
        (resolveL1 "merge" { version := some 1, content := some "mine" })).1.posts.map
        (fun p => (p.version, p.syncStatus, p.content)) = [(6, "synced", "mine")] := by
  decide

theorem Post.resolved_server (H : Hooks) (now : Nat) (post : Post) (data : PostData) :
    Post.resolved H now "server" post data =
      { post with syncStatus := "synced", updatedAt := now } := by
  simp [Post.resolved, Post.resolve, Post.preSave]

theorem Group.resolved_not_client (e : Env) (r : String) (group : Group) (data : GroupData)
    (hr : r ≠ "client") :
    Group.resolved e r group data =
      { group with
        syncStatus := "synced"
        memberCount := (group.members.length : Int)
        updatedAt := e.now } := by
  simp [Group.resolved, Group.preSave, hr]

/-- C18 refuted as stated: a group stored with one member and `memberCount: 5` is resolved
with resolution `server`; the `save()` recomputes `memberCount` from the member list and
the stored count becomes 1. -/
theorem resolve_server_rewrites_member_count :
    skewedDb.groups.map (fun g => (g.members, g.memberCount, g.updatedAt)) = [([7], 5, 5)] ∧
    (resolveConflict plainHooks (calm 40 0) skewedDb
        (resolveGroup 400 "server" {})).1.groups.map
        (fun g => (g.members, g.memberCount, g.updatedAt)) = [([7], 1, 40)] := by
  decide

/-- C18 as amended: resolve with resolution `server` ignores `data`. A post is stored as it
was except for `syncStatus`, which becomes `synced`, and `updatedAt`, which `save()` sets
to the current time; a group is stored as it was except for `syncStatus`, `updatedAt` and
`memberCount`, which `save()` sets to the length of the member list (so it is unchanged
when it already equals that length). -/
theorem resolve_server_keeps_data (H : Hooks) (e : Env) (db : Db) (req : ResolveRequest)
    (hres : req.resolution = some "server") (hf : e.fault = Fault.none) :
    (∀ post, req.entityType = some "post" →
      findById Post.id db.posts req.serverId = some post →
        resolveConflict H e db req =
          ({ db with
              posts := saveExisting (fun x => some x.id == req.serverId)
                { post with syncStatus := "synced", updatedAt := e.now } db.posts },
           ResolveResponse.post { post with syncStatus := "synced", updatedAt := e.now })) ∧
    (∀ group, req.entityType = some "group" →
      findById Group.id db.groups req.serverId = some group →
        resolveConflict H e db req =
          ({ db with
              groups := saveExisting (fun x => some x.id == req.serverId)
                { group with
                  syncStatus := "synced"
                  memberCount := (group.members.length : Int)
                  updatedAt := e.now } db.groups },
           ResolveResponse.group
             { group with
               syncStatus := "synced"
               memberCount := (group.members.length : Int)
               updatedAt := e.now }) ∧
        (group.memberCount = (group.members.length : Int) →
          ({ group with
             syncStatus := "synced"
             memberCount := (group.members.length : Int)
             updatedAt := e.now } : Group) =
            { group with syncStatus := "synced", updatedAt := e.now })) := by
  refine ⟨fun post htype hfind => ?_, fun group htype hfind => ⟨?_, fun hcount => ?_⟩⟩
  · rw [resolveConflict_post H e db req "server" post htype hres (by decide) hfind hf,
      Post.resolved_server]
  · rw [resolveConflict_group H e db req "server" group htype hres (by decide) hfind hf,
      Group.resolved_not_client e "server" group req.groupData (by decide)]
  · rw [← hcount]

/-- Witness of C18 as amended: resolving the stored post `L1` with resolution `server`
and data that carries another content leaves version and content as stored. -/
theorem resolve_server_keeps_data_witness :
    (resolveL1 "server" { version := some 9, content := some "mine" }).resolution =
      some "server" ∧
    (calm 40 0).fault = Fault.none ∧
    (resolveConflict plainHooks (calm 40 0) (dbL1 5)
        (resolveL1 "server" { version := some 9, content := some "mine" })).2 =
      ResolveResponse.post { storedL1 5 with syncStatus := "synced", updatedAt := 40 } := by
  have h := (resolve_server_keeps_data plainHooks (calm 40 0) (dbL1 5)
    (resolveL1 "server" { version := some 9, content := some "mine" }) (by decide)
    (by decide)).1 (storedL1 5) (by decide) (by decide)
  refine ⟨by decide, by decide, ?_⟩
  rw [h]
  rfl

/-- C19 refuted as stated: merging the tags `geometry` into a post tagged `algebra` stores
the client's list alone, not the union; merging members and a name into the group `G1`
changes neither its members nor its name, and a group has no version to increment. -/
theorem resolve_merge_is_no_union :
    dbTagged.posts.map Post.tags = [["algebra"]] ∧
    (resolveConflict plainHooks (calm 40 0) dbTagged
        (resolveL1 "merge" { tags := some ["geometry"] })).1.posts.map Post.tags =
      [["geometry"]] ∧
    dbG1.groups.map (fun g => (g.members, g.fields)) =
      [([7], [("name", Val.str "Algebra")])] ∧
    (resolveConflict plainHooks (calm 40 0) dbG1
        (resolveGroup 300 "merge"
          { members := some [8], fields := [("name", Val.str "Renamed")] })).1.groups.map
        (fun g => (g.members, g.fields)) = [([7], [("name", Val.str "Algebra")])] := by
  decide

/-- C19 as amended: for a post, resolution `merge` assigns every field of `data` to the
post, so the client's value replaces the server's for scalar and list-valued fields alike,
stores the stored version plus 1 whatever version `data` carries, and `syncStatus`
`synced`; for a group, resolution `merge` applies nothing of `data`: the group is stored as
with resolution `server`. -/
theorem resolve_merge_assigns (H : Hooks) (e : Env) (post : Post) (data : PostData)
    (group : Group) (groupData : GroupData) :
    Post.resolve H "merge" post data =
      { Post.assignAll H post data with version := post.version + 1, syncStatus := "synced" } ∧
    (Post.resolved H e.now "merge" post data).version = post.version + 1 ∧
    (Post.resolved H e.now "merge" post data).syncStatus = "synced" ∧
    (∀ k v, data.fields.get k = some v →
      (Post.resolved H e.now "merge" post data).fields.get k = some v) ∧
    (∀ ts, data.tags = some ts → data.content = none →
      (Post.resolved H e.now "merge" post data).tags = ts.map H.normTag) ∧
    (∀ c, data.content = some c →
      (Post.resolved H e.now "merge" post data).content = H.trim c) ∧
    Group.resolved e "merge" group groupData =
      { group with
        syncStatus := "synced"
        memberCount := (group.members.length : Int)
        updatedAt := e.now } ∧
    Group.resolved e "merge" group groupData = Group.resolved e "server" group groupData := by
  refine ⟨by simp [Post.resolve, Post.assignAll, Post.assign],
    Post.resolved_version_merge H e.now post data,
    Post.resolved_syncStatus H e.now "merge" post data (Or.inr (Or.inr rfl)), ?_, ?_, ?_,
    Group.resolved_not_client e "merge" group groupData (by decide), ?_⟩
  · intro k v hk
    rw [Post.resolved, Post.preSave_fields]
    simp [Post.resolve, Post.assignAll, Post.assign, Fields.get_assign, hk]
  · intro ts hts hc
    simp [Post.resolved, Post.resolve, Post.assignAll, Post.assign, Post.preSave, hts, hc]
  · intro c hc
    rw [Post.resolved, Post.preSave_content]
    simp [Post.resolve, Post.assignAll, Post.assign, hc]
  · rw [Group.resolved_not_client e "merge" group groupData (by decide),
      Group.resolved_not_client e "server" group groupData (by decide)]

/-! ## Claims on the change feed -/

theorem mongoLimit_sublist {α : Type} (n : Nat) (docs : List α) :
    (mongoLimit n docs).Sublist docs := by
  unfold mongoLimit
  split
  · exact List.Sublist.refl _
  · exact List.take_sublist _ _

theorem mongoLimit_length {α : Type} (n : Nat) (docs : List α) (h : 0 < n) :
    (mongoLimit n docs).length ≤ n := by
  unfold mongoLimit
  rw [if_neg (by omega)]
  simp

theorem mongoLimit_all {α : Type} (n : Nat) (docs : List α)
    (h : n = 0 ∨ docs.length ≤ n) : mongoLimit n docs = docs := by
  unfold mongoLimit
  split
  · rfl
  · rcases h with h | h
    · contradiction
    · exact List.take_of_length_le h

theorem insertByKey_perm {α : Type} (key : α → Nat) (x : α) (l : List α) :
    (insertByKey key x l).Perm (x :: l) := by
  induction l with
  | nil => exact List.Perm.refl _
  | cons y rest ih =>
    unfold insertByKey
    split
    · exact List.Perm.refl _
    · exact ((List.Perm.cons y ih).trans (List.Perm.swap x y rest))

theorem indexScan_perm {α : Type} (key : α → Nat) (l : List α) :
    (indexScan key l).Perm l := by
  induction l with
  | nil => exact List.Perm.refl _
  | cons x rest ih =>
    show (insertByKey key x (indexScan key rest)).Perm (x :: rest)
    exact (insertByKey_perm key x _).trans (List.Perm.cons x ih)

theorem insertByKey_sorted {α : Type} (key : α → Nat) (x : α) (l : List α)
    (h : l.Pairwise (fun a b => key a ≤ key b)) :
    (insertByKey key x l).Pairwise (fun a b => key a ≤ key b) := by
  induction l with
  | nil => exact List.pairwise_singleton _ _
  | cons y rest ih =>
    rw [List.pairwise_cons] at h
    unfold insertByKey
    split
    · rename_i hxy
      rw [List.pairwise_cons]
      refine ⟨?_, List.pairwise_cons.mpr h⟩
      intro b hb
      rcases List.mem_cons.mp hb with rfl | hb
      · exact hxy
      · exact Nat.le_trans hxy (h.1 b hb)
    · rename_i hxy
      rw [List.pairwise_cons]
      refine ⟨?_, ih h.2⟩
      intro b hb
      rcases List.mem_cons.mp ((insertByKey_perm key x rest).subset hb) with rfl | hb
      · omega
      · exact h.1 b hb

theorem indexScan_sorted {α : Type} (key : α → Nat) (l : List α) :
    (indexScan key l).Pairwise (fun a b => key a ≤ key b) := by
  induction l with
  | nil => exact List.Pairwise.nil
  | cons x rest ih => exact insertByKey_sorted key x _ ih

theorem indexScan_filter_length {α : Type} (key : α → Nat) (m : α → Bool) (l : List α) :
    ((indexScan key l).filter m).length = (l.filter m).length :=
  ((indexScan_perm key l).filter m).length_eq

theorem getChanges_posts (db : Db) (q : ChangesQuery) (now : Nat) :
    (getChanges db q now).changes.posts =
      if (q.entityTypes.getD ["posts", "groups", "users"]).contains "posts" then
        some ((mongoLimit (q.limit.getD 100)
          ((indexScan Post.updatedAt db.posts).filter
            (Post.changedSince (q.lastSync.getD 0)))).map Post.selected)
      else none := rfl

theorem getChanges_groups (db : Db) (q : ChangesQuery) (now : Nat) :
    (getChanges db q now).changes.groups =
      if (q.entityTypes.getD ["posts", "groups", "users"]).contains "groups" then
        some ((mongoLimit (q.limit.getD 100)
          ((indexScan Group.updatedAt db.groups).filter
            (Group.changedSince (q.lastSync.getD 0)))).map Group.selected)
      else none := rfl

theorem getChanges_users (db : Db) (q : ChangesQuery) (now : Nat) :
    (getChanges db q now).changes.users =
      if (q.entityTypes.getD ["posts", "groups", "users"]).contains "users" then
        some ((mongoLimit (q.limit.getD 100)
          (db.users.filter (User.changedSince (q.lastSync.getD 0)))).map User.selected)
      else none := rfl

/-- C14 refuted as stated: a pull with `limit=0` returns both matching posts, more than
the limit, because `limit(0)` puts no cap on a MongoDB cursor. -/
theorem changes_limit_zero_is_no_cap :
    ((getChanges feedDb (pullPosts 0 0) 50).changes.posts.map
        (fun ps => ps.map Post.id)) = some [2, 1] ∧
    ((getChanges feedDb (pullPosts 0 1) 50).changes.posts.map
        (fun ps => ps.map Post.id)) = some [2] := by
  decide

/-- C14 as amended: every entity a changes pull returns for a type has `updatedAt` above
the cursor and `syncStatus` `synced` (and is a visible post or an active group or user);
for `limit > 0` at most `limit` entities are returned per type, while `limit = 0` returns
every match; and a type has a key in the result exactly when it was requested. -/
theorem changes_selection (db : Db) (q : ChangesQuery) (now : Nat) :
    (∀ ps, (getChanges db q now).changes.posts = some ps →
      (∀ p ∈ ps, q.lastSync.getD 0 < p.updatedAt ∧ p.syncStatus = "synced" ∧
        p.isHidden = false) ∧
      (0 < q.limit.getD 100 → ps.length ≤ q.limit.getD 100) ∧
      (q.limit.getD 100 = 0 →
        ps.length = (db.posts.filter (Post.changedSince (q.lastSync.getD 0))).length)) ∧
    (∀ gs, (getChanges db q now).changes.groups = some gs →
      (∀ g ∈ gs, q.lastSync.getD 0 < g.updatedAt ∧ g.syncStatus = "synced" ∧
        g.isActive = true) ∧
      (0 < q.limit.getD 100 → gs.length ≤ q.limit.getD 100)) ∧
    (∀ us, (getChanges db q now).changes.users = some us →
      (∀ u ∈ us, q.lastSync.getD 0 < u.updatedAt ∧ u.syncStatus = "synced" ∧
        u.isActive = true) ∧
      (0 < q.limit.getD 100 → us.length ≤ q.limit.getD 100)) ∧
    (((getChanges db q now).changes.posts.isSome = true) ↔
      "posts" ∈ q.entityTypes.getD ["posts", "groups", "users"]) ∧
    (((getChanges db q now).changes.groups.isSome = true) ↔
      "groups" ∈ q.entityTypes.getD ["posts", "groups", "users"]) ∧
    (((getChanges db q now).changes.users.isSome = true) ↔
      "users" ∈ q.entityTypes.getD ["posts", "groups", "users"]) := by
  refine ⟨fun ps hps => ?_, fun gs hgs => ?_, fun us hus => ?_, ?_, ?_, ?_⟩
  · rw [getChanges_posts] at hps
    split at hps
    · simp only [Option.some.injEq] at hps
      subst hps
      refine ⟨fun p hp => ?_, fun hl => ?_, fun hl => ?_⟩
      · obtain ⟨p0, hp0, rfl⟩ := List.mem_map.mp hp
        have hm := List.mem_filter.mp ((mongoLimit_sublist _ _).subset hp0)
        simpa [Post.changedSince, Post.selected, and_assoc] using hm.2
      · simpa using mongoLimit_length _ _ hl
      · rw [List.length_map, mongoLimit_all _ _ (Or.inl hl)]
        exact indexScan_filter_length _ _ _
    · cases hps
  · rw [getChanges_groups] at hgs
    split at hgs
    · simp only [Option.some.injEq] at hgs
      subst hgs
      refine ⟨fun g hg => ?_, fun hl => ?_⟩
      · obtain ⟨g0, hg0, rfl⟩ := List.mem_map.mp hg
        have hm := List.mem_filter.mp ((mongoLimit_sublist _ _).subset hg0)
        simpa [Group.changedSince, Group.selected, and_assoc] using hm.2
      · simpa using mongoLimit_length _ _ hl
    · cases hgs
  · rw [getChanges_users] at hus
    split at hus
    · simp only [Option.some.injEq] at hus
      subst hus
      refine ⟨fun u hu => ?_, fun hl => ?_⟩
      · obtain ⟨u0, hu0, rfl⟩ := List.mem_map.mp hu
        have hm := List.mem_filter.mp ((mongoLimit_sublist _ _).subset hu0)
        simpa [User.changedSince, User.selected, and_assoc] using hm.2
      · simpa using mongoLimit_length _ _ hl
    · cases hus
  · rw [getChanges_posts]; split <;> simp_all
  · rw [getChanges_groups]; split <;> simp_all
  · rw [getChanges_users]; split <;> simp_all

/-- C15 refuted as stated: user `ann` was inserted before user `bob` and modified after him.
The users query has no sort and no index serves its filter, so the users come in
collection order: a pull with `limit=1` returns `ann`, whose `updatedAt` 30 is not the
smallest among the matches, and a pull with `limit=2` returns `updatedAt` 30 before 20. The
posts `A` and `B` of the same shape come back by `updatedAt`, 20 before 30. -/
theorem changes_users_not_sorted :
    (feedUsers.users.filter (User.changedSince 0)).map (fun u => (u.id, u.updatedAt)) =
      [(7, 30), (8, 20)] ∧
    ((getChanges feedUsers (pullUsers 0 1) 50).changes.users.map
        (fun us => us.map (fun u => (u.id, u.updatedAt)))) = some [(7, 30)] ∧
    ((getChanges feedUsers (pullUsers 0 2) 50).changes.users.map
        (fun us => us.map (fun u => (u.id, u.updatedAt)))) = some [(7, 30), (8, 20)] ∧
    ((getChanges feedDb (pullPosts 0 2) 50).changes.posts.map
        (fun ps => ps.map (fun p => (p.localId, p.updatedAt)))) =
      some [(some "B", 20), (some "A", 30)] := by
  decide

theorem feed_ids_sublist {α : Type} (key : α → Nat) (sel : α → α) (m : α → Bool)
    (hsel : ∀ x, key (sel x) = key x) (n : Nat) (coll : List α) :
    (((mongoLimit n (coll.filter m)).map sel).map key).Sublist (coll.map key) := by
  have h1 : ((mongoLimit n (coll.filter m)).map sel).map key =
      (mongoLimit n (coll.filter m)).map key := by
    simp [List.map_map, Function.comp_def, hsel]
  rw [h1]
  exact ((mongoLimit_sublist _ _).trans (List.filter_sublist _)).map key

/-- A page cut from a list in ascending order is in ascending order, and what it holds is
not above what it leaves out. -/
theorem feed_sorted_page {α : Type} (key : α → Nat) (sel : α → α) (n : Nat) (docs : List α)
    (hsel : ∀ x, key (sel x) = key x)
    (hsorted : docs.Pairwise (fun a b => key a ≤ key b)) :
    ((mongoLimit n docs).map sel).Pairwise (fun a b => key a ≤ key b) ∧
    ∀ p ∈ (mongoLimit n docs).map sel, ∀ x ∈ docs, sel x ∉ (mongoLimit n docs).map sel →
      key p ≤ key x := by
  constructor
  · rw [List.pairwise_map]
    simp only [hsel]
    exact hsorted.sublist (mongoLimit_sublist n docs)
  · intro p hp x hx hout
    obtain ⟨p0, hp0, rfl⟩ := List.mem_map.mp hp
    rw [hsel]
    have hx0 : x ∉ mongoLimit n docs := fun hin => hout (List.mem_map_of_mem sel hin)
    by_cases hn : n = 0
    · rw [mongoLimit, if_pos hn] at hx0
      exact absurd hx hx0
    · rw [mongoLimit, if_neg hn] at hp0 hx0
      have hsplit : docs = docs.take n ++ docs.drop n := (List.take_append_drop n docs).symm
      rw [hsplit] at hsorted hx
      rcases List.mem_append.mp hx with hin | hin
      · exact absurd hin hx0
      · exact (List.pairwise_append.mp hsorted).2.2 p0 hp0 x hin

/-- C15 as amended: no query of the changes pull asks for an ordering. Posts and groups
come back in the order of the index `{ syncStatus: 1, updatedAt: 1 }` that serves their
filter: ascending by `updatedAt`, and when the page is cut, no returned entity has a larger
`updatedAt` than a match that was left out. Users, whose filter is served by no index, come
back in collection order (their `_id`s form a sublist of the collection's), whatever their
`updatedAt`. -/
theorem changes_order (db : Db) (q : ChangesQuery) (now : Nat) :
    (∀ ps, (getChanges db q now).changes.posts = some ps →
      ps.Pairwise (fun a b => a.updatedAt ≤ b.updatedAt) ∧
      (∀ p ∈ ps, ∀ x ∈ db.posts, Post.changedSince (q.lastSync.getD 0) x = true →
        Post.selected x ∉ ps → p.updatedAt ≤ x.updatedAt)) ∧
    (∀ gs, (getChanges db q now).changes.groups = some gs →
      gs.Pairwise (fun a b => a.updatedAt ≤ b.updatedAt) ∧
      (∀ g ∈ gs, ∀ x ∈ db.groups, Group.changedSince (q.lastSync.getD 0) x = true →
        Group.selected x ∉ gs → g.updatedAt ≤ x.updatedAt)) ∧
    (∀ us, (getChanges db q now).changes.users = some us →
      (us.map User.id).Sublist (db.users.map User.id)) := by
  refine ⟨fun ps hps => ?_, fun gs hgs => ?_, fun us hus => ?_⟩
  · rw [getChanges_posts] at hps
    split at hps
    · simp only [Option.some.injEq] at hps
      subst hps
      have hpage := feed_sorted_page Post.updatedAt Post.selected (q.limit.getD 100)
        ((indexScan Post.updatedAt db.posts).filter (Post.changedSince (q.lastSync.getD 0)))
        (fun _ => rfl) ((indexScan_sorted Post.updatedAt db.posts).filter _)
      refine ⟨hpage.1, fun p hp x hx hm hout => hpage.2 p hp x ?_ hout⟩
      exact List.mem_filter.mpr ⟨(indexScan_perm Post.updatedAt db.posts).mem_iff.mpr hx, hm⟩
    · cases hps
  · rw [getChanges_groups] at hgs
    split at hgs
    · simp only [Option.some.injEq] at hgs
      subst hgs
      have hpage := feed_sorted_page Group.updatedAt Group.selected (q.limit.getD 100)
        ((indexScan Group.updatedAt db.groups).filter
          (Group.changedSince (q.lastSync.getD 0)))
        (fun _ => rfl) ((indexScan_sorted Group.updatedAt db.groups).filter _)
      refine ⟨hpage.1, fun g hg x hx hm hout => hpage.2 g hg x ?_ hout⟩
      exact List.mem_filter.mpr ⟨(indexScan_perm Group.updatedAt db.groups).mem_iff.mpr hx, hm⟩
    · cases hgs
  · rw [getChanges_users] at hus
    split at hus
    · simp only [Option.some.injEq] at hus
      subst hus
      exact feed_ids_sublist User.id User.selected _ (fun _ => rfl) _ _
    · cases hus

/-- Witness of C15 as amended: the pull with `limit=1` returns post `B`, whose `updatedAt`
20 is not above the 30 of post `A`, which was left out. -/
theorem changes_order_witness :
    (getChanges feedDb (pullPosts 0 1) 50).changes.posts =
      some [Post.selected
        { id := 2, userId := 7, localId := some "B", syncStatus := "synced", version := 1,
          content := "b", tags := [], isHidden := false, updatedAt := 20, fields := [] }] ∧
    (Post.selected
        { id := 2, userId := 7, localId := some "B", syncStatus := "synced", version := 1,
          content := "b", tags := [], isHidden := false, updatedAt := 20,
          fields := [] }).updatedAt ≤
      ({ id := 1, userId := 7, localId := some "A", syncStatus := "synced", version := 2,
         content := "a", tags := [], isHidden := false, updatedAt := 30,
         fields := [] } : Post).updatedAt :=
  ⟨by decide,
    ((changes_order feedDb (pullPosts 0 1) 50).1
      [Post.selected
        { id := 2, userId := 7, localId := some "B", syncStatus := "synced", version := 1,
          content := "b", tags := [], isHidden := false, updatedAt := 20, fields := [] }]
      (by decide)).2
      (Post.selected
        { id := 2, userId := 7, localId := some "B", syncStatus := "synced", version := 1,
          content := "b", tags := [], isHidden := false, updatedAt := 20, fields := [] })
      (by decide)
      { id := 1, userId := 7, localId := some "A", syncStatus := "synced", version := 2,
        content := "a", tags := [], isHidden := false, updatedAt := 30, fields := [] }
      (by decide) (by decide) (by decide)⟩

/-- C16 refuted as stated: with `limit=1` the first pull from cursor 0 returns post `B`
and the server time 50 as the new cursor; post `A`, whose `updatedAt` 30 lies in the
window, is not in that page, and no pull from a cursor at or after 50 returns it. -/
theorem changes_page_cut_is_lost :
    ((getChanges feedDb (pullPosts 0 1) 50).changes.posts.map
        (fun ps => ps.map Post.localId)) = some [some "B"] ∧
    (getChanges feedDb (pullPosts 0 1) 50).serverTime = 50 ∧
    feedDb.posts.map (fun p => (p.localId, p.syncStatus, p.updatedAt)) =
      [(some "A", "synced", 30), (some "B", "synced", 20)] ∧
    (getChanges feedDb (pullPosts 50 1) 60).changes.posts = some [] ∧
    (∀ since limit now, 50 ≤ since →
      (getChanges feedDb (pullPosts since limit) now).changes.posts = some []) := by
  refine ⟨by decide, by decide, by decide, by decide, fun since limit now h => ?_⟩
  have h1 : (indexScan Post.updatedAt feedDb.posts).filter (Post.changedSince since) = [] := by
    rw [List.filter_eq_nil_iff]
    intro p hp
    have hp := (indexScan_perm Post.updatedAt feedDb.posts).mem_iff.mp hp
    simp only [feedDb, List.mem_cons, List.mem_singleton, List.not_mem_nil, or_false] at hp
    rcases hp with rfl | rfl <;> simp [Post.changedSince] <;> omega
  rw [getChanges_posts]
  simp [pullPosts, h1, mongoLimit]

theorem feed_complete {α : Type} (sel : α → α) (m : α → Bool) (n : Nat) (coll : List α)
    (x : α) (hx : x ∈ coll) (hm : m x = true)
    (hfit : n = 0 ∨ (coll.filter m).length ≤ n) :
    sel x ∈ (mongoLimit n (coll.filter m)).map sel := by
  rw [mongoLimit_all _ _ hfit]
  exact List.mem_map.mpr ⟨x, List.mem_filter.mpr ⟨hx, hm⟩, rfl⟩

/-- C16 as amended: a pull for a requested type whose page is not cut (`limit = 0`, or no
more than `limit` documents match) returns every synced entity of that type that is
visible (a post that is not hidden, an active group or user) and whose `updatedAt` is above
the cursor, and answers with the server time as the new cursor; every post a later pull
returns has `updatedAt` above the cursor of that pull, so a match that was cut off by
`limit` is not delivered by pulls from the returned cursor. -/
theorem changes_complete_when_not_cut (db : Db) (q : ChangesQuery) (now : Nat) :
    (∀ p ∈ db.posts, p.syncStatus = "synced" → p.isHidden = false →
      q.lastSync.getD 0 < p.updatedAt →
      "posts" ∈ q.entityTypes.getD ["posts", "groups", "users"] →
      (q.limit.getD 100 = 0 ∨
        (db.posts.filter (Post.changedSince (q.lastSync.getD 0))).length ≤ q.limit.getD 100) →
      ∃ ps, (getChanges db q now).changes.posts = some ps ∧ Post.selected p ∈ ps) ∧
    (∀ g ∈ db.groups, g.syncStatus = "synced" → g.isActive = true →
      q.lastSync.getD 0 < g.updatedAt →
      "groups" ∈ q.entityTypes.getD ["posts", "groups", "users"] →
      (q.limit.getD 100 = 0 ∨
        (db.groups.filter (Group.changedSince (q.lastSync.getD 0))).length ≤
          q.limit.getD 100) →
      ∃ gs, (getChanges db q now).changes.groups = some gs ∧ Group.selected g ∈ gs) ∧
    (∀ u ∈ db.users, u.syncStatus = "synced" → u.isActive = true →
      q.lastSync.getD 0 < u.updatedAt →
      "users" ∈ q.entityTypes.getD ["posts", "groups", "users"] →
      (q.limit.getD 100 = 0 ∨
        (db.users.filter (User.changedSince (q.lastSync.getD 0))).length ≤ q.limit.getD 100) →
      ∃ us, (getChanges db q now).changes.users = some us ∧ User.selected u ∈ us) ∧
    (getChanges db q now).serverTime = now ∧
    (∀ limit later ps, (getChanges db
        { lastSync := some now, entityTypes := q.entityTypes, limit := limit }
        later).changes.posts = some ps → ∀ x ∈ ps, now < x.updatedAt) := by
  refine ⟨fun p hmem hs hv hnew htype hfit => ?_, fun g hmem hs hv hnew htype hfit => ?_,
    fun u hmem hs hv hnew htype hfit => ?_, rfl, fun limit later ps hps x hx => ?_⟩
  · refine ⟨(mongoLimit (q.limit.getD 100)
        ((indexScan Post.updatedAt db.posts).filter
          (Post.changedSince (q.lastSync.getD 0)))).map Post.selected, ?_, ?_⟩
    · rw [getChanges_posts, if_pos (by simpa using htype)]
    · exact feed_complete _ _ _ _ p ((indexScan_perm _ _).mem_iff.mpr hmem)
        (by simp [Post.changedSince, hnew, hs, hv])
        (by rw [indexScan_filter_length]; exact hfit)
  · refine ⟨(mongoLimit (q.limit.getD 100)
        ((indexScan Group.updatedAt db.groups).filter
          (Group.changedSince (q.lastSync.getD 0)))).map Group.selected, ?_, ?_⟩
    · rw [getChanges_groups, if_pos (by simpa using htype)]
    · exact feed_complete _ _ _ _ g ((indexScan_perm _ _).mem_iff.mpr hmem)
        (by simp [Group.changedSince, hnew, hs, hv])
        (by rw [indexScan_filter_length]; exact hfit)
  · refine ⟨(mongoLimit (q.limit.getD 100)
        (db.users.filter (User.changedSince (q.lastSync.getD 0)))).map User.selected, ?_, ?_⟩
    · rw [getChanges_users, if_pos (by simpa using htype)]
    · exact feed_complete _ _ _ _ u hmem (by simp [User.changedSince, hnew, hs, hv]) hfit
  · rw [getChanges_posts] at hps
    split at hps
    · simp only [Option.some.injEq] at hps
      subst hps
      obtain ⟨x0, hx0, rfl⟩ := List.mem_map.mp hx
      have hm := List.mem_filter.mp ((mongoLimit_sublist _ _).subset hx0)
      have h2 := hm.2
      simp only [Post.changedSince, Option.getD_some, Bool.and_eq_true, decide_eq_true_eq]
        at h2
      simpa [Post.selected] using h2.1.1
    · cases hps

/-- Witness of C16 as amended: with `limit=2` the pull from cursor 0 returns post `B`. -/
theorem changes_complete_when_not_cut_witness :
    (∃ ps, (getChanges feedDb (pullPosts 0 2) 50).changes.posts = some ps ∧
      Post.selected
        { id := 2, userId := 7, localId := some "B", syncStatus := "synced", version := 1,
          content := "b", tags := [], isHidden := false, updatedAt := 20, fields := [] } ∈ ps) ∧
    (getChanges feedDb (pullPosts 0 2) 50).serverTime = 50 :=
  ⟨(changes_complete_when_not_cut feedDb (pullPosts 0 2) 50).1
      { id := 2, userId := 7, localId := some "B", syncStatus := "synced", version := 1,
        content := "b", tags := [], isHidden := false, updatedAt := 20, fields := [] }
      (by decide) (by decide) (by decide) (by decide) (by decide) (by decide),
    by decide⟩

/-! ## Claims on the sync client -/

theorem syncNow_in_flight (c : Client) (env : Nat → CallEnv) (now : Nat)
    (h : c.isSyncing = true) : syncNow c env now = (c, none) := by
  simp [syncNow, h]

theorem autoSync_offline (c : Client) (env : Nat → CallEnv) (now : Nat) :
    autoSync c false env now = (c, none) := by
  simp [autoSync]

theorem syncPending_offline (c : Client) (env : Nat → CallEnv) :
    syncPending c false env = (c, 0, none) := by
  simp [syncPending]

/-- C20 at the failing input: the device is offline, no cycle is in flight, and the queue
holds the `update` queued by a like and a request queued by the interceptor. `syncNow`
reads both entries, sends nothing, raises the retry counter of the first and removes the
second from the queue. A call while a cycle is in flight, `autoSync` while offline and
`api.syncPending` while offline do leave the client as it was. -/
theorem syncNow_offline_drains_queue :
    offlineClient.isSyncing = false ∧
    offlineClient.db.syncQueue.map (fun q => (q.id, q.entityType, q.retries)) =
      [(1, "posts", some 0), (2, "api_request", some 0)] ∧
    (syncNow offlineClient offlineEnv 100).1.db.syncQueue.map
        (fun q => (q.id, q.entityType, q.retries)) = [(1, "posts", some 1)] ∧
    (syncNow offlineClient offlineEnv 100).1.sent = [] ∧
    (syncNow offlineClient offlineEnv 100).2 =
      some { success := true, synced := 1, errors := 1 } ∧
    (∀ (c : Client) env now, c.isSyncing = true → syncNow c env now = (c, none)) ∧
    (∀ (c : Client) env now, autoSync c false env now = (c, none)) ∧
    (∀ (c : Client) env, syncPending c false env = (c, 0, none)) := by
  refine ⟨by decide, by decide, by decide, by decide, by decide, ?_, ?_, ?_⟩
  · exact fun c env now h => syncNow_in_flight c env now h
  · exact fun c env now => autoSync_offline c env now
  · exact fun c env => syncPending_offline c env

/-! ## Claims on ownership and on unknown resolutions -/

/-- C29 at the failing input: the post `L1` is owned by user 7; an update item carrying
`userId: 8` is accepted and the stored owner becomes 8, while the same item without
`userId` leaves the owner 7. On a create the payload's `userId` is overridden by the
principal. -/
theorem posts_update_adopts_payload_owner :
    (dbL1 1).posts.map Post.userId = [7] ∧
    (syncPosts plainHooks 7 (dbL1 1)
        (some [({ updateL1 1 with userId := some 8 }, calm 20 101)])).2 =
      Response.ok "Sync completed"
        { created := [], updated := [{ localId := some "L1", serverId := 100, version := 2 }],
          conflicts := [], errors := [] }
        { total := 1, successful := 1, conflicts := 0, errors := 0 } ∧
    (syncPosts plainHooks 7 (dbL1 1)
        (some [({ updateL1 1 with userId := some 8 }, calm 20 101)])).1.posts.map
        Post.userId = [8] ∧
    (syncPosts plainHooks 7 (dbL1 1)
        (some [(updateL1 1, calm 20 101)])).1.posts.map Post.userId = [7] ∧
    (syncPosts plainHooks 7 coldDb
        (some [({ createL1 with userId := some 8 }, calm 10 100)])).1.posts.map
        Post.userId = [7] := by
  decide

theorem Post.resolved_unknown (H : Hooks) (now : Nat) (r : String) (post : Post)
    (data : PostData) (h1 : r ≠ "client") (h2 : r ≠ "server") (h3 : r ≠ "merge") :
    Post.resolved H now r post data = { post with updatedAt := now } := by
  simp [Post.resolved, Post.resolve, Post.preSave, h1, h2, h3]

/-- C30 refuted as stated: the group `G1` is flagged `conflict` and a resolve request
carries the resolution `later`; the group is stored with `syncStatus` `synced`. The same
request for a post flagged `conflict` leaves its `syncStatus` and version alone. -/
theorem resolve_unknown_settles_group :
    dbG1Conflict.groups.map Group.syncStatus = ["conflict"] ∧
    (resolveConflict plainHooks (calm 40 0) dbG1Conflict
        (resolveGroup 300 "later" {})).1.groups.map Group.syncStatus = ["synced"] ∧
    (resolveConflict plainHooks (calm 40 0) dbL1Conflict
        (resolveL1 "later" { content := some "mine" })).1.posts.map
        (fun p => (p.syncStatus, p.version, p.content)) = [("conflict", 1, "hi")] := by
  decide

/-- C30 as amended: with a resolution other than `client`, `server` and `merge`, a post is
stored as it was (only `updatedAt` is refreshed by `save()`), so neither `syncStatus` nor
version nor a domain field changes; a group is handled as with resolution `server`: it is
stored with `syncStatus` `synced`, `memberCount` recomputed from the member list and
`updatedAt` refreshed, everything else as it was. In both cases `data` is ignored and the
answer is the 200 body. -/
theorem resolve_unknown_resolution (H : Hooks) (e : Env) (db : Db) (req : ResolveRequest)
    (r : String) (hres : req.resolution = some r) (hne : r ≠ "")
    (h1 : r ≠ "client") (h2 : r ≠ "server") (h3 : r ≠ "merge")
    (hf : e.fault = Fault.none) :
    (∀ post, req.entityType = some "post" →
      findById Post.id db.posts req.serverId = some post →
        resolveConflict H e db req =
          ({ db with
              posts := saveExisting (fun x => some x.id == req.serverId)
                { post with updatedAt := e.now } db.posts },
           ResolveResponse.post { post with updatedAt := e.now })) ∧
    (∀ group, req.entityType = some "group" →
      findById Group.id db.groups req.serverId = some group →
        resolveConflict H e db req =
          ({ db with
              groups := saveExisting (fun x => some x.id == req.serverId)
                { group with
                  syncStatus := "synced"
                  memberCount := (group.members.length : Int)
                  updatedAt := e.now } db.groups },
           ResolveResponse.group
             { group with
               syncStatus := "synced"
               memberCount := (group.members.length : Int)
               updatedAt := e.now })) := by
  refine ⟨fun post htype hfind => ?_, fun group htype hfind => ?_⟩
  · rw [resolveConflict_post H e db req r post htype hres hne hfind hf,
      Post.resolved_unknown H e.now r post req.postData h1 h2 h3]
  · rw [resolveConflict_group H e db req r group htype hres hne hfind hf,
      Group.resolved_not_client e r group req.groupData h1]

/-- Witness of C30 as amended: the resolution `later` for the post `L1` flagged `conflict`
stores the post as it was, with `updatedAt` refreshed. -/
theorem resolve_unknown_resolution_witness :
    (resolveL1 "later" { content := some "mine" }).resolution = some "later" ∧
    (calm 40 0).fault = Fault.none ∧
    (resolveConflict plainHooks (calm 40 0) dbL1Conflict
        (resolveL1 "later" { content := some "mine" })).2 =
      ResolveResponse.post { storedL1 1 with syncStatus := "conflict", updatedAt := 40 } := by
  have h := (resolve_unknown_resolution plainHooks (calm 40 0) dbL1Conflict
    (resolveL1 "later" { content := some "mine" }) "later" (by decide) (by decide)
    (by decide) (by decide) (by decide) (by decide)).1
    { storedL1 1 with syncStatus := "conflict" } (by decide) (by decide)
  refine ⟨by decide, by decide, ?_⟩
  rw [h]
  rfl

/-! ## Claims on the bulk counters -/

theorem slices_flatten {α : Type} (size : Nat) (hsize : 0 < size) (fuel : Nat) (l : List α)
    (hfuel : l.length ≤ fuel) : (slices size fuel l).flatten = l := by
  induction fuel generalizing l with
  | zero =>
    have : l = [] := List.length_eq_zero.mp (Nat.le_zero.mp hfuel)
    subst this
    rfl
  | succ fuel ih =>
    cases l with
    | nil => rfl
    | cons x rest =>
      have hdrop : ((x :: rest).drop size).length ≤ fuel := by
        rw [List.length_drop]
        simp only [List.length_cons] at hfuel ⊢
        omega
      simp only [slices, List.isEmpty_cons, Bool.false_eq_true, if_false, List.flatten_cons]
      rw [ih _ hdrop, List.take_append_drop]

theorem slices_length_le {α : Type} (size fuel : Nat) (l : List α) :
    ∀ c ∈ slices size fuel l, c.length ≤ size := by
  induction fuel generalizing l with
  | zero => intro c hc; simp [slices] at hc
  | succ fuel ih =>
    intro c hc
    unfold slices at hc
    split at hc
    · simp at hc
    · rcases List.mem_cons.mp hc with h | h
      · rw [h, List.length_take]
        exact Nat.min_le_left _ _
      · exact ih _ c h

theorem bulkPlan_total {α δ : Type} (M : BulkModel α δ) (coll : List α)
    (s : List (BulkOp α δ) × BulkCounters) (x : δ × Env) :
    (bulkPlan M coll s x).2.total = s.2.total + 1 := by
  unfold bulkPlan
  cases hf : x.2.fault <;>
    cases hfind : coll.find? (fun doc => M.localId doc == M.entityLocalId x.1) <;>
    simp [BulkCounters.total] <;> omega

theorem bulkPlan_fold_total {α δ : Type} (M : BulkModel α δ) (coll : List α)
    (chunk : List (δ × Env)) (s : List (BulkOp α δ) × BulkCounters) :
    (chunk.foldl (bulkPlan M coll) s).2.total = s.2.total + chunk.length := by
  induction chunk generalizing s with
  | nil => simp
  | cons x rest ih =>
    rw [List.foldl_cons, ih, bulkPlan_total, List.length_cons]
    omega

theorem bulkChunk_total {α δ : Type} (M : BulkModel α δ) (s : List α × BulkCounters)
    (chunk : List (δ × Env)) :
    (bulkChunk M s (chunk, none)).2.total = s.2.total + chunk.length := by
  have h := bulkPlan_fold_total M s.1 chunk ([], s.2)
  unfold bulkChunk
  simp only [bulkWrite]
  split
  · simpa using h
  · simpa using h

theorem withFailures_none {α : Type} (i : Nat) (chunks : List (List α)) :
    withFailures (fun _ => none) i chunks = chunks.map (fun c => (c, none)) := by
  induction chunks generalizing i with
  | nil => rfl
  | cons c rest ih => simp [withFailures, ih]

theorem bulkChunks_total {α δ : Type} (M : BulkModel α δ) (chunks : List (List (δ × Env)))
    (s : List α × BulkCounters) :
    ((chunks.map (fun c => (c, (none : Option Nat)))).foldl (bulkChunk M) s).2.total =
      s.2.total + chunks.flatten.length := by
  induction chunks generalizing s with
  | nil => simp
  | cons c rest ih =>
    rw [List.map_cons, List.foldl_cons, ih, bulkChunk_total, List.flatten_cons,
      List.length_append]
    omega

/-- When no `bulkWrite` rejects, the counters of `processBulkEntities` account for every
input exactly once. -/
theorem processBulkEntities_total {α δ : Type} (M : BulkModel α δ) (coll : List α)
    (entities : List (δ × Env)) :
    (processBulkEntities M coll entities (fun _ => none)).2.total = entities.length := by
  unfold processBulkEntities
  rw [withFailures_none, bulkChunks_total,
    slices_flatten 50 (by decide) entities.length entities (Nat.le_refl _)]
  simp [BulkCounters.total]

/-- C28 at the failing input: one new entity is sent and the `bulkWrite` of its chunk
rejects. The entity was already counted under `created` when it was planned and is counted
again under `errors`, so the counters sum to 2 for 1 input and nothing is stored. -/
theorem bulk_counters_count_failed_chunk_twice :
    (processBulkEntities (postBulk plainHooks 7) coldDb.posts
        [({ localId := some "L1", content := some "a" }, calm 30 102)]
        (fun _ => some 0)).2 = { created := 1, updated := 0, skipped := 0, errors := 1 } ∧
    (processBulkEntities (postBulk plainHooks 7) coldDb.posts
        [({ localId := some "L1", content := some "a" }, calm 30 102)]
        (fun _ => some 0)).2.total = 2 ∧
    (processBulkEntities (postBulk plainHooks 7) coldDb.posts
        [({ localId := some "L1", content := some "a" }, calm 30 102)]
        (fun _ => some 0)).1 = [] ∧
    (processBulkEntities (postBulk plainHooks 7) coldDb.posts
        [({ localId := some "L1", content := some "a" }, calm 30 102)]
        (fun _ => none)).2.total = 1 := by
  decide

/-! ## Claims on racing requests -/

/-- Without another request in between, the lookup followed by the rest of the iteration
is the iteration of the posts loop. -/
theorem syncPostItem_eq_afterFind (H : Hooks) (userId : Nat) (s : Db × Results PostAck)
    (x : PostData × Env) (hlookup : ∀ m, x.2.fault ≠ Fault.find m) :
    syncPostItem H userId s x =
      syncPostAfterFind H userId (s.1.findPost x.1.localId) s x := by
  obtain ⟨d, e⟩ := x
  cases hf : e.fault with
  | find m => exact absurd hf (hlookup m)
  | none => cases hfind : s.1.findPost d.localId <;>
      simp [syncPostItem, syncPostAfterFind, hf, hfind]
  | save m => cases hfind : s.1.findPost d.localId <;>
      simp [syncPostItem, syncPostAfterFind, hf, hfind]
  | count m => cases hfind : s.1.findPost d.localId <;>
      simp [syncPostItem, syncPostAfterFind, hf, hfind]

theorem saveExisting_twice {α : Type} (q : α → Bool) (first second : α) (l : List α)
    (hq : q first = true) :
    saveExisting q second (saveExisting q first l) = saveExisting q second l := by
  induction l with
  | nil => rfl
  | cons x rest ih =>
    by_cases hx : q x
    · simp [saveExisting, hx, hq]
    · simp [saveExisting, hx, ih]

theorem find_saveExisting {α : Type} (q : α → Bool) (saved x : α) (l : List α)
    (h : l.find? q = some x) (hq : q saved = true) :
    (saveExisting q saved l).find? q = some saved := by
  induction l with
  | nil => simp at h
  | cons y rest ih =>
    by_cases hy : q y
    · simp [saveExisting, hy, List.find?_cons, hq]
    · simp only [List.find?_cons, hy] at h
      simp [saveExisting, hy, List.find?_cons, ih h]

/-- C27 refuted as stated: two requests update the post `L1` from the known version 1.
When both lookups run before either `save()`, both items are reported `updated` with
version 2 and the stored post holds the content of the later save only; the write of the
first request is lost. -/
theorem racing_updates_lose_a_write :
    (syncPostAfterFind plainHooks 7 ((dbL1 1).findPost (some "L1"))
        (dbL1 1, Results.empty)
        ({ updateL1 1 with content := some "from A" }, calm 20 101)).2.updated =
      [{ localId := some "L1", serverId := 100, version := 2 }] ∧
    (syncPostAfterFind plainHooks 7 ((dbL1 1).findPost (some "L1"))
        ((syncPostAfterFind plainHooks 7 ((dbL1 1).findPost (some "L1"))
            (dbL1 1, Results.empty)
            ({ updateL1 1 with content := some "from A" }, calm 20 101)).1, Results.empty)
        ({ updateL1 1 with content := some "from B" }, calm 21 102)).2 =
      { created := [], updated := [{ localId := some "L1", serverId := 100, version := 2 }],
        conflicts := [], errors := [] } ∧
    (syncPostAfterFind plainHooks 7 ((dbL1 1).findPost (some "L1"))
        ((syncPostAfterFind plainHooks 7 ((dbL1 1).findPost (some "L1"))
            (dbL1 1, Results.empty)
            ({ updateL1 1 with content := some "from A" }, calm 20 101)).1, Results.empty)
        ({ updateL1 1 with content := some "from B" }, calm 21 102)).1.posts.map
        (fun p => (p.version, p.content)) = [(2, "from B")] := by
  decide

/-- C27 as amended: two requests update the same post from the same known version `C`,
which is at least the stored version. When the second lookup runs after the first
`save()`, the first item is reported `updated` with version `C + 1` and the second is
reported as a conflict against `C + 1` and changes nothing. When both lookups run before
either `save()`, both items are reported `updated` with version `C + 1` and the store
holds the state saved by the second request alone. -/
theorem racing_updates (H : Hooks) (userId : Nat) (db : Db) (post : Post)
    (dA dB : PostData) (eA eB : Env) (C : Int)
    (hfind : db.findPost dA.localId = some post) (hsame : dB.localId = dA.localId)
    (hA : dA.version = some C) (hB : dB.version = some C) (hge : post.version ≤ C)
    (hfA : eA.fault = Fault.none) (hfB : eB.fault = Fault.none) :
    (syncPostItem H userId (db, Results.empty) (dA, eA)).2 =
      { created := [], updated := [{ localId := dA.localId, serverId := post.id,
                                     version := C + 1 }],
        conflicts := [], errors := [] } ∧
    syncPostItem H userId
        ((syncPostItem H userId (db, Results.empty) (dA, eA)).1, Results.empty) (dB, eB) =
      ((syncPostItem H userId (db, Results.empty) (dA, eA)).1,
       { created := [], updated := [],
         conflicts := [{ localId := dB.localId
                         message := "Version conflict - server has newer version"
                         serverVersion := C + 1
                         clientVersion := some C }],
         errors := [] }) ∧
    (syncPostAfterFind H userId (some post) (db, Results.empty) (dA, eA)).2.updated =
      [{ localId := dA.localId, serverId := post.id, version := C + 1 }] ∧
    syncPostAfterFind H userId (some post)
        ((syncPostAfterFind H userId (some post) (db, Results.empty) (dA, eA)).1,
          Results.empty) (dB, eB) =
      ({ db with
          posts := saveExisting (fun p => p.localId == dB.localId)
            (Post.updated H eB.now post dB) db.posts },
       { created := [], updated := [{ localId := dB.localId, serverId := post.id,
                                      version := C + 1 }],
         conflicts := [], errors := [] }) := by
  have hvA : versionNewer post.version dA.version = false := by
    simp [versionNewer, hA, hge]
  have hvB : versionNewer post.version dB.version = false := by
    simp [versionNewer, hB, hge]
  have hstepA := syncPostItem_update H userId (db, Results.empty) dA eA post hfind hvA
    (by simp [hfA]) (by simp [hfA])
  have hloc : post.localId = dA.localId := findPost_localId db dA.localId post hfind
  have hqA : (fun p : Post => p.localId == dA.localId) (Post.updated H eA.now post dA)
      = true := by
    simp [Post.updated_localId, hloc]
  have hfind1 : (syncPostItem H userId (db, Results.empty) (dA, eA)).1.findPost dB.localId =
      some (Post.updated H eA.now post dA) := by
    rw [hstepA, hsame]
    exact find_saveExisting _ _ post _ hfind hqA
  have hafterA : syncPostAfterFind H userId (some post) (db, Results.empty) (dA, eA) =
      ({ db with
          posts := saveExisting (fun p => p.localId == dA.localId)
            (Post.updated H eA.now post dA) db.posts },
       { created := [], updated := [{ localId := dA.localId, serverId := post.id,
                                      version := C + 1 }],
         conflicts := [], errors := [] }) := by
    have hvC : versionNewer post.version (some C) = false := by rw [← hA]; exact hvA
    simp [syncPostAfterFind, hvC, hfA, Post.updated_id, Post.updated_version, hA,
      Results.empty]
  refine ⟨?_, ?_, ?_, ?_⟩
  · rw [hstepA]
    simp [Post.updated_id, Post.updated_version, hA, Results.empty]
  · have hlt : C < (Post.updated H eA.now post dA).version := by
      rw [Post.updated_version, hA]
      simp
    have hc := syncPostItem_conflict H userId
      ((syncPostItem H userId (db, Results.empty) (dA, eA)).1, Results.empty) dB eB
      (Post.updated H eA.now post dA) C hfind1 hB hlt (by simp [hfB])
    rw [hc]
    simp [Post.updated_version, hA, Results.empty]
  · rw [hafterA]
  · rw [hafterA]
    have hvC : versionNewer post.version (some C) = false := by rw [← hA]; exact hvA
    have htwice := saveExisting_twice (fun p : Post => p.localId == dA.localId)
      (Post.updated H eA.now post dA) (Post.updated H eB.now post dB) db.posts hqA
    simp [syncPostAfterFind, hvC, hfB, hB, hsame, htwice, Post.updated_id,
      Post.updated_version, Results.empty]

/-- Witness of C27 as amended: of two updates of `L1` from version 1 that are processed
one after the other, the second is reported as a conflict against version 2. -/
theorem racing_updates_witness :
    (dbL1 1).findPost ({ updateL1 1 with content := some "from A" } : PostData).localId =
      some (storedL1 1) ∧
    (syncPostItem plainHooks 7
        ((syncPostItem plainHooks 7 (dbL1 1, Results.empty)
            ({ updateL1 1 with content := some "from A" }, calm 20 101)).1, Results.empty)
        ({ updateL1 1 with content := some "from B" }, calm 21 102)).2 =
      { created := [], updated := [],
        conflicts := [{ localId := some "L1"
                        message := "Version conflict - server has newer version"
                        serverVersion := 2
                        clientVersion := some 1 }],
        errors := [] } := by
  have h := racing_updates plainHooks 7 (dbL1 1) (storedL1 1)
    { updateL1 1 with content := some "from A" } { updateL1 1 with content := some "from B" }
    (calm 20 101) (calm 21 102) 1 (by decide) (by decide) (by decide) (by decide)
    (by decide) (by decide) (by decide)
  refine ⟨by decide, ?_⟩
  rw [h.2.1]
  decide

/-! ## Claims on the sync queue of the client -/

theorem syncNowItem_other (env : Nat → CallEnv) (s : Client × Nat × Nat) (item : QueueEntry)
    (hposts : item.entityType ≠ "posts") (hgroups : item.entityType ≠ "groups") :
    syncNowItem env s item =
      ({ s.1 with db := s.1.db.removeFromSyncQueue item.id }, s.2.1 + 1, s.2.2) := by
  simp [syncNowItem, hposts, hgroups]

/-- C22, at a failing input: a cycle of `syncNow` over a queue that holds one `api_request`
entry removes the entry and reports it as synced although no request left the client;
`api.syncPending` sends the request of the same entry before it removes it. In `syncNow`
every entry whose type is neither `posts` nor `groups` is removed without a request. -/
theorem syncNow_drops_unsent_entries :
    oneRequestQueued.syncQueue.map (fun q => (q.id, q.entityType)) = [(1, "api_request")] ∧
    (syncNow (clientOf oneRequestQueued) answeringEnv 100).1.db.syncQueue = [] ∧
    (syncNow (clientOf oneRequestQueued) answeringEnv 100).1.sent = [] ∧
    (syncNow (clientOf oneRequestQueued) answeringEnv 100).2 =
      some { success := true, synced := 1, errors := 0 } ∧
    (syncPending (clientOf oneRequestQueued) true answeringEnv).1.sent.map Request.url =
      ["/posts/1/like"] ∧
    (syncPending (clientOf oneRequestQueued) true answeringEnv).1.db.syncQueue = [] ∧
    (∀ (env : Nat → CallEnv) (s : Client × Nat × Nat) (item : QueueEntry),
      item.entityType ≠ "posts" → item.entityType ≠ "groups" →
      (syncNowItem env s item).1.sent = s.1.sent ∧
      ∀ q ∈ (syncNowItem env s item).1.db.syncQueue, q.id ≠ item.id) := by
  refine ⟨by decide, by decide, by decide, by decide, by decide, by decide, ?_⟩
  intro env s item hposts hgroups
  rw [syncNowItem_other env s item hposts hgroups]
  refine ⟨rfl, ?_⟩
  intro q hq
  simp [LocalDb.removeFromSyncQueue] at hq
  exact hq.2

/-- C23, at a failing input: the request of a queued post fails while the device is online.
The cycle of `syncNow` raises the retry counter and, on top of that, leaves a new row in the
local `posts` table; `api.syncPending` on the same queue and failure leaves the entity
tables as they were. -/
theorem failed_send_adds_local_row :
    (clientOf oneCreateQueued).db.posts.rows = [] ∧
    (syncNow (clientOf oneCreateQueued) failingEnv 100).1.sent.map Request.url = ["/posts"] ∧
    (syncNow (clientOf oneCreateQueued) failingEnv 100).2 =
      some { success := true, synced := 0, errors := 1 } ∧
    (syncNow (clientOf oneCreateQueued) failingEnv 100).1.db.syncQueue.map
      (fun q => (q.id, q.retries)) = [(1, some 1)] ∧
    (syncNow (clientOf oneCreateQueued) failingEnv 100).1.db.posts.rows.map
      (fun r => (r.id, r.doc.get "content", r.doc.get "syncStatus")) =
      [(1, some (Val.str "hi"), some (Val.str "pending"))] ∧
    (syncPending (clientOf oneCreateQueued) true failingEnv).1.db.posts =
      (clientOf oneCreateQueued).db.posts ∧
    (syncPending (clientOf oneCreateQueued) true failingEnv).1.db.groups =
      (clientOf oneCreateQueued).db.groups ∧
    (syncPending (clientOf oneCreateQueued) true failingEnv).1.db.syncQueue.map
      (fun q => (q.id, q.retries)) = [(1, some 1)] := by
  decide

/-- C26, at a failing input: on an empty store and offline, `api.createPost` and
`api.createGroup` (hence `db.createPost` and `db.createGroup`) add the local row and leave
the sync queue empty; `db.likePost` and `db.joinGroup` on these rows then enqueue one
`update` entry each, so the queue holds updates of entities whose creation was never
queued. -/
theorem offline_create_enqueues_nothing :
    (apiCreatePost (clientOf emptyLocal) offlineCall [("content", Val.str "hi")]).2 = true ∧
    (apiCreatePost (clientOf emptyLocal) offlineCall
      [("content", Val.str "hi")]).1.db.posts.rows.map LocalRow.id = [1] ∧
    (apiCreatePost (clientOf emptyLocal) offlineCall
      [("content", Val.str "hi")]).1.db.syncQueue = [] ∧
    (apiCreateGroup (clientOf emptyLocal) offlineCall [("name", Val.str "g")]).2 = true ∧
    (apiCreateGroup (clientOf emptyLocal) offlineCall
      [("name", Val.str "g")]).1.db.groups.rows.map LocalRow.id = [1] ∧
    (apiCreateGroup (clientOf emptyLocal) offlineCall
      [("name", Val.str "g")]).1.db.syncQueue = [] ∧
    ((apiCreatePost (clientOf emptyLocal) offlineCall
      [("content", Val.str "hi")]).1.db.likePost 101 1 "7").syncQueue.map
      (fun q => (q.action, q.entityType, q.data.get "id")) =
      [("update", "posts", some (Val.num 1))] ∧
    ((apiCreateGroup (clientOf emptyLocal) offlineCall
      [("name", Val.str "g")]).1.db.joinGroup 101 1).syncQueue.map
      (fun q => (q.action, q.entityType, q.data.get "id")) =
      [("update", "groups", some (Val.num 1))] ∧
    (∀ (db db1 : LocalDb) (e : CallEnv) (data : Fields) (key : Nat),
      (db.createPost e data = some (db1, key) → db1.syncQueue = db.syncQueue) ∧
      (db.createGroup e data = some (db1, key) → db1.syncQueue = db.syncQueue)) := by
  refine ⟨by decide, by decide, by decide, by decide, by decide, by decide, by decide,
    by decide, ?_⟩
  intro db db1 e data key
  constructor
  · intro h
    unfold LocalDb.createPost at h
    split at h
    · simp only [Option.some.injEq, Prod.mk.injEq] at h
      rw [← h.1]
    · simp at h
  · intro h
    unfold LocalDb.createGroup at h
    split at h
    · simp only [Option.some.injEq, Prod.mk.injEq] at h
      rw [← h.1]
    · simp at h

theorem syncNowItem_retries_irrelevant (env : Nat → CallEnv) (s : Client × Nat × Nat)
    (item : QueueEntry) (r : Option Nat) :
    (syncNowItem env s { item with retries := r }).1.sent = (syncNowItem env s item).1.sent ∧
    (syncNowItem env s { item with retries := r }).2 = (syncNowItem env s item).2 := by
  by_cases hp : item.entityType = "posts"
  · cases h : (apiCreatePost s.1 (env item.id) item.data).2 <;> simp [syncNowItem, hp, h]
  · by_cases hg : item.entityType = "groups"
    · cases h : (apiCreateGroup s.1 (env item.id) item.data).2 <;> simp [syncNowItem, hg, h]
    · simp [syncNowItem, hp, hg]

/-- C24, refuted as stated: an entry that has already failed 1000 times is sent again by the
next cycle of `syncNow` and of `api.syncPending`; after the failure it is still in the
queue, equal to what it was but for `retries = 1001`. -/
theorem retries_have_no_ceiling :
    (syncNow (clientOf (retriedQueued 1000)) failingEnv 100).1.sent.map Request.url =
      ["/posts"] ∧
    (syncNow (clientOf (retriedQueued 1000)) failingEnv 100).1.db.syncQueue =
      (retriedQueued 1001).syncQueue ∧
    (syncPending (clientOf (retriedQueued 1000)) true failingEnv).1.sent.map Request.url =
      ["/sync/posts"] ∧
    (syncPending (clientOf (retriedQueued 1000)) true failingEnv).1.db.syncQueue =
      (retriedQueued 1001).syncQueue := by
  decide

/-- C24, amended: the retry counter only counts. Whatever number of failures `n` an entry
carries, a cycle of `syncNow` and of `api.syncPending` over it sends the same requests as
for `retries = 0`, and after a failed request the entry is still in the queue with
`retries = n + 1` and its other fields unchanged. -/
theorem retry_counter_only_counts (n : Nat) :
    (syncNow (clientOf (retriedQueued n)) failingEnv 100).1.sent =
      (syncNow (clientOf (retriedQueued 0)) failingEnv 100).1.sent ∧
    (syncNow (clientOf (retriedQueued n)) failingEnv 100).1.db.syncQueue =
      (retriedQueued (n + 1)).syncQueue ∧
    (syncPending (clientOf (retriedQueued n)) true failingEnv).1.sent =
      (syncPending (clientOf (retriedQueued 0)) true failingEnv).1.sent ∧
    (syncPending (clientOf (retriedQueued n)) true failingEnv).1.db.syncQueue =
      (retriedQueued (n + 1)).syncQueue ∧
    (∀ (env : Nat → CallEnv) (s : Client × Nat × Nat) (item : QueueEntry),
      (syncNowItem env s { item with retries := some n }).1.sent =
        (syncNowItem env s item).1.sent ∧
      (syncNowItem env s { item with retries := some n }).2 = (syncNowItem env s item).2) := by
  refine ⟨?_, ?_, ?_, ?_, ?_⟩
  · simp [syncNow, clientOf, retriedQueued, emptyLocal, failingEnv, LocalDb.getPendingSyncs,
      orderByCreatedAt, insertByCreatedAt, syncNowItem, apiCreatePost, LocalDb.createPost,
      LocalTable.add, explicitKey, withUserId, truthy, Fields.get, Fields.set, Fields.assign,
      apiRequest, LocalDb.setRetries]
  · simp [syncNow, clientOf, retriedQueued, emptyLocal, failingEnv, LocalDb.getPendingSyncs,
      orderByCreatedAt, insertByCreatedAt, syncNowItem, apiCreatePost, LocalDb.createPost,
      LocalTable.add, explicitKey, withUserId, truthy, Fields.get, Fields.set, Fields.assign,
      apiRequest, LocalDb.setRetries]
  · simp [syncPending, clientOf, retriedQueued, emptyLocal, failingEnv,
      LocalDb.getPendingSyncs, orderByCreatedAt, insertByCreatedAt, syncPendingItem, apiCall,
      apiRequest]
  · simp [syncPending, clientOf, retriedQueued, emptyLocal, failingEnv,
      LocalDb.getPendingSyncs, orderByCreatedAt, insertByCreatedAt, syncPendingItem, apiCall,
      apiRequest]
  · exact fun env s item => syncNowItem_retries_irrelevant env s item (some n)

theorem orderByCreatedAt_sorted (l : List QueueEntry)
    (h : l.Pairwise (fun a b => a.createdAt < b.createdAt ∨
      (a.createdAt = b.createdAt ∧ a.id ≤ b.id))) :
    orderByCreatedAt l = l := by
  induction l with
  | nil => rfl
  | cons x rest ih =>
    rw [List.pairwise_cons] at h
    have hrest : orderByCreatedAt rest = rest := ih h.2
    show insertByCreatedAt x (orderByCreatedAt rest) = x :: rest
    rw [hrest]
    cases rest with
    | nil => rfl
    | cons y more =>
      have hxy := h.1 y (List.mem_cons_self _ _)
      simp [insertByCreatedAt, hxy]

theorem enqueueAll_queue (calls : List Enqueue) (db : LocalDb) :
    (enqueueAll db calls).syncQueue.map
        (fun q => (q.action, q.data, q.entityType, q.createdAt, q.retries)) =
      db.syncQueue.map (fun q => (q.action, q.data, q.entityType, q.createdAt, q.retries)) ++
        calls.map (fun c => (c.action, c.data, c.entityType, c.now, some 0)) := by
  induction calls generalizing db with
  | nil => simp [enqueueAll]
  | cons c rest ih =>
    have := ih (db.addToSyncQueue c.now c.action c.data c.entityType)
    simp only [enqueueAll, List.foldl_cons] at this ⊢
    rw [this]
    simp [LocalDb.addToSyncQueue]

theorem runQueueOps_invariant (ops : List QueueOp) (db : LocalDb)
    (hclock : (enqueueTimes ops).Pairwise (fun a b => a ≤ b))
    (hsorted : db.syncQueue.Pairwise (fun a b => a.createdAt ≤ b.createdAt ∧ a.id < b.id))
    (hids : ∀ q ∈ db.syncQueue, q.id < db.queueNextId)
    (hpast : ∀ q ∈ db.syncQueue, ∀ t ∈ enqueueTimes ops, q.createdAt ≤ t) :
    (runQueueOps db ops).syncQueue.Pairwise
      (fun a b => a.createdAt ≤ b.createdAt ∧ a.id < b.id) ∧
    ∀ q ∈ (runQueueOps db ops).syncQueue, q.id < (runQueueOps db ops).queueNextId := by
  induction ops generalizing db with
  | nil => exact ⟨hsorted, hids⟩
  | cons op rest ih =>
    show (runQueueOps (db.applyOp op) rest).syncQueue.Pairwise _ ∧
      ∀ q ∈ (runQueueOps (db.applyOp op) rest).syncQueue,
        q.id < (runQueueOps (db.applyOp op) rest).queueNextId
    cases op with
    | enqueue c =>
      simp only [enqueueTimes, List.pairwise_cons] at hclock
      apply ih _ hclock.2
      · simp only [LocalDb.applyOp, LocalDb.addToSyncQueue]
        rw [List.pairwise_append]
        refine ⟨hsorted, List.pairwise_singleton _ _, ?_⟩
        intro a ha b hb
        rw [List.mem_singleton] at hb
        subst hb
        exact ⟨hpast a ha c.now (by simp [enqueueTimes]), hids a ha⟩
      · intro q hq
        simp only [LocalDb.applyOp, LocalDb.addToSyncQueue, List.mem_append,
          List.mem_singleton] at hq ⊢
        rcases hq with hq | hq
        · have := hids q hq
          omega
        · subst hq
          simp
      · intro q hq t ht
        simp only [LocalDb.applyOp, LocalDb.addToSyncQueue, List.mem_append,
          List.mem_singleton] at hq
        rcases hq with hq | hq
        · exact hpast q hq t (by simp [enqueueTimes, ht])
        · subst hq
          exact hclock.1 t ht
    | remove id =>
      simp only [enqueueTimes] at hclock hpast
      apply ih _ hclock
      · exact hsorted.filter _
      · intro q hq
        simp only [LocalDb.applyOp, LocalDb.removeFromSyncQueue, List.mem_filter] at hq ⊢
        exact hids q hq.1
      · intro q hq t ht
        simp only [LocalDb.applyOp, LocalDb.removeFromSyncQueue, List.mem_filter] at hq
        exact hpast q hq.1 t ht
    | retry id retries =>
      simp only [enqueueTimes] at hclock hpast
      apply ih _ hclock
      · simp only [LocalDb.applyOp, LocalDb.setRetries]
        rw [List.pairwise_map]
        refine hsorted.imp ?_
        intro a b hab
        have hc : ∀ q : QueueEntry,
            (if q.id = id then { q with retries := some retries } else q).createdAt =
              q.createdAt := by
          intro q
          split <;> rfl
        have hi : ∀ q : QueueEntry,
            (if q.id = id then { q with retries := some retries } else q).id = q.id := by
          intro q
          split <;> rfl
        rw [hc a, hc b, hi a, hi b]
        exact hab
      · intro q hq
        simp only [LocalDb.applyOp, LocalDb.setRetries, List.mem_map] at hq ⊢
        obtain ⟨p, hp, hpq⟩ := hq
        have := hids p hp
        by_cases h : p.id = id
        · rw [if_pos h] at hpq
          rw [← hpq]
          exact this
        · rw [if_neg h] at hpq
          rw [← hpq]
          exact this
      · intro q hq t ht
        simp only [LocalDb.applyOp, LocalDb.setRetries, List.mem_map] at hq
        obtain ⟨p, hp, hpq⟩ := hq
        have := hpast p hp t ht
        by_cases h : p.id = id
        · rw [if_pos h] at hpq
          rw [← hpq]
          exact this
        · rw [if_neg h] at hpq
          rw [← hpq]
          exact this

/-- C25 refuted as stated: the post 1 is queued for `create` at clock reading 10 and, after
the clock was set back, for `update` at reading 5. The queue is ordered by `createdAt`, so
`getPendingSyncs` returns the update before the create, and with `limit = 1` it returns the
update alone although the create was enqueued first. -/
theorem pending_syncs_follow_the_clock :
    (enqueueAll emptyLocal backwardCalls).syncQueue.map
        (fun q => (q.id, q.action, q.createdAt, q.retries)) =
      [(1, "create", 10, some 0), (2, "update", 5, some 0)] ∧
    ((enqueueAll emptyLocal backwardCalls).getPendingSyncs 20).map
        (fun q => (q.id, q.action)) = [(2, "update"), (1, "create")] ∧
    ((enqueueAll emptyLocal backwardCalls).getPendingSyncs 1).map
        (fun q => (q.id, q.action)) = [(2, "update")] := by
  decide

/-- C25 as amended: take any sequence of queue writes (`addToSyncQueue`,
`removeFromSyncQueue`, retry updates) on an empty queue, the `addToSyncQueue` calls made at
clock readings that never go back. Then `getPendingSyncs(limit)` returns at most `limit` entries; they are the first
`limit` entries of the queue in the order in which they were enqueued (the stored order,
along which the generated keys grow); and an entry enqueued next is put last with
`retries = 0` and a key above all others. -/
theorem pending_syncs_fifo (db : LocalDb) (ops : List QueueOp) (limit : Nat)
    (hempty : db.syncQueue = [])
    (hclock : (enqueueTimes ops).Pairwise (fun a b => a ≤ b)) :
    ((runQueueOps db ops).getPendingSyncs limit).length ≤ limit ∧
    (runQueueOps db ops).getPendingSyncs limit = (runQueueOps db ops).syncQueue.take limit ∧
    (runQueueOps db ops).syncQueue.Pairwise
      (fun a b => a.createdAt ≤ b.createdAt ∧ a.id < b.id) ∧
    (∀ q ∈ (runQueueOps db ops).syncQueue, q.id < (runQueueOps db ops).queueNextId) ∧
    (∀ (now : Nat) (action : String) (data : Fields) (entityType : String),
      ((runQueueOps db ops).addToSyncQueue now action data entityType).syncQueue =
        (runQueueOps db ops).syncQueue ++
          [{ id := (runQueueOps db ops).queueNextId, action := action, data := data,
             entityType := entityType, retries := some 0, createdAt := now }]) := by
  have hinv := runQueueOps_invariant ops db hclock (by rw [hempty]; exact List.Pairwise.nil)
    (by rw [hempty]; intro q hq; cases hq) (by rw [hempty]; intro q hq; cases hq)
  have horder := orderByCreatedAt_sorted _ (hinv.1.imp (by
    intro a b hab
    rcases Nat.lt_or_eq_of_le hab.1 with h | h
    · exact Or.inl h
    · exact Or.inr ⟨h, Nat.le_of_lt hab.2⟩))
  refine ⟨?_, ?_, hinv.1, hinv.2, ?_⟩
  · simp only [LocalDb.getPendingSyncs, List.length_take]
    exact Nat.min_le_left _ _
  · simp only [LocalDb.getPendingSyncs]
    rw [horder]
  · intro now action data entityType
    rfl

theorem pending_syncs_fifo_witness :
    emptyLocal.syncQueue = [] ∧
    (enqueueTimes sixOps).Pairwise (fun a b => a ≤ b) ∧
    (runQueueOps emptyLocal sixOps).syncQueue.map (fun q => (q.id, q.createdAt, q.retries)) =
      [(1, 3, some 1), (3, 8, some 0), (4, 9, some 0)] ∧
    (runQueueOps emptyLocal sixOps).getPendingSyncs 2 =
      (runQueueOps emptyLocal sixOps).syncQueue.take 2 :=
  ⟨rfl, by decide, by decide, (pending_syncs_fifo emptyLocal sixOps 2 rfl (by decide)).2.1⟩

/-! ## Claims on the sync cycle of the client -/

theorem insertByCreatedAt_perm (x : QueueEntry) (l : List QueueEntry) :
    (insertByCreatedAt x l).Perm (x :: l) := by
  induction l with
  | nil => exact List.Perm.refl _
  | cons y rest ih =>
    unfold insertByCreatedAt
    split
    · exact List.Perm.refl _
    · exact ((List.Perm.cons y ih).trans (List.Perm.swap x y rest))

theorem orderByCreatedAt_perm (l : List QueueEntry) : (orderByCreatedAt l).Perm l := by
  induction l with
  | nil => exact List.Perm.refl _
  | cons x rest ih =>
    show (insertByCreatedAt x (orderByCreatedAt rest)).Perm (x :: rest)
    exact (insertByCreatedAt_perm x _).trans (List.Perm.cons x ih)

theorem getPendingSyncs_nodup (db : LocalDb) (limit : Nat)
    (hids : (db.syncQueue.map QueueEntry.id).Nodup) :
    ((db.getPendingSyncs limit).map QueueEntry.id).Nodup := by
  have hperm := (orderByCreatedAt_perm db.syncQueue).map QueueEntry.id
  have hnodup := hperm.nodup_iff.mpr hids
  have hsub : ((db.getPendingSyncs limit).map QueueEntry.id).Sublist
      ((orderByCreatedAt db.syncQueue).map QueueEntry.id) :=
    (List.take_sublist _ _).map _
  exact hnodup.sublist hsub

theorem foldl_slices {α β : Type} (f : β → α → β) (size : Nat) (hsize : 0 < size)
    (fuel : Nat) (l : List α) (hfuel : l.length ≤ fuel) (init : β) :
    (slices size fuel l).foldl (fun s batch => batch.foldl f s) init = l.foldl f init := by
  induction fuel generalizing l init with
  | zero =>
    have : l = [] := List.length_eq_zero.mp (Nat.le_zero.mp hfuel)
    subst this
    rfl
  | succ fuel ih =>
    cases l with
    | nil => rfl
    | cons x rest =>
      have hdrop : ((x :: rest).drop size).length ≤ fuel := by
        rw [List.length_drop]
        simp only [List.length_cons] at hfuel ⊢
        omega
      simp only [slices, List.isEmpty_cons, Bool.false_eq_true, if_false, List.foldl_cons]
      rw [ih _ hdrop, ← List.foldl_append, List.take_append_drop]
      rfl

theorem apiRequest_online_queue (c : Client) (e : CallEnv) (url : String) (body : Fields)
    (h : e.online = true) : (apiRequest c e url body).1.db = c.db := by
  unfold apiRequest
  cases e.answer <;> simp [h]

theorem apiCreatePost_queue (c : Client) (e : CallEnv) (data : Fields) :
    (apiCreatePost c e data).1.db.syncQueue = c.db.syncQueue := by
  unfold apiCreatePost
  cases hcreate : c.db.createPost e (withUserId c data) with
  | none => rfl
  | some r =>
    obtain ⟨db1, key⟩ := r
    have hq : db1.syncQueue = c.db.syncQueue := by
      unfold LocalDb.createPost at hcreate
      split at hcreate
      · simp only [Option.some.injEq, Prod.mk.injEq] at hcreate
        rw [← hcreate.1]
      · simp at hcreate
    cases honline : e.online with
    | false => simpa using hq
    | true =>
      have hreq := apiRequest_online_queue { c with db := db1 } e "/posts" data honline
      simp only [if_true]
      rcases hres : apiRequest { c with db := db1 } e "/posts" data with ⟨c2, ans⟩
      rw [hres] at hreq
      simp only at hreq
      rcases ans with _ | _ | serverId <;> simp [hreq, hq]

theorem apiCreateGroup_queue (c : Client) (e : CallEnv) (data : Fields) :
    (apiCreateGroup c e data).1.db.syncQueue = c.db.syncQueue := by
  unfold apiCreateGroup
  cases hcreate : c.db.createGroup e data with
  | none => rfl
  | some r =>
    obtain ⟨db1, key⟩ := r
    have hq : db1.syncQueue = c.db.syncQueue := by
      unfold LocalDb.createGroup at hcreate
      split at hcreate
      · simp only [Option.some.injEq, Prod.mk.injEq] at hcreate
        rw [← hcreate.1]
      · simp at hcreate
    cases honline : e.online with
    | false => simpa using hq
    | true =>
      have hreq := apiRequest_online_queue { c with db := db1 } e "/groups" data honline
      simp only [if_true]
      rcases hres : apiRequest { c with db := db1 } e "/groups" data with ⟨c2, ans⟩
      rw [hres] at hreq
      simp only at hreq
      rcases ans with _ | _ | serverId <;> simp [hreq, hq]

/-- What one iteration of `syncNow` does to the queue and to the counters: the entry is
removed and counted as synced, or its retry counter is set and it is counted as failed. -/
theorem syncNowItem_queue (env : Nat → CallEnv) (s : Client × Nat × Nat) (item : QueueEntry) :
    ((syncNowItem env s item).1.db.syncQueue =
        s.1.db.syncQueue.filter (fun q => q.id != item.id) ∧
      (syncNowItem env s item).2 = (s.2.1 + 1, s.2.2)) ∨
    ((syncNowItem env s item).1.db.syncQueue =
        s.1.db.syncQueue.map (fun q =>
          if q.id = item.id then { q with retries := some (item.retries.getD 0 + 1) } else q) ∧
      (syncNowItem env s item).2 = (s.2.1, s.2.2 + 1)) := by
  by_cases hp : item.entityType = "posts"
  · have hq := apiCreatePost_queue s.1 (env item.id) item.data
    cases h : (apiCreatePost s.1 (env item.id) item.data).2
    · right
      simp [syncNowItem, hp, h, LocalDb.setRetries, hq]
    · left
      simp [syncNowItem, hp, h, LocalDb.removeFromSyncQueue, hq]
  · by_cases hg : item.entityType = "groups"
    · have hq := apiCreateGroup_queue s.1 (env item.id) item.data
      cases h : (apiCreateGroup s.1 (env item.id) item.data).2
      · right
        simp [syncNowItem, hg, h, LocalDb.setRetries, hq]
      · left
        simp [syncNowItem, hg, h, LocalDb.removeFromSyncQueue, hq]
    · left
      simp [syncNowItem, hp, hg, LocalDb.removeFromSyncQueue]

theorem syncNow_fold_attempts (env : Nat → CallEnv) (items : List QueueEntry)
    (s : Client × Nat × Nat) (done : List QueueEntry)
    (hnodup : ((done ++ items).map QueueEntry.id).Nodup)
    (hdone : ∀ item ∈ done, ∀ q ∈ s.1.db.syncQueue, q.id = item.id →
      q.retries = some (item.retries.getD 0 + 1)) :
    (∀ item ∈ done ++ items, ∀ q ∈ (items.foldl (syncNowItem env) s).1.db.syncQueue,
      q.id = item.id → q.retries = some (item.retries.getD 0 + 1)) ∧
    (items.foldl (syncNowItem env) s).2.1 + (items.foldl (syncNowItem env) s).2.2 =
      s.2.1 + s.2.2 + items.length := by
  induction items generalizing s done with
  | nil =>
    simp only [List.append_nil, List.foldl_nil, List.length_nil, Nat.add_zero, and_true]
    exact hdone
  | cons x rest ih =>
    have hnodup2 : (((done ++ [x]) ++ rest).map QueueEntry.id).Nodup := by
      simpa using hnodup
    have hstep := syncNowItem_queue env s x
    have hdone2 : ∀ item ∈ done ++ [x], ∀ q ∈ (syncNowItem env s x).1.db.syncQueue,
        q.id = item.id → q.retries = some (item.retries.getD 0 + 1) := by
      intro item hitem q hq hid
      rcases hstep with ⟨hqueue, _⟩ | ⟨hqueue, _⟩
      · rw [hqueue, List.mem_filter] at hq
        rcases List.mem_append.mp hitem with hmem | hmem
        · exact hdone item hmem q hq.1 hid
        · rw [List.mem_singleton] at hmem
          subst hmem
          simp [hid] at hq
      · rw [hqueue, List.mem_map] at hq
        obtain ⟨p, hp, hpq⟩ := hq
        rcases List.mem_append.mp hitem with hmem | hmem
        · have hne : item.id ≠ x.id := by
            intro heq
            rw [List.map_append, List.map_cons, List.nodup_append] at hnodup
            exact hnodup.2.2 (List.mem_map_of_mem QueueEntry.id hmem)
              (by rw [heq]; exact List.mem_cons_self _ _)
          by_cases hpx : p.id = x.id
          · rw [if_pos hpx] at hpq
            rw [← hpq] at hid
            exact absurd (hid.symm.trans hpx) hne
          · rw [if_neg hpx] at hpq
            rw [← hpq] at hid ⊢
            exact hdone item hmem p hp hid
        · rw [List.mem_singleton] at hmem
          subst hmem
          by_cases hpx : p.id = item.id
          · rw [if_pos hpx] at hpq
            rw [← hpq]
          · rw [if_neg hpx] at hpq
            rw [← hpq] at hid
            exact absurd hid hpx
    have hrec := ih (syncNowItem env s x) (done ++ [x]) hnodup2 hdone2
    have hcount : (syncNowItem env s x).2.1 + (syncNowItem env s x).2.2 =
        s.2.1 + s.2.2 + 1 := by
      rcases hstep with ⟨_, hc⟩ | ⟨_, hc⟩ <;> rw [hc] <;> simp only [] <;> omega
    refine ⟨?_, ?_⟩
    · intro item hitem
      exact hrec.1 item (by simpa using hitem)
    · simp only [List.foldl_cons, List.length_cons]
      rw [hrec.2, hcount]
      omega

/-- C21, refuted as stated: with eleven entries in the queue the outer loop of `syncNow`
forms a slice of ten entries and a slice of one; the batch size of the cycle is 10. -/
theorem sync_batches_of_ten :
    elevenQueued.syncQueue.length = 11 ∧
    (syncNowBatches (clientOf elevenQueued)).map (fun b => b.map QueueEntry.id) =
      [[1, 2, 3, 4, 5, 6, 7, 8, 9, 10], [11]] := by
  decide

/-- C21, amended: a cycle of `syncNow` that is not already running cuts the entries it read
with `getPendingSyncs()` into consecutive slices of at most 10 and visits them one by one in
that order; every entry read is attempted, that is, counted as synced or as failed, and
after the cycle it has left the queue or carries a retry counter raised by one. -/
theorem sync_cycle_attempts_what_it_read (c : Client) (env : Nat → CallEnv) (now : Nat)
    (hidle : c.isSyncing = false)
    (hids : (c.db.syncQueue.map QueueEntry.id).Nodup) :
    (∀ b ∈ syncNowBatches c, b.length ≤ 10) ∧
    (syncNowBatches c).flatten = c.db.getPendingSyncs 20 ∧
    (syncNow c env now).1.db = (syncNowLoops env c).1.db ∧
    (syncNow c env now).1.sent = (syncNowLoops env c).1.sent ∧
    (syncNow c env now).2 =
      some { success := true, synced := (syncNowLoops env c).2.1,
             errors := (syncNowLoops env c).2.2 } ∧
    (syncNowLoops env c).2.1 + (syncNowLoops env c).2.2 = (c.db.getPendingSyncs 20).length ∧
    (∀ item ∈ c.db.getPendingSyncs 20, ∀ q ∈ (syncNow c env now).1.db.syncQueue,
      q.id = item.id → q.retries = some (item.retries.getD 0 + 1)) := by
  have hloops : syncNowLoops env c =
      (c.db.getPendingSyncs 20).foldl (syncNowItem env)
        ({ c with isSyncing := true, syncError := none }, 0, 0) :=
    foldl_slices (syncNowItem env) 10 (by decide) _ _ (Nat.le_refl _) _
  have hfold := syncNow_fold_attempts env (c.db.getPendingSyncs 20)
    ({ c with isSyncing := true, syncError := none }, 0, 0) []
    (by simpa using getPendingSyncs_nodup c.db 20 hids)
    (by intro item hitem; cases hitem)
  rw [← hloops] at hfold
  have hrun : syncNow c env now =
      ({ (syncNowLoops env c).1 with
          isSyncing := false
          lastSync := some now
          syncError :=
            if 0 < (syncNowLoops env c).2.2 then
              some (toString (syncNowLoops env c).2.2 ++ " items failed to sync")
            else none
          pendingCount := (syncNowLoops env c).1.db.syncQueue.length },
       some { success := true, synced := (syncNowLoops env c).2.1,
              errors := (syncNowLoops env c).2.2 }) := by
    rw [hloops]
    simp [syncNow, hidle]
  refine ⟨slices_length_le 10 _ _, slices_flatten 10 (by decide) _ _ (Nat.le_refl _), ?_, ?_,
    ?_, ?_, ?_⟩
  · rw [hrun]
  · rw [hrun]
  · rw [hrun]
  · simpa using hfold.2
  · rw [hrun]
    simpa using hfold.1

theorem sync_cycle_attempts_what_it_read_witness :
    (clientOf oneCreateQueued).isSyncing = false ∧
    ((clientOf oneCreateQueued).db.syncQueue.map QueueEntry.id).Nodup ∧
    (syncNowLoops failingEnv (clientOf oneCreateQueued)).2.1 +
        (syncNowLoops failingEnv (clientOf oneCreateQueued)).2.2 =
      ((clientOf oneCreateQueued).db.getPendingSyncs 20).length :=
  ⟨rfl, by decide,
    (sync_cycle_attempts_what_it_read (clientOf oneCreateQueued) failingEnv 100 rfl
      (by decide)).2.2.2.2.2.1⟩

end Fastline
